import Mathlib

/-!
Verification development for the G-Basic compiler core
(lexer, parser, type checker, IR generator).

The Rust sources are shallowly embedded: byte/char positions are modelled
as `Nat` offsets into the character sequence of the source (the embedding
treats sources as ASCII, which all language syntax is), 64-bit integers as
`Int` with the i64 range check made explicit where the source performs it,
and `f64` literals as their source slices (no claim depends on float
arithmetic). Fallible code returns an explicit result type. Recursive
descent is modelled with an explicit fuel parameter; fuel exhaustion is a
distinct result that never occurs for the concrete fuel values used.
-/

namespace GBasic

/-! ## Span (src/compiler/common/src/span.rs)

`Span.stop` models the Rust field `end` (a reserved word in Lean). -/

structure Span where
  start : Nat
  stop : Nat
deriving DecidableEq, Repr

def Span.merge (s : Span) (other : Span) : Span :=
  ⟨min s.start other.start, max s.stop other.stop⟩

def Span.dummy : Span := ⟨0, 0⟩

def Span.len (s : Span) : Nat := s.stop - s.start

/-- Alias used inside inductives whose constructor names shadow `String`. -/
abbrev Str := String

/-- Alias for the mathematical integers modelling Rust `i64` values. -/
abbrev I64 := Int

/-! ## Types (src/compiler/common/src/types.rs) -/

inductive Ty where
  | Int
  | Float
  | String
  | Bool
  | Void
  | Array (inner : Ty)
  | Sprite
  | Layer
  | Sound
  | Instrument
  | Timer
  | Function (params : List Ty) (ret : Ty)
  | Unknown
deriving Repr

mutual

/-- Structural equality on types (the derived `PartialEq` in Rust). -/
def tyBeq : Ty → Ty → Bool
  | .Int, .Int => true
  | .Float, .Float => true
  | .String, .String => true
  | .Bool, .Bool => true
  | .Void, .Void => true
  | .Array a, .Array b => tyBeq a b
  | .Sprite, .Sprite => true
  | .Layer, .Layer => true
  | .Sound, .Sound => true
  | .Instrument, .Instrument => true
  | .Timer, .Timer => true
  | .Function ps r, .Function qs s => tyBeqList ps qs && tyBeq r s
  | .Unknown, .Unknown => true
  | _, _ => false

/-- Pointwise structural equality on parameter lists. -/
def tyBeqList : List Ty → List Ty → Bool
  | [], [] => true
  | a :: as, b :: bs => tyBeq a b && tyBeqList as bs
  | _, _ => false

end

theorem tyBeq_iff_sized : ∀ n : Nat,
    (∀ a b : Ty, sizeOf a ≤ n → (tyBeq a b = true ↔ a = b)) ∧
    (∀ l m : List Ty, sizeOf l ≤ n → (tyBeqList l m = true ↔ l = m)) := by
  intro n
  induction n using Nat.strong_induction_on with
  | _ n ih =>
    constructor
    · intro a b ha
      cases a <;> cases b <;> simp only [tyBeq] <;> try simp
      case Array.Array x y =>
        have hx : sizeOf x < n := by
          have : sizeOf x < sizeOf (Ty.Array x) := by simp
          omega
        have := (ih _ hx).1 x y (le_refl _)
        simpa using this
      case Function.Function ps r qs s =>
        have hps : sizeOf ps < n := by
          have : sizeOf ps < sizeOf (Ty.Function ps r) := by simp <;> omega
          omega
        have hr : sizeOf r < n := by
          have : sizeOf r < sizeOf (Ty.Function ps r) := by simp <;> omega
          omega
        have h1 := (ih _ hps).2 ps qs (le_refl _)
        have h2 := (ih _ hr).1 r s (le_refl _)
        simp [h1, h2]
    · intro l m hl
      cases l <;> cases m <;> simp only [tyBeqList] <;> try simp
      case cons.cons a as b bs =>
        have hha : sizeOf a < n := by
          have : sizeOf a < sizeOf (a :: as) := by simp <;> omega
          omega
        have hta : sizeOf as < n := by
          have : sizeOf as < sizeOf (a :: as) := by simp <;> omega
          omega
        have h1 := (ih _ hha).1 a b (le_refl _)
        have h2 := (ih _ hta).2 as bs (le_refl _)
        simp [h1, h2]

theorem tyBeq_iff (a b : Ty) : tyBeq a b = true ↔ a = b :=
  (tyBeq_iff_sized (sizeOf a)).1 a b (le_refl _)

instance : DecidableEq Ty := fun a b =>
  decidable_of_iff (tyBeq a b = true) (tyBeq_iff a b)

/-! ## Errors (src/compiler/common/src/error.rs) -/

inductive GBError where
  | SyntaxError (message : String) (span : Span)
  | TypeError (message : String) (span : Span)
  | NameError (message : String) (span : Span)
  | CodegenError (message : String) (span : Option Span)
  | InternalError (message : String)
deriving DecidableEq, Repr

/-! ## Tokens (src/compiler/lexer/src/token.rs)

Constructor `Io` models the Rust variant `IO`; `ErrorTok` models `Error`.
Float literals carry their source slice. -/

set_option maxHeartbeats 1000000 in
inductive Token where
  | Let | Fun | Fn | If | Else | For | In | While | Match
  | Return | Break | Continue | True | False | And | Or | Not
  | Screen | Sound | Input | Math | System | Memory | Io | Asset
  | TyInt | TyFloat | TyString | TyBool | TyVoid
  | Int (v : I64)
  | Float (slice : Str)
  | String (s : Str)
  | Ident (s : Str)
  | Plus | Minus | Star | Slash | Percent
  | EqEq | BangEq | LtEq | GtEq | Lt | Gt
  | AmpAmp | PipePipe | Bang | Eq
  | LParen | RParen | LBrace | RBrace | LBracket | RBracket
  | Comma | DotDot | Dot | Colon | Semicolon | Arrow
  | Newline | Eof | ErrorTok
deriving Repr

/-- Injective encoding of a token as tag/string/integer (the equality
instance is hand-rolled over it: the derived two-scrutinee instance
produces a matcher with thousands of nested binders). -/
def Token.enc : Token → Nat × Str × I64
  | .Let => (0, "", 0)
  | .Fun => (1, "", 0)
  | .Fn => (2, "", 0)
  | .If => (3, "", 0)
  | .Else => (4, "", 0)
  | .For => (5, "", 0)
  | .In => (6, "", 0)
  | .While => (7, "", 0)
  | .Match => (8, "", 0)
  | .Return => (9, "", 0)
  | .Break => (10, "", 0)
  | .Continue => (11, "", 0)
  | .True => (12, "", 0)
  | .False => (13, "", 0)
  | .And => (14, "", 0)
  | .Or => (15, "", 0)
  | .Not => (16, "", 0)
  | .Screen => (17, "", 0)
  | .Sound => (18, "", 0)
  | .Input => (19, "", 0)
  | .Math => (20, "", 0)
  | .System => (21, "", 0)
  | .Memory => (22, "", 0)
  | .Io => (23, "", 0)
  | .Asset => (24, "", 0)
  | .TyInt => (25, "", 0)
  | .TyFloat => (26, "", 0)
  | .TyString => (27, "", 0)
  | .TyBool => (28, "", 0)
  | .TyVoid => (29, "", 0)
  | .Int v => (30, "", v)
  | .Float s => (31, s, 0)
  | .String s => (32, s, 0)
  | .Ident s => (33, s, 0)
  | .Plus => (34, "", 0)
  | .Minus => (35, "", 0)
  | .Star => (36, "", 0)
  | .Slash => (37, "", 0)
  | .Percent => (38, "", 0)
  | .EqEq => (39, "", 0)
  | .BangEq => (40, "", 0)
  | .LtEq => (41, "", 0)
  | .GtEq => (42, "", 0)
  | .Lt => (43, "", 0)
  | .Gt => (44, "", 0)
  | .AmpAmp => (45, "", 0)
  | .PipePipe => (46, "", 0)
  | .Bang => (47, "", 0)
  | .Eq => (48, "", 0)
  | .LParen => (49, "", 0)
  | .RParen => (50, "", 0)
  | .LBrace => (51, "", 0)
  | .RBrace => (52, "", 0)
  | .LBracket => (53, "", 0)
  | .RBracket => (54, "", 0)
  | .Comma => (55, "", 0)
  | .DotDot => (56, "", 0)
  | .Dot => (57, "", 0)
  | .Colon => (58, "", 0)
  | .Semicolon => (59, "", 0)
  | .Arrow => (60, "", 0)
  | .Newline => (61, "", 0)
  | .Eof => (62, "", 0)
  | .ErrorTok => (63, "", 0)

/-- Decoder inverse to `Token.enc`. -/
def Token.dec (k : Nat) (s : Str) (v : I64) : Token :=
  match k with
  | 0 => .Let
  | 1 => .Fun
  | 2 => .Fn
  | 3 => .If
  | 4 => .Else
  | 5 => .For
  | 6 => .In
  | 7 => .While
  | 8 => .Match
  | 9 => .Return
  | 10 => .Break
  | 11 => .Continue
  | 12 => .True
  | 13 => .False
  | 14 => .And
  | 15 => .Or
  | 16 => .Not
  | 17 => .Screen
  | 18 => .Sound
  | 19 => .Input
  | 20 => .Math
  | 21 => .System
  | 22 => .Memory
  | 23 => .Io
  | 24 => .Asset
  | 25 => .TyInt
  | 26 => .TyFloat
  | 27 => .TyString
  | 28 => .TyBool
  | 29 => .TyVoid
  | 30 => .Int v
  | 31 => .Float s
  | 32 => .String s
  | 33 => .Ident s
  | 34 => .Plus
  | 35 => .Minus
  | 36 => .Star
  | 37 => .Slash
  | 38 => .Percent
  | 39 => .EqEq
  | 40 => .BangEq
  | 41 => .LtEq
  | 42 => .GtEq
  | 43 => .Lt
  | 44 => .Gt
  | 45 => .AmpAmp
  | 46 => .PipePipe
  | 47 => .Bang
  | 48 => .Eq
  | 49 => .LParen
  | 50 => .RParen
  | 51 => .LBrace
  | 52 => .RBrace
  | 53 => .LBracket
  | 54 => .RBracket
  | 55 => .Comma
  | 56 => .DotDot
  | 57 => .Dot
  | 58 => .Colon
  | 59 => .Semicolon
  | 60 => .Arrow
  | 61 => .Newline
  | 62 => .Eof
  | 63 => .ErrorTok
  | _ => .ErrorTok

theorem Token.dec_enc (t : Token) :
    Token.dec t.enc.1 t.enc.2.1 t.enc.2.2 = t := by
  cases t <;> rfl

instance : DecidableEq Token := fun a b =>
  decidable_of_iff (Token.enc a = Token.enc b)
    ⟨fun h => by rw [← Token.dec_enc a, ← Token.dec_enc b, h],
      fun h => by rw [h]⟩

/-- Display impl for Token (used in parser error messages). -/
def Token.display : Token → Str
  | .Let => "let"
  | .Fun => "fun"
  | .Fn => "fn"
  | .If => "if"
  | .Else => "else"
  | .For => "for"
  | .In => "in"
  | .While => "while"
  | .Match => "match"
  | .Return => "return"
  | .Break => "break"
  | .Continue => "continue"
  | .True => "true"
  | .False => "false"
  | .And => "and"
  | .Or => "or"
  | .Not => "not"
  | .Screen => "Screen"
  | .Sound => "Sound"
  | .Input => "Input"
  | .Math => "Math"
  | .System => "System"
  | .Memory => "Memory"
  | .Io => "IO"
  | .Asset => "Asset"
  | .TyInt => "Int"
  | .TyFloat => "Float"
  | .TyString => "String"
  | .TyBool => "Bool"
  | .TyVoid => "Void"
  | .Int v => toString v
  | .Float s => s
  | .String s => "\"" ++ s ++ "\""
  | .Ident s => s
  | .Plus => "+"
  | .Minus => "-"
  | .Star => "*"
  | .Slash => "/"
  | .Percent => "%"
  | .EqEq => "=="
  | .BangEq => "!="
  | .LtEq => "<="
  | .GtEq => ">="
  | .Lt => "<"
  | .Gt => ">"
  | .AmpAmp => "&&"
  | .PipePipe => "||"
  | .Bang => "!"
  | .Eq => "="
  | .LParen => "("
  | .RParen => ")"
  | .LBrace => "\x7b"
  | .RBrace => "\x7d"
  | .LBracket => "["
  | .RBracket => "]"
  | .Comma => ","
  | .DotDot => ".."
  | .Dot => "."
  | .Colon => ":"
  | .Semicolon => ";"
  | .Arrow => "->"
  | .Newline => "\\n"
  | .Eof => "EOF"
  | .ErrorTok => "<error>"

structure SpannedToken where
  token : Token
  span : Span
deriving DecidableEq, Repr

/-- Classify a raw (lowercased) ident into keyword or identifier
(`classify_ident`). -/
def classifyIdent (s : String) : Token :=
  if s = "let" then .Let
  else if s = "fun" then .Fun
  else if s = "fn" then .Fn
  else if s = "if" then .If
  else if s = "else" then .Else
  else if s = "for" then .For
  else if s = "in" then .In
  else if s = "while" then .While
  else if s = "match" then .Match
  else if s = "return" then .Return
  else if s = "break" then .Break
  else if s = "continue" then .Continue
  else if s = "true" then .True
  else if s = "false" then .False
  else if s = "and" then .And
  else if s = "or" then .Or
  else if s = "not" then .Not
  else if s = "screen" then .Screen
  else if s = "sound" then .Sound
  else if s = "input" then .Input
  else if s = "math" then .Math
  else if s = "system" then .System
  else if s = "memory" then .Memory
  else if s = "io" then .Io
  else if s = "asset" then .Asset
  else if s = "int" then .TyInt
  else if s = "float" then .TyFloat
  else if s = "string" then .TyString
  else if s = "bool" then .TyBool
  else if s = "void" then .TyVoid
  else .Ident s

/-! ## Lexer (src/compiler/lexer/src/token.rs, `RawToken` / `tokenize`)

The logos token definitions are realized as a maximal-munch scanner
dispatching on the first character; the character classes of each pattern
are disjoint on their first character, so this reproduces the logos
longest-match behaviour. `braceL`/`braceR` name the brace characters. -/

def braceL : Char := Char.ofNat 123

def braceR : Char := Char.ofNat 125

/-- `[ \t\r]` (the logos skip pattern, minus newline). -/
def isWs (c : Char) : Bool := c = ' ' || c = '\t' || c = '\r'

/-- `[0-9]` (the numeric character class of the literal patterns). -/
def isDigitChar (c : Char) : Bool := 48 ≤ c.toNat && c.toNat ≤ 57

/-- `[a-zA-Z_]` — identifier start. -/
def isIdentStart (c : Char) : Bool :=
  (65 ≤ c.toNat && c.toNat ≤ 90) || (97 ≤ c.toNat && c.toNat ≤ 122) ||
    c.toNat == 95

/-- `[a-zA-Z0-9_]` — identifier continuation. -/
def isIdentChar (c : Char) : Bool := isIdentStart c || isDigitChar c

/-- Rust `str::to_ascii_lowercase` (the `to_lowercase` logos callback);
`Char.toLower` is exactly `char::to_ascii_lowercase`. -/
def asciiLower (cs : List Char) : List Char := cs.map Char.toLower

/-- Rust `str::to_ascii_uppercase`. -/
def asciiUpper (cs : List Char) : List Char := cs.map Char.toUpper

/-- `process_escapes`: translate escape sequences in a string literal body. -/
def processEscapes : List Char → List Char
  | [] => []
  | c :: rest =>
    if c = '\\' then
      match rest with
      | [] => ['\\']
      | d :: rs =>
        if d = 'n' then '\n' :: processEscapes rs
        else if d = 't' then '\t' :: processEscapes rs
        else if d = '\\' then '\\' :: processEscapes rs
        else if d = '"' then '"' :: processEscapes rs
        else if d = braceL then braceL :: processEscapes rs
        else if d = braceR then braceR :: processEscapes rs
        else '\\' :: d :: processEscapes rs
    else c :: processEscapes rest

/-- i64::MAX — `parse::<i64>` fails above this (the logos callback then
yields an error token). -/
def i64Max : Int := 9223372036854775807

/-- Numeric value of a digit run. -/
def digitsToNat (ds : List Char) : Nat :=
  ds.foldl (fun a c => a * 10 + (c.toNat - 48)) 0

/-- Scan a string literal body after the opening quote, per the pattern
`"([^"\\]|\\.)*"`: returns the raw content and the consumed length
including the closing quote, or `none` when the pattern cannot match. -/
def scanStringBody : List Char → Option (List Char × Nat)
  | [] => none
  | c :: rest =>
    if c = '"' then some ([], 1)
    else if c = '\\' then
      match rest with
      | [] => none
      | d :: rs =>
        if d = '\n' then none
        else
          match scanStringBody rs with
          | some (content, k) => some (c :: d :: content, k + 2)
          | none => none
    else
      match scanStringBody rest with
      | some (content, k) => some (c :: content, k + 1)
      | none => none

/-- Scan a block comment body after `/*`, per `([^*]|\*[^/])*\*/`:
returns the consumed length including the closing `*/`. -/
def scanBlockComment : List Char → Option Nat
  | [] => none
  | c :: rest =>
    if c = '*' then
      match rest with
      | [] => none
      | d :: rs =>
        if d = '/' then some 2
        else
          match scanBlockComment rs with
          | some k => some (k + 2)
          | none => none
    else
      match scanBlockComment rest with
      | some k => some (k + 1)
      | none => none

/-- One logos iteration: the token (or `none` for a skip) matched at the
head of the input, with the number of characters consumed (always at
least 1 on nonempty input). The character classes that can begin each
pattern are disjoint, so the first-character dispatch realizes the logos
longest-match behaviour. -/
def lexStep : List Char → Option Token × Nat
  | [] => (none, 0)
  | c :: rest =>
    if isWs c then
      (none, 1 + (rest.takeWhile isWs).length)
    else if isIdentStart c then
      let body := rest.takeWhile isIdentChar
      (some (classifyIdent (String.mk (asciiLower (c :: body)))),
        1 + body.length)
    else if isDigitChar c then
      let ds := rest.takeWhile isDigitChar
      let intLen := 1 + ds.length
      let after := rest.drop ds.length
      let isFloat :=
        match after with
        | dot :: d2 :: _ => dot = '.' && isDigitChar d2
        | _ => false
      if isFloat then
        let frac := (after.drop 1).takeWhile isDigitChar
        let afterFrac := after.drop (1 + frac.length)
        let expLen :=
          match afterFrac with
          | e :: r2 =>
            if e = 'e' || e = 'E' then
              match r2 with
              | sgn :: r3 =>
                if sgn = '+' || sgn = '-' then
                  let eds := r3.takeWhile isDigitChar
                  if eds.isEmpty then 0 else 2 + eds.length
                else
                  let eds := r2.takeWhile isDigitChar
                  if eds.isEmpty then 0 else 1 + eds.length
              | [] => 0
            else 0
          | [] => 0
        let k := intLen + 1 + frac.length + expLen
        (some (.Float (String.mk ((c :: rest).take k))), k)
      else
        let v : Int := digitsToNat (c :: ds)
        ((some (if v ≤ i64Max then Token.Int v else Token.ErrorTok)), intLen)
    else if c = '"' then
      match scanStringBody rest with
      | some (content, k) =>
        (some (.String (String.mk (processEscapes content))), 1 + k)
      | none => (some .ErrorTok, 1)
    else if c = '\n' then
      (some .Newline, 1)
    else if c = '/' then
      match rest with
      | d :: rs =>
        if d = '/' then
          (none, 2 + (rs.takeWhile (fun x => x ≠ '\n')).length)
        else if d = '*' then
          match scanBlockComment rs with
          | some k => (none, 2 + k)
          | none => (some .Slash, 1)
        else (some .Slash, 1)
      | [] => (some .Slash, 1)
    else
      let two : Option Token :=
        match rest with
        | d :: _ =>
          if c = '=' && d = '=' then some .EqEq
          else if c = '!' && d = '=' then some .BangEq
          else if c = '<' && d = '=' then some .LtEq
          else if c = '>' && d = '=' then some .GtEq
          else if c = '&' && d = '&' then some .AmpAmp
          else if c = '|' && d = '|' then some .PipePipe
          else if c = '.' && d = '.' then some .DotDot
          else if c = '-' && d = '>' then some .Arrow
          else none
        | [] => none
      match two with
      | some t => (some t, 2)
      | none =>
        let one : Token :=
          if c = '+' then .Plus
          else if c = '-' then .Minus
          else if c = '*' then .Star
          else if c = '%' then .Percent
          else if c = '<' then .Lt
          else if c = '>' then .Gt
          else if c = '=' then .Eq
          else if c = '!' then .Bang
          else if c = '(' then .LParen
          else if c = ')' then .RParen
          else if c = braceL then .LBrace
          else if c = braceR then .RBrace
          else if c = '[' then .LBracket
          else if c = ']' then .RBracket
          else if c = ',' then .Comma
          else if c = '.' then .Dot
          else if c = ':' then .Colon
          else if c = ';' then .Semicolon
          else .ErrorTok
        (some one, 1)

/-- The main scan loop: one `lexStep` per iteration, each consuming at
least one character, so any fuel exceeding the input length yields the
complete token stream. A matched token spans exactly the consumed
characters. -/
def lexGo : Nat → List Char → Nat → List SpannedToken
  | 0, _, _ => []
  | _ + 1, [], _ => []
  | fuel + 1, c :: rest, pos =>
    let r := lexStep (c :: rest)
    match r.1 with
    | some t =>
      ⟨t, ⟨pos, pos + r.2⟩⟩ :: lexGo fuel ((c :: rest).drop r.2) (pos + r.2)
    | none => lexGo fuel ((c :: rest).drop r.2) (pos + r.2)

/-- `tokenize`: scan the whole source and append the EOF token. -/
def tokenize (s : String) : List SpannedToken :=
  lexGo (s.length + 1) s.toList 0 ++ [⟨.Eof, ⟨s.length, s.length⟩⟩]

example :
    tokenize "let x = 42" =
      [⟨.Let, ⟨0, 3⟩⟩, ⟨.Ident "x", ⟨4, 5⟩⟩, ⟨.Eq, ⟨6, 7⟩⟩,
        ⟨.Int 42, ⟨8, 10⟩⟩, ⟨.Eof, ⟨10, 10⟩⟩] := by decide

example :
    tokenize "LET X = 42" =
      [⟨.Let, ⟨0, 3⟩⟩, ⟨.Ident "x", ⟨4, 5⟩⟩, ⟨.Eq, ⟨6, 7⟩⟩,
        ⟨.Int 42, ⟨8, 10⟩⟩, ⟨.Eof, ⟨10, 10⟩⟩] := by decide

example :
    (tokenize "for i in 0..3").map SpannedToken.token =
      [.For, .Ident "i", .In, .Int 0, .DotDot, .Int 3, .Eof] := by decide

/-! ### Lexer lemmas for case-insensitivity (claim C9) -/

theorem toNat_ofNat_valid (n : Nat) (h : n < 55296) :
    (Char.ofNat n).toNat = n := by
  have hv : n.isValidChar := Or.inl h
  rw [Char.ofNat, dif_pos hv]
  simp [Char.ofNatAux, Char.toNat, UInt32.toNat, BitVec.toNat_ofNatLt]

theorem char_eq_of_toNat_eq {c d : Char} (h : c.toNat = d.toNat) : c = d := by
  have h1 := Char.ofNat_toNat c
  have h2 := Char.ofNat_toNat d
  rw [← h1, ← h2, h]

theorem toNat_toLower (c : Char) :
    (Char.toLower c).toNat =
      if 65 ≤ c.toNat ∧ c.toNat ≤ 90 then c.toNat + 32 else c.toNat := by
  rw [Char.toLower]
  by_cases h : 65 ≤ c.toNat ∧ c.toNat ≤ 90
  · rw [if_pos ⟨h.1, h.2⟩, if_pos h, toNat_ofNat_valid _ (by omega)]
  · rw [if_neg, if_neg h]
    intro hc
    exact h ⟨hc.1, hc.2⟩

theorem toNat_toUpper (c : Char) :
    (Char.toUpper c).toNat =
      if 97 ≤ c.toNat ∧ c.toNat ≤ 122 then c.toNat - 32 else c.toNat := by
  rw [Char.toUpper]
  by_cases h : 97 ≤ c.toNat ∧ c.toNat ≤ 122
  · rw [if_pos ⟨h.1, h.2⟩, if_pos h, toNat_ofNat_valid _ (by omega)]
  · rw [if_neg, if_neg h]
    intro hc
    exact h ⟨hc.1, hc.2⟩

theorem toLower_toLower (c : Char) :
    Char.toLower (Char.toLower c) = Char.toLower c := by
  apply char_eq_of_toNat_eq
  rw [toNat_toLower, toNat_toLower]
  split_ifs <;> omega

theorem toLower_toUpper (c : Char) :
    Char.toLower (Char.toUpper c) = Char.toLower c := by
  apply char_eq_of_toNat_eq
  rw [toNat_toLower, toNat_toUpper, toNat_toLower]
  split_ifs <;> omega

theorem isIdentStart_iff (c : Char) :
    isIdentStart c = true ↔
      (65 ≤ c.toNat ∧ c.toNat ≤ 90) ∨ (97 ≤ c.toNat ∧ c.toNat ≤ 122) ∨
        c.toNat = 95 := by
  simp [isIdentStart, Bool.or_eq_true, Bool.and_eq_true,
    decide_eq_true_eq, Nat.le_iff_lt_or_eq, beq_iff_eq]
  omega

theorem isIdentChar_iff (c : Char) :
    isIdentChar c = true ↔
      (65 ≤ c.toNat ∧ c.toNat ≤ 90) ∨ (97 ≤ c.toNat ∧ c.toNat ≤ 122) ∨
        c.toNat = 95 ∨ (48 ≤ c.toNat ∧ c.toNat ≤ 57) := by
  simp [isIdentChar, isIdentStart, isDigitChar, Bool.or_eq_true,
    Bool.and_eq_true, decide_eq_true_eq, beq_iff_eq]
  omega

theorem isIdentStart_toLower {c : Char} (h : isIdentStart c = true) :
    isIdentStart (Char.toLower c) = true := by
  rw [isIdentStart_iff] at h ⊢
  rw [toNat_toLower]
  split <;> omega

theorem isIdentStart_toUpper {c : Char} (h : isIdentStart c = true) :
    isIdentStart (Char.toUpper c) = true := by
  rw [isIdentStart_iff] at h ⊢
  rw [toNat_toUpper]
  split <;> omega

theorem isIdentChar_toLower {c : Char} (h : isIdentChar c = true) :
    isIdentChar (Char.toLower c) = true := by
  rw [isIdentChar_iff] at h ⊢
  rw [toNat_toLower]
  split <;> omega

theorem isIdentChar_toUpper {c : Char} (h : isIdentChar c = true) :
    isIdentChar (Char.toUpper c) = true := by
  rw [isIdentChar_iff] at h ⊢
  rw [toNat_toUpper]
  split <;> omega

theorem identStart_not_ws {c : Char} (h : isIdentStart c = true) :
    isWs c = false := by
  cases hw : isWs c
  · rfl
  · exfalso
    simp only [isWs, Bool.or_eq_true, decide_eq_true_eq] at hw
    rcases hw with (h1 | h1) | h1 <;> subst h1 <;>
      exact absurd h (by decide)

theorem identStart_not_digit {c : Char} (h : isIdentStart c = true) :
    isDigitChar c = false := by
  cases hd : isDigitChar c
  · rfl
  · exfalso
    simp only [isDigitChar, Bool.and_eq_true, decide_eq_true_eq] at hd
    rw [isIdentStart_iff] at h
    omega

theorem lexGo_nil (f pos : Nat) : lexGo f [] pos = [] := by
  cases f <;> rfl

theorem takeWhile_eq_self_of_all {p : Char → Bool} {l : List Char}
    (h : ∀ x ∈ l, p x = true) : l.takeWhile p = l := by
  induction l with
  | nil => rfl
  | cons a as ih =>
    rw [List.takeWhile_cons, h a (by simp)]
    simp [ih (fun x hx => h x (by simp [hx]))]

/-- Scanning an identifier-shaped character sequence yields one classified
token (the lowercased text) spanning all of it. -/
theorem lexGo_ident (f : Nat) (c : Char) (cs : List Char) (pos : Nat)
    (h1 : isIdentStart c = true) (h2 : ∀ x ∈ cs, isIdentChar x = true) :
    lexGo (f + 1) (c :: cs) pos =
      [⟨classifyIdent (String.mk (asciiLower (c :: cs))),
        ⟨pos, pos + (1 + cs.length)⟩⟩] := by
  have hws : isWs c = false := identStart_not_ws h1
  have htake : cs.takeWhile isIdentChar = cs := takeWhile_eq_self_of_all h2
  have hstep : lexStep (c :: cs) =
      (some (classifyIdent (String.mk (asciiLower (c :: cs)))),
        1 + cs.length) := by
    rw [lexStep.eq_def]
    simp only [hws, Bool.false_eq_true, if_false, h1, if_true, htake]
  have hdrop : (c :: cs).drop (1 + cs.length) = [] :=
    List.drop_eq_nil_of_le (by simp [Nat.add_comm])
  rw [lexGo.eq_def]
  simp only [hstep, hdrop, lexGo_nil]

/-- Shape of a keyword or identifier text: a nonempty run of
`[A-Za-z_][A-Za-z0-9_]*`. -/
def identShapedB : List Char → Bool
  | [] => false
  | c :: cs => isIdentStart c && cs.all isIdentChar

theorem asciiLower_asciiLower (l : List Char) :
    asciiLower (asciiLower l) = asciiLower l := by
  simp only [asciiLower, List.map_map]
  exact List.map_congr_left fun a _ => by
    simp [Function.comp, toLower_toLower]

theorem asciiLower_asciiUpper (l : List Char) :
    asciiLower (asciiUpper l) = asciiLower l := by
  simp only [asciiLower, asciiUpper, List.map_map]
  exact List.map_congr_left fun a _ => by
    simp [Function.comp, toLower_toUpper]

/-! ## AST (src/compiler/common/src/ast.rs)

Aliases (`Bl`, `IdentNode`, …) only work around Lean constructor-name
shadowing inside the inductive declarations; the constructor names are the
Rust variant names. -/

abbrev Bl := Bool

structure Identifier where
  name : Str
  span : Span
deriving DecidableEq, Repr

abbrev IdentNode := Identifier

inductive LiteralKind where
  | Int (v : I64)
  | Float (slice : Str)
  | String (s : Str)
  | Bool (b : Bl)
deriving DecidableEq, Repr

structure Literal where
  kind : LiteralKind
  span : Span
deriving DecidableEq, Repr

abbrev LitNode := Literal

inductive BinaryOp where
  | Add | Sub | Mul | Div | Mod
  | Eq | Neq | Lt | Gt | Le | Ge
  | And | Or
deriving DecidableEq, Repr

abbrev BinOp := BinaryOp

/-- Display impl for BinaryOp. -/
def BinaryOp.display : BinaryOp → Str
  | .Add => "+"
  | .Sub => "-"
  | .Mul => "*"
  | .Div => "/"
  | .Mod => "%"
  | .Eq => "=="
  | .Neq => "!="
  | .Lt => "<"
  | .Gt => ">"
  | .Le => "<="
  | .Ge => ">="
  | .And => "&&"
  | .Or => "||"

inductive UnaryOp where
  | Neg
  | Not
deriving DecidableEq, Repr

abbrev UnOp := UnaryOp

/-- `NamespaceRef`; `Io` models the Rust variant `IO`. -/
inductive NamespaceRef where
  | Screen | Sound | Input | Math | System | Memory | Io | Asset
deriving DecidableEq, Repr

abbrev NsRef := NamespaceRef

/-- Display impl for NamespaceRef. -/
def NamespaceRef.display : NamespaceRef → Str
  | .Screen => "Screen"
  | .Sound => "Sound"
  | .Input => "Input"
  | .Math => "Math"
  | .System => "System"
  | .Memory => "Memory"
  | .Io => "IO"
  | .Asset => "Asset"

inductive Pattern where
  | Literal (lit : LitNode)
  | Identifier (id : IdentNode)
  | Wildcard (span : Span)
deriving DecidableEq, Repr

mutual

inductive Expression where
  | Literal (lit : LitNode)
  | Identifier (id : IdentNode)
  | BinaryOp (left : Expression) (op : BinOp) (right : Expression) (span : Span)
  | UnaryOp (op : UnOp) (operand : Expression) (span : Span)
  | Call (callee : Expression) (args : List Expression) (span : Span)
  | Index (object : Expression) (index : Expression) (span : Span)
  | MethodChain (base : NsRef) (chain : List MethodCall) (span : Span)
  | FieldAccess (object : Expression) (field : IdentNode) (span : Span)
  | Array (elements : List Expression) (span : Span)
  | Assignment (target : Expression) (value : Expression) (span : Span)
  | StringInterp (parts : List StringPart) (span : Span)
  | Range (start : Expression) (stop : Expression) (span : Span)

inductive MethodCall where
  | mk (method : IdentNode) (args : List Expression) (span : Span)

inductive StringPart where
  | Lit (s : Str)
  | Expr (e : Expression)

end

def MethodCall.method : MethodCall → Identifier
  | .mk m _ _ => m

def MethodCall.args : MethodCall → List Expression
  | .mk _ a _ => a

def MethodCall.span : MethodCall → Span
  | .mk _ _ s => s

/-- `Expression::span`. -/
def Expression.span : Expression → Span
  | .Literal lit => lit.span
  | .Identifier id => id.span
  | .BinaryOp _ _ _ s => s
  | .UnaryOp _ _ s => s
  | .Call _ _ s => s
  | .Index _ _ s => s
  | .MethodChain _ _ s => s
  | .FieldAccess _ _ s => s
  | .Array _ s => s
  | .Assignment _ _ s => s
  | .StringInterp _ s => s
  | .Range _ _ s => s

structure Parameter where
  name : IdentNode
  typeAnn : Option Ty
  span : Span
deriving DecidableEq, Repr

abbrev Expr := Expression

mutual

inductive Statement where
  | Let (name : IdentNode) (typeAnn : Option Ty) (value : Expr) (span : Span)
  | Function (decl : FunctionDecl)
  | If (condition : Expr) (thenBlock : Block) (elseBlock : Option Block)
      (span : Span)
  | For (var : IdentNode) (iterable : Expr) (body : Block) (span : Span)
  | While (condition : Expr) (body : Block) (span : Span)
  | Match (subject : Expr) (arms : List MatchArm) (span : Span)
  | Return (value : Option Expr) (span : Span)
  | Break (span : Span)
  | Continue (span : Span)
  | Expression (expr : Expr) (span : Span)
  | Block (b : Block)

inductive Block where
  | mk (statements : List Statement) (span : Span)

inductive FunctionDecl where
  | mk (name : IdentNode) (params : List Parameter) (returnType : Option Ty)
      (body : Block) (span : Span)

inductive MatchArm where
  | mk (pattern : Pattern) (body : Block) (span : Span)

end

def Block.statements : Block → List Statement
  | .mk stmts _ => stmts

def Block.span : Block → Span
  | .mk _ s => s

def FunctionDecl.name : FunctionDecl → Identifier
  | .mk n _ _ _ _ => n

def FunctionDecl.params : FunctionDecl → List Parameter
  | .mk _ p _ _ _ => p

def FunctionDecl.returnType : FunctionDecl → Option Ty
  | .mk _ _ r _ _ => r

def FunctionDecl.body : FunctionDecl → Block
  | .mk _ _ _ b _ => b

def FunctionDecl.span : FunctionDecl → Span
  | .mk _ _ _ _ s => s

def MatchArm.pattern : MatchArm → Pattern
  | .mk p _ _ => p

def MatchArm.body : MatchArm → Block
  | .mk _ b _ => b

def MatchArm.span : MatchArm → Span
  | .mk _ _ s => s

/-- `Statement::span`. -/
def Statement.span : Statement → Span
  | .Let _ _ _ s => s
  | .Function f => f.span
  | .If _ _ _ s => s
  | .For _ _ _ s => s
  | .While _ _ s => s
  | .Match _ _ s => s
  | .Return _ s => s
  | .Break s => s
  | .Continue s => s
  | .Expression _ s => s
  | .Block b => b.span

structure Program where
  statements : List Statement
  span : Span

/-! ## Parser (src/compiler/parser: lib.rs, expr.rs, stmt.rs,
method_chain.rs)

`PState` models the `Parser` struct. Results carry the mutated state (the
Rust parser mutates `self.pos` before returning an error). The `fuel`
result models only the bounded-recursion encoding and never occurs on any
token stream ending in `Eof` when the fuel exceeds the recursion depth;
the loop helpers (`skipNewlinesGo`, …) likewise terminate in the source
because every token stream ends with `Eof`. -/

structure PState where
  tokens : List SpannedToken
  pos : Nat
  errors : List GBError

def PState.curTok (st : PState) : SpannedToken :=
  st.tokens.getD st.pos ⟨.Eof, Span.dummy⟩

def PState.current (st : PState) : Token := st.curTok.token

def PState.currentSpan (st : PState) : Span := st.curTok.span

def PState.advance (st : PState) : PState :=
  if st.pos < st.tokens.length - 1 then { st with pos := st.pos + 1 } else st

def PState.atEnd (st : PState) : Bool := st.current = Token.Eof

def skipNewlinesGo : Nat → PState → PState
  | 0, st => st
  | n + 1, st =>
    if st.current = Token.Newline then skipNewlinesGo n st.advance else st

def PState.skipNewlines (st : PState) : PState :=
  skipNewlinesGo (st.tokens.length + 1) st

def consumeTerminatorGo : Nat → PState → PState
  | 0, st => st
  | n + 1, st =>
    if st.current = Token.Newline ∨ st.current = Token.Semicolon then
      consumeTerminatorGo n st.advance
    else st

def PState.consumeTerminator (st : PState) : PState :=
  consumeTerminatorGo (st.tokens.length + 1) st

def synchronizeGo : Nat → PState → PState
  | 0, st => st
  | n + 1, st =>
    match st.current with
    | .Eof => st
    | .Let | .Fun | .Fn | .If | .For | .While
    | .Match | .Return | .Break | .Continue => st
    | .RBrace => st.advance
    | .Newline | .Semicolon => st.advance
    | _ => synchronizeGo n st.advance

def PState.synchronize (st : PState) : PState :=
  synchronizeGo (st.tokens.length + 1) st

inductive PRes (α : Type) where
  | ok (a : α) (st : PState)
  | err (e : GBError) (st : PState)
  | fuel

def PRes.bind {α β : Type} : PRes α → (α → PState → PRes β) → PRes β
  | .ok a st, f => f a st
  | .err e st, _ => .err e st
  | .fuel, _ => .fuel

def PState.expect (st : PState) (expected : Token) : PRes Span :=
  if st.current = expected then
    .ok st.currentSpan st.advance
  else
    .err
      (.SyntaxError
        ("expected '" ++ expected.display ++ "', found '" ++
          st.current.display ++ "'")
        st.currentSpan)
      st

def parseIdentifier (st : PState) : PRes Identifier :=
  match st.current with
  | .Ident name => .ok ⟨name, st.currentSpan⟩ st.advance
  | _ =>
    .err
      (.SyntaxError
        ("expected identifier, found '" ++ st.current.display ++ "'")
        st.currentSpan)
      st

def parsePattern (st : PState) : PRes Pattern :=
  match st.current with
  | .Int v => .ok (.Literal ⟨.Int v, st.currentSpan⟩) st.advance
  | .Float s => .ok (.Literal ⟨.Float s, st.currentSpan⟩) st.advance
  | .String s => .ok (.Literal ⟨.String s, st.currentSpan⟩) st.advance
  | .True => .ok (.Literal ⟨.Bool true, st.currentSpan⟩) st.advance
  | .False => .ok (.Literal ⟨.Bool false, st.currentSpan⟩) st.advance
  | .Ident name =>
    if name = "_" then .ok (.Wildcard st.currentSpan) st.advance
    else .ok (.Identifier ⟨name, st.currentSpan⟩) st.advance
  | _ =>
    .err
      (.SyntaxError
        ("expected pattern, found '" ++ st.current.display ++ "'")
        st.currentSpan)
      st

/-- The inner brace-matching loop of `parse_string_interp`: consume up to
the matching close brace (depth starts at 1); `none` when unbalanced. -/
def interpTakeExpr : List Char → Nat → Option (List Char × List Char)
  | [], _ => none
  | c :: rest, depth =>
    if c = braceL then
      match interpTakeExpr rest (depth + 1) with
      | some (txt, rem) => some (c :: txt, rem)
      | none => none
    else if c = braceR then
      if depth = 1 then some ([], rest)
      else
        match interpTakeExpr rest (depth - 1) with
        | some (txt, rem) => some (c :: txt, rem)
        | none => none
    else
      match interpTakeExpr rest depth with
      | some (txt, rem) => some (c :: txt, rem)
      | none => none

mutual

def parseExpression : Nat → PState → PRes Expression
  | 0, _ => .fuel
  | n + 1, st => parseAssignment n st

def parseAssignment : Nat → PState → PRes Expression
  | 0, _ => .fuel
  | n + 1, st =>
    (parseOr n st).bind fun e st =>
      if st.current = Token.Eq then
        (parseAssignment n st.advance).bind fun v st =>
          .ok (.Assignment e v (e.span.merge v.span)) st
      else .ok e st

def parseOr : Nat → PState → PRes Expression
  | 0, _ => .fuel
  | n + 1, st => (parseAnd n st).bind fun l st => parseOrLoop n l st

def parseOrLoop : Nat → Expression → PState → PRes Expression
  | 0, _, _ => .fuel
  | n + 1, left, st =>
    if st.current = Token.PipePipe then
      (parseAnd n st.advance).bind fun r st =>
        parseOrLoop n (.BinaryOp left .Or r (left.span.merge r.span)) st
    else .ok left st

def parseAnd : Nat → PState → PRes Expression
  | 0, _ => .fuel
  | n + 1, st => (parseEquality n st).bind fun l st => parseAndLoop n l st

def parseAndLoop : Nat → Expression → PState → PRes Expression
  | 0, _, _ => .fuel
  | n + 1, left, st =>
    if st.current = Token.AmpAmp then
      (parseEquality n st.advance).bind fun r st =>
        parseAndLoop n (.BinaryOp left .And r (left.span.merge r.span)) st
    else .ok left st

def parseEquality : Nat → PState → PRes Expression
  | 0, _ => .fuel
  | n + 1, st => (parseComparison n st).bind fun l st => parseEqualityLoop n l st

def parseEqualityLoop : Nat → Expression → PState → PRes Expression
  | 0, _, _ => .fuel
  | n + 1, left, st =>
    if st.current = Token.EqEq ∨ st.current = Token.BangEq then
      let op : BinaryOp := if st.current = Token.EqEq then .Eq else .Neq
      (parseComparison n st.advance).bind fun r st =>
        parseEqualityLoop n (.BinaryOp left op r (left.span.merge r.span)) st
    else .ok left st

def parseComparison : Nat → PState → PRes Expression
  | 0, _ => .fuel
  | n + 1, st => (parseAdditive n st).bind fun l st => parseComparisonLoop n l st

def parseComparisonLoop : Nat → Expression → PState → PRes Expression
  | 0, _, _ => .fuel
  | n + 1, left, st =>
    match st.current with
    | .Lt | .Gt | .LtEq | .GtEq =>
      let op : BinaryOp :=
        match st.current with
        | .Lt => .Lt
        | .Gt => .Gt
        | .LtEq => .Le
        | _ => .Ge
      (parseAdditive n st.advance).bind fun r st =>
        parseComparisonLoop n (.BinaryOp left op r (left.span.merge r.span)) st
    | _ => .ok left st

def parseAdditive : Nat → PState → PRes Expression
  | 0, _ => .fuel
  | n + 1, st =>
    (parseMultiplicative n st).bind fun l st => parseAdditiveLoop n l st

def parseAdditiveLoop : Nat → Expression → PState → PRes Expression
  | 0, _, _ => .fuel
  | n + 1, left, st =>
    if st.current = Token.Plus ∨ st.current = Token.Minus then
      let op : BinaryOp := if st.current = Token.Plus then .Add else .Sub
      (parseMultiplicative n st.advance).bind fun r st =>
        parseAdditiveLoop n (.BinaryOp left op r (left.span.merge r.span)) st
    else .ok left st

def parseMultiplicative : Nat → PState → PRes Expression
  | 0, _ => .fuel
  | n + 1, st =>
    (parseUnary n st).bind fun l st => parseMultiplicativeLoop n l st

def parseMultiplicativeLoop : Nat → Expression → PState → PRes Expression
  | 0, _, _ => .fuel
  | n + 1, left, st =>
    match st.current with
    | .Star | .Slash | .Percent =>
      let op : BinaryOp :=
        match st.current with
        | .Star => .Mul
        | .Slash => .Div
        | _ => .Mod
      (parseUnary n st.advance).bind fun r st =>
        parseMultiplicativeLoop n
          (.BinaryOp left op r (left.span.merge r.span)) st
    | _ => .ok left st

def parseUnary : Nat → PState → PRes Expression
  | 0, _ => .fuel
  | n + 1, st =>
    match st.current with
    | .Bang =>
      let start := st.currentSpan
      (parseUnary n st.advance).bind fun operand st =>
        .ok (.UnaryOp .Not operand (start.merge operand.span)) st
    | .Minus =>
      let start := st.currentSpan
      (parseUnary n st.advance).bind fun operand st =>
        .ok (.UnaryOp .Neg operand (start.merge operand.span)) st
    | _ => parsePostfix n st

def parsePostfix : Nat → PState → PRes Expression
  | 0, _ => .fuel
  | n + 1, st => (parsePrimary n st).bind fun e st => parsePostfixLoop n e st

def parsePostfixLoop : Nat → Expression → PState → PRes Expression
  | 0, _, _ => .fuel
  | n + 1, e, st =>
    match st.current with
    | .LParen =>
      (parseArgList n st.advance).bind fun args st =>
        (st.expect .RParen).bind fun endSp st =>
          parsePostfixLoop n (.Call e args (e.span.merge endSp)) st
    | .LBracket =>
      (parseExpression n st.advance).bind fun index st =>
        (st.expect .RBracket).bind fun endSp st =>
          parsePostfixLoop n (.Index e index (e.span.merge endSp)) st
    | .Dot =>
      let st1 := st.advance
      match st1.current with
      | .Ident name =>
        let fieldSpan := st1.currentSpan
        parsePostfixLoop n
          (.FieldAccess e ⟨name, fieldSpan⟩ (e.span.merge fieldSpan))
          st1.advance
      | _ =>
        .err
          (.SyntaxError
            ("expected field name after '.', found '" ++
              st1.current.display ++ "'")
            st1.currentSpan)
          st1
    | _ => .ok e st

def parsePrimary : Nat → PState → PRes Expression
  | 0, _ => .fuel
  | n + 1, st =>
    match st.current with
    | .Int v => .ok (.Literal ⟨.Int v, st.currentSpan⟩) st.advance
    | .Float s => .ok (.Literal ⟨.Float s, st.currentSpan⟩) st.advance
    | .String s =>
      let span := st.currentSpan
      let st := st.advance
      if s.toList.any (fun c => c = braceL) then
        parseStringInterp n s.toList span st
      else
        .ok (.Literal ⟨.String s, span⟩) st
    | .True => .ok (.Literal ⟨.Bool true, st.currentSpan⟩) st.advance
    | .False => .ok (.Literal ⟨.Bool false, st.currentSpan⟩) st.advance
    | .Screen | .Sound | .Input | .Math | .System | .Memory | .Io =>
      parseMethodChain n st
    | .Ident name => .ok (.Identifier ⟨name, st.currentSpan⟩) st.advance
    | .LParen =>
      (parseExpression n st.advance).bind fun e st =>
        (st.expect .RParen).bind fun _ st => .ok e st
    | .LBracket =>
      let start := st.currentSpan
      (parseArgList n st.advance).bind fun elements st =>
        (st.expect .RBracket).bind fun endSp st =>
          .ok (.Array elements (start.merge endSp)) st
    | _ =>
      .err
        (.SyntaxError
          ("unexpected token '" ++ st.current.display ++ "'")
          st.currentSpan)
        st

def parseArgList : Nat → PState → PRes (List Expression)
  | 0, _ => .fuel
  | n + 1, st =>
    if st.current = Token.RParen ∨ st.current = Token.RBracket then .ok [] st
    else
      (parseExpression n st).bind fun a st => parseArgListLoop n [a] st

def parseArgListLoop : Nat → List Expression → PState → PRes (List Expression)
  | 0, _, _ => .fuel
  | n + 1, acc, st =>
    if st.current = Token.Comma then
      (parseExpression n st.advance).bind fun a st =>
        parseArgListLoop n (acc ++ [a]) st
    else .ok acc st

def parseStringInterp :
    Nat → List Char → Span → PState → PRes Expression
  | 0, _, _, _ => .fuel
  | n + 1, s, span, st => parseInterpGo n s [] [] span st

def parseInterpGo :
    Nat → List Char → List Char → List StringPart → Span → PState →
      PRes Expression
  | 0, _, _, _, _, _ => .fuel
  | n + 1, chars, cur, parts, span, st =>
    match chars with
    | [] =>
      let parts :=
        if cur.isEmpty then parts else parts ++ [.Lit (String.mk cur)]
      .ok (.StringInterp parts span) st
    | ch :: rest =>
      if ch = braceL then
        let parts :=
          if cur.isEmpty then parts else parts ++ [.Lit (String.mk cur)]
        match interpTakeExpr rest 1 with
        | none =>
          .err (.SyntaxError "unclosed '\x7b' in string interpolation" span)
            st
        | some (exprText, rest2) =>
          match parseExpression n ⟨tokenize (String.mk exprText), 0, []⟩ with
          | .ok e _ => parseInterpGo n rest2 [] (parts ++ [.Expr e]) span st
          | .err _ _ =>
            .err
              (.SyntaxError
                ("invalid expression in string interpolation: \x7b" ++
                  String.mk exprText ++ "\x7d")
                span)
              st
          | .fuel => .fuel
      else parseInterpGo n rest (cur ++ [ch]) parts span st

def parseMethodChain : Nat → PState → PRes Expression
  | 0, _ => .fuel
  | n + 1, st =>
    let start := st.currentSpan
    let base? : Option NamespaceRef :=
      match st.current with
      | .Screen => some .Screen
      | .Sound => some .Sound
      | .Input => some .Input
      | .Math => some .Math
      | .System => some .System
      | .Memory => some .Memory
      | .Io => some .Io
      | _ => none
    match base? with
    | none =>
      .err
        (.SyntaxError
          ("expected namespace, found '" ++ st.current.display ++ "'")
          st.currentSpan)
        st
    | some base =>
      let st := st.advance
      if st.current = Token.Dot then
        (parseMethodChainLoop n [] st).bind fun chain st =>
          let endSpan := ((chain.getLast?).map MethodCall.span).getD start
          .ok (.MethodChain base chain (start.merge endSpan)) st
      else
        .err
          (.SyntaxError
            (base.display ++ " must be followed by a method call, e.g. " ++
              base.display ++ ".Layer(1)")
            st.currentSpan)
          st

def parseMethodChainLoop :
    Nat → List MethodCall → PState → PRes (List MethodCall)
  | 0, _, _ => .fuel
  | n + 1, acc, st =>
    if st.current = Token.Dot then
      (parseIdentifier st.advance).bind fun method st =>
        if st.current = Token.LParen then
          (parseArgList n st.advance).bind fun args st =>
            (st.expect .RParen).bind fun endSp st =>
              parseMethodChainLoop n
                (acc ++ [⟨method, args, method.span.merge endSp⟩]) st
        else
          parseMethodChainLoop n
            (acc ++ [⟨method, [], method.span.merge method.span⟩]) st
    else .ok acc st

end

def parseType : Nat → PState → PRes Ty
  | 0, _ => .fuel
  | n + 1, st =>
    match st.current with
    | .TyInt => .ok .Int st.advance
    | .TyFloat => .ok .Float st.advance
    | .TyString => .ok .String st.advance
    | .TyBool => .ok .Bool st.advance
    | .TyVoid => .ok .Void st.advance
    | .LBracket =>
      (parseType n st.advance).bind fun inner st =>
        (st.expect .RBracket).bind fun _ st => .ok (.Array inner) st
    | _ =>
      .err
        (.SyntaxError
          ("expected type, found '" ++ st.current.display ++ "'")
          st.currentSpan)
        st

mutual

def parseStatement : Nat → PState → PRes Statement
  | 0, _ => .fuel
  | n + 1, st =>
    let st := st.skipNewlines
    match st.current with
    | .Let => parseLet n st
    | .Fun | .Fn => parseFn n st
    | .If => parseIf n st
    | .For => parseFor n st
    | .While => parseWhile n st
    | .Match => parseMatch n st
    | .Return => parseReturn n st
    | .Break =>
      .ok (.Break st.currentSpan) (st.advance).consumeTerminator
    | .Continue =>
      .ok (.Continue st.currentSpan) (st.advance).consumeTerminator
    | .LBrace => (parseBlock n st).bind fun b st => .ok (.Block b) st
    | _ =>
      (parseExpression n st).bind fun e st =>
        .ok (.Expression e e.span) st.consumeTerminator

def parseLet : Nat → PState → PRes Statement
  | 0, _ => .fuel
  | n + 1, st =>
    let start := st.currentSpan
    let st := st.advance
    (parseIdentifier st).bind fun name st =>
      (if st.current = Token.Colon then
        (parseType n st.advance).bind fun t st => .ok (some t) st
       else (.ok none st : PRes (Option Ty))).bind fun typeAnn st =>
      (st.expect .Eq).bind fun _ st =>
      (parseExpression n st).bind fun value st =>
        .ok (.Let name typeAnn value (start.merge value.span))
          st.consumeTerminator

def parseFn : Nat → PState → PRes Statement
  | 0, _ => .fuel
  | n + 1, st =>
    let start := st.currentSpan
    let st := st.advance
    (parseIdentifier st).bind fun name st =>
      (st.expect .LParen).bind fun _ st =>
      (parseParamList n st).bind fun params st =>
      (st.expect .RParen).bind fun _ st =>
      (if st.current = Token.Arrow then
        (parseType n st.advance).bind fun t st => .ok (some t) st
       else (.ok none st : PRes (Option Ty))).bind fun returnType st =>
      (parseBlock n st).bind fun body st =>
        .ok (.Function ⟨name, params, returnType, body,
          start.merge body.span⟩) st

def parseIf : Nat → PState → PRes Statement
  | 0, _ => .fuel
  | n + 1, st =>
    let start := st.currentSpan
    let st := st.advance
    (parseExpression n st).bind fun condition st =>
      (parseBlock n st).bind fun thenBlock st =>
        let st := st.skipNewlines
        (if st.current = Token.Else then
          (parseBlock n st.advance).bind fun b st => .ok (some b) st
         else (.ok none st : PRes (Option Block))).bind fun elseBlock st =>
          let endSp := (elseBlock.map Block.span).getD thenBlock.span
          .ok (.If condition thenBlock elseBlock (start.merge endSp)) st

def parseFor : Nat → PState → PRes Statement
  | 0, _ => .fuel
  | n + 1, st =>
    let start := st.currentSpan
    let st := st.advance
    (parseIdentifier st).bind fun v st =>
      (st.expect .In).bind fun _ st =>
      (parseExpression n st).bind fun iterable st =>
      (parseBlock n st).bind fun body st =>
        .ok (.For v iterable body (start.merge body.span)) st

def parseWhile : Nat → PState → PRes Statement
  | 0, _ => .fuel
  | n + 1, st =>
    let start := st.currentSpan
    let st := st.advance
    (parseExpression n st).bind fun condition st =>
      (parseBlock n st).bind fun body st =>
        .ok (.While condition body (start.merge body.span)) st

def parseMatch : Nat → PState → PRes Statement
  | 0, _ => .fuel
  | n + 1, st =>
    let start := st.currentSpan
    let st := st.advance
    (parseExpression n st).bind fun subject st =>
      let st := st.skipNewlines
      (st.expect .LBrace).bind fun _ st =>
        let st := st.skipNewlines
        (parseMatchArms n [] st).bind fun arms st =>
          (st.expect .RBrace).bind fun endSp st =>
            .ok (.Match subject arms (start.merge endSp)) st

def parseMatchArms : Nat → List MatchArm → PState → PRes (List MatchArm)
  | 0, _, _ => .fuel
  | n + 1, acc, st =>
    if st.current = Token.RBrace ∨ st.current = Token.Eof then .ok acc st
    else
      (parsePattern st).bind fun pat st =>
        (st.expect .Arrow).bind fun _ st =>
        (parseBlock n st).bind fun body st =>
          let st := st.skipNewlines
          let st := if st.current = Token.Comma then st.advance else st
          let st := st.skipNewlines
          parseMatchArms n (acc ++ [⟨pat, body, body.span⟩]) st

def parseReturn : Nat → PState → PRes Statement
  | 0, _ => .fuel
  | n + 1, st =>
    let start := st.currentSpan
    let st := st.advance
    (match st.current with
      | .Newline | .Semicolon | .RBrace | .Eof =>
        (.ok none st : PRes (Option Expression))
      | _ =>
        (parseExpression n st).bind fun v st =>
          .ok (some v) st).bind fun value st =>
      let span :=
        (value.map (fun (v : Expression) => start.merge v.span)).getD start
      .ok (.Return value span) st.consumeTerminator

def parseBlock : Nat → PState → PRes Block
  | 0, _ => .fuel
  | n + 1, st =>
    let st := st.skipNewlines
    (st.expect .LBrace).bind fun start st =>
      let st := st.skipNewlines
      (parseBlockStmts n [] st).bind fun stmts st =>
        (st.expect .RBrace).bind fun endSp st =>
          .ok (.mk stmts (start.merge endSp)) st

def parseBlockStmts : Nat → List Statement → PState → PRes (List Statement)
  | 0, _, _ => .fuel
  | n + 1, acc, st =>
    if st.current = Token.RBrace ∨ st.current = Token.Eof then .ok acc st
    else
      match parseStatement n st with
      | .ok s st => parseBlockStmts n (acc ++ [s]) st.skipNewlines
      | .err e st =>
        let st := { st with errors := st.errors ++ [e] }
        parseBlockStmts n acc (st.synchronize).skipNewlines
      | .fuel => .fuel

def parseParamList : Nat → PState → PRes (List Parameter)
  | 0, _ => .fuel
  | n + 1, st =>
    if st.current = Token.RParen then .ok [] st
    else (parseParam n st).bind fun p st => parseParamListLoop n [p] st

def parseParamListLoop :
    Nat → List Parameter → PState → PRes (List Parameter)
  | 0, _, _ => .fuel
  | n + 1, acc, st =>
    if st.current = Token.Comma then
      (parseParam n st.advance).bind fun p st =>
        parseParamListLoop n (acc ++ [p]) st
    else .ok acc st

def parseParam : Nat → PState → PRes Parameter
  | 0, _ => .fuel
  | n + 1, st =>
    (parseIdentifier st).bind fun name st =>
      (if st.current = Token.Colon then
        (parseType n st.advance).bind fun t st => .ok (some t) st
       else (.ok none st : PRes (Option Ty))).bind fun typeAnn st =>
        let prevSpan := (st.tokens.getD (st.pos - 1) ⟨.Eof, Span.dummy⟩).span
        .ok ⟨name, typeAnn, name.span.merge prevSpan⟩ st

end

def parseProgramGo :
    Nat → List Statement → PState → Option (List Statement × PState)
  | 0, _, _ => none
  | n + 1, acc, st =>
    if st.atEnd then some (acc, st)
    else
      match parseStatement n st with
      | .ok s st => parseProgramGo n (acc ++ [s]) st.skipNewlines
      | .err e st =>
        let st := { st with errors := st.errors ++ [e] }
        parseProgramGo n acc (st.synchronize).skipNewlines
      | .fuel => none

/-- `Parser::parse_program`. -/
def parseProgram (fuel : Nat) (st : PState) : Option (Program × PState) :=
  let start := st.currentSpan
  let st := st.skipNewlines
  match parseProgramGo fuel [] st with
  | some (stmts, st) => some (⟨stmts, start.merge st.currentSpan⟩, st)
  | none => none

inductive ParseOutcome where
  | ok (program : Program)
  | errs (es : List GBError)
  | fuelOut

/-! ## Type checker (src/compiler/typechecker/src/lib.rs)

The claims under check concern only the binary-operator rule, so the
embedding covers `Display for Type`, `types_compatible` and
`check_binary_op`. -/

mutual

/-- Display impl for Type. -/
def tyDisplay : Ty → String
  | .Int => "Int"
  | .Float => "Float"
  | .String => "String"
  | .Bool => "Bool"
  | .Void => "Void"
  | .Array inner => "[" ++ tyDisplay inner ++ "]"
  | .Sprite => "Sprite"
  | .Layer => "Layer"
  | .Sound => "Sound"
  | .Instrument => "Instrument"
  | .Timer => "Timer"
  | .Function ps r => "(" ++ tyDisplayList ps ++ ") -> " ++ tyDisplay r
  | .Unknown => "?"

/-- Parameter lists are joined with `", "`. -/
def tyDisplayList : List Ty → String
  | [] => ""
  | [t] => tyDisplay t
  | t :: rest => tyDisplay t ++ ", " ++ tyDisplayList rest

end

/-- `types_compatible`: Unknown unifies with anything, otherwise
structural equality. -/
def typesCompatible (expected actual : Ty) : Bool :=
  if expected = Ty.Unknown ∨ actual = Ty.Unknown then true
  else expected = actual

/-- `(a, b)` is an Int/Float mix (implicit promotion applies). -/
def isIntFloatMix (a b : Ty) : Bool :=
  decide ((a = Ty.Int ∧ b = Ty.Float) ∨ (a = Ty.Float ∧ b = Ty.Int))

/-- The early-return branch of `check_binary_op`: an Unknown operand makes
the expression pass. -/
def checkBinaryOpUnknown (lt : Ty) (op : BinaryOp) (rt : Ty) :
    Except GBError Ty :=
  match op with
  | .Eq | .Neq | .Lt | .Gt | .Le | .Ge | .And | .Or => .ok Ty.Bool
  | _ =>
    if lt = Ty.Unknown ∧ rt = Ty.Unknown then .ok Ty.Unknown
    else if lt = Ty.Unknown then .ok rt
    else .ok lt

/-- The main case split of `check_binary_op` (no Unknown operand). -/
def checkBinaryOpKnown (lt : Ty) (op : BinaryOp) (rt : Ty) (span : Span) :
    Except GBError Ty :=
  match op with
    | .Add | .Sub | .Mul | .Div | .Mod =>
      if lt = rt ∧ (lt = Ty.Int ∨ lt = Ty.Float) then .ok lt
      else if isIntFloatMix lt rt then .ok Ty.Float
      else if op = BinaryOp.Add ∧ lt = Ty.String ∧ rt = Ty.String then
        .ok Ty.String
      else
        .error (.TypeError
          ("cannot apply '" ++ op.display ++ "' to " ++ tyDisplay lt ++
            " and " ++ tyDisplay rt) span)
    | .Eq | .Neq | .Lt | .Gt | .Le | .Ge =>
      if lt = rt ∨ isIntFloatMix lt rt then .ok Ty.Bool
      else
        .error (.TypeError
          ("cannot compare " ++ tyDisplay lt ++ " and " ++ tyDisplay rt)
          span)
    | .And | .Or =>
      if lt = Ty.Bool ∧ rt = Ty.Bool then .ok Ty.Bool
      else
        .error (.TypeError
          ("logical '" ++ op.display ++ "' requires Bool operands, found " ++
            tyDisplay lt ++ " and " ++ tyDisplay rt) span)

/-- `TypeChecker::check_binary_op`. -/
def checkBinaryOp (lt : Ty) (op : BinaryOp) (rt : Ty) (span : Span) :
    Except GBError Ty :=
  if lt = Ty.Unknown ∨ rt = Ty.Unknown then checkBinaryOpUnknown lt op rt
  else checkBinaryOpKnown lt op rt span

/-- An arithmetic operator (`+ - * / %`). -/
def isArithOp : BinaryOp → Bool
  | .Add | .Sub | .Mul | .Div | .Mod => true
  | _ => false

/-- A comparison operator (`== != < > <= >=`). -/
def isCmpOp : BinaryOp → Bool
  | .Eq | .Neq | .Lt | .Gt | .Le | .Ge => true
  | _ => false

/-- The result is a `TypeError`. -/
def isTypeErrorRes : Except GBError Ty → Bool
  | .error (.TypeError _ _) => true
  | _ => false

/-- Top-level `parse`: tokenize, run the parser, return the program when
no diagnostics were collected, otherwise all diagnostics. -/
def parse (fuel : Nat) (source : String) : ParseOutcome :=
  match parseProgram fuel ⟨tokenize source, 0, []⟩ with
  | some (program, st) =>
    if st.errors.isEmpty then .ok program else .errs st.errors
  | none => .fuelOut

/-! ## IR generator (src/compiler/irgen/src/llvm_backend.rs)

The generator is embedded at the instruction-trace level: LLVM values are
symbolic (`CVal`), blocks are numbered lists of items, and every
builder/`call_runtime` emission appends an item to the current block.
Value widths are tracked so `ensure_i1` and the boolean widenings emit
exactly the instructions the source does. Numeric folding inside LLVM
constants is not modelled; no claim depends on it. -/

/-- LLVM type descriptor for namespace method signatures (`LType`). -/
inductive LType where
  | I64 | F64 | Bool | Ptr | Void
deriving DecidableEq, Repr

/-- An LLVM first-class value type as far as the claims need it. -/
inductive LTy where
  | i (w : Nat)
  | f64
  | ptr
deriving DecidableEq, Repr

/-- Symbolic LLVM value: integer/float constants, global string pointers,
null, function parameters and instruction results. -/
inductive CVal where
  | intC (v : I64) (w : Nat)
  | floatC (repr : Str)
  | strG (s : Str) (name : Str)
  | nullPtr
  | param (fn : Str) (i : Nat) (ty : LTy)
  | reg (r : Nat) (ty : LTy)
deriving DecidableEq, Repr

/-- The type of a symbolic value. -/
def CVal.lty : CVal → LTy
  | .intC _ w => .i w
  | .floatC _ => .f64
  | .strG _ _ => .ptr
  | .nullPtr => .ptr
  | .param _ _ t => t
  | .reg _ t => t

/-- Block terminators. -/
inductive Term where
  | br (target : Nat)
  | condbr (cond : CVal) (tBlk fBlk : Nat)
  | ret (v : Option CVal)
deriving DecidableEq, Repr

/-- One emitted item: a plain instruction, a call, or a terminator. -/
inductive Item where
  | instr (tag : Str) (args : List CVal) (result : Option CVal)
  | call (fname : Str) (args : List CVal) (result : Option CVal)
  | term (t : Term)
deriving DecidableEq, Repr

/-- Declared module function return shapes (for `infer_expr_type`). -/
inductive FnRet where
  | void
  | i (w : Nat)
  | f64
  | ptr
deriving DecidableEq, Repr

/-- Variable info: alloca register + G-Basic type (`VarInfo`). -/
structure CVarInfo where
  ptr : Nat
  ty : Ty
deriving DecidableEq, Repr

/-- The generator state (`Codegen`): block contents, builder position,
fresh-name counters, variable scopes, loop stack, the auto-frame flag, and
the declared module functions. `trace` is instrumentation: the list of all
items emitted so far, in emission order. -/
structure CG where
  blockMap : Nat → List Item
  trace : List Item
  cur : Nat
  nextBlock : Nat
  nextReg : Nat
  vars : List (List (Str × CVarInfo))
  loopStack : List (Nat × Nat)
  inAutoFrame : Bool
  fns : List (Str × FnRet)

/-- Items of one block. -/
def CG.blockItems (st : CG) (b : Nat) : List Item :=
  st.blockMap b

/-- Append an item to the current block (every builder `build_*`). -/
def CG.emit (st : CG) (it : Item) : CG :=
  { st with
    blockMap := fun b => if b = st.cur then st.blockMap b ++ [it] else st.blockMap b
    trace := st.trace ++ [it] }

/-- `append_basic_block`: create a fresh empty block. -/
def CG.newBlock (st : CG) : CG × Nat :=
  let st' : CG :=
    { st with
      blockMap := fun b => if b = st.nextBlock then [] else st.blockMap b
      nextBlock := st.nextBlock + 1 }
  (st', st.nextBlock)

/-- `position_at_end`. -/
def CG.positionAtEnd (st : CG) (b : Nat) : CG := { st with cur := b }

/-- `needs_terminator`: the current block's last instruction is not a
terminator (`get_terminator` is the last instruction when it is one). -/
def CG.needsTerminator (st : CG) : Bool :=
  match (st.blockItems st.cur).getLast? with
  | some (.term _) => false
  | _ => true

/-- Fresh result register of a given type. -/
def CG.fresh (st : CG) (t : LTy) : CG × CVal :=
  ({ st with nextReg := st.nextReg + 1 }, .reg st.nextReg t)

/-- `push_scope`. -/
def CG.pushScope (st : CG) : CG := { st with vars := [] :: st.vars }

/-- `pop_scope`. -/
def CG.popScope (st : CG) : CG := { st with vars := st.vars.tail }

/-- `insert_var` (into the innermost scope). -/
def CG.insertVar (st : CG) (name : Str) (info : CVarInfo) : CG :=
  match st.vars with
  | [] => st
  | scope :: rest => { st with vars := ((name, info) :: scope) :: rest }

/-- `lookup_var` (inner scope to outer; within one scope the most recent
insertion wins, as for `HashMap::insert`). -/
def CG.lookupVar (st : CG) (name : Str) : Option CVarInfo :=
  match st.vars.findSome? (fun scope =>
    (scope.find? (fun p => p.1 = name)).map Prod.snd) with
  | some v => some v
  | none => none

/-- The LLVM return shape `call_runtime`/`get_or_declare_runtime_fn`
declare for an `LType` (booleans are widened to i64 in the runtime ABI). -/
def LType.toFnRet : LType → FnRet
  | .Void => .void
  | .I64 => .i 64
  | .F64 => .f64
  | .Bool => .i 64
  | .Ptr => .ptr

/-- The value type of a declared function's result. -/
def FnRet.toLTy : FnRet → LTy
  | .void => .i 64
  | .i w => .i w
  | .f64 => .f64
  | .ptr => .ptr

/-- The declare-if-missing step of `call_runtime` /
`get_or_declare_runtime_fn`. -/
def CG.declareFn (st : CG) (name : Str) (ret : LType) : CG :=
  if (st.fns.find? (fun p => p.1 = name)).isSome then st
  else { st with fns := st.fns ++ [(name, ret.toFnRet)] }

/-- `call_runtime` (also `get_or_declare_runtime_fn` + `build_call` +
the result match): declare the function if missing, emit the call, and
return its value. `try_as_basic_value().left()` yields a value exactly
when the declared function is non-void, and of the declared type. -/
def CG.callRuntime (st : CG) (name : Str) (ret : LType)
    (args : List CVal) : CG × Option CVal :=
  let st := st.declareFn name ret
  let declared := ((st.fns.find? (fun p => p.1 = name)).map Prod.snd).getD ret.toFnRet
  match ret, declared with
  | .Void, _ => (st.emit (.call name args none), none)
  | _, .void => (st.emit (.call name args none), none)
  | _, d =>
    let _p := st.fresh d.toLTy
    let st := _p.1
    let v := _p.2
    (st.emit (.call name args (some v)), some v)

/-- `ensure_i1`: already 1-bit (`get_bit_width() == 1`), or compare
`!= 0`. -/
def CG.ensureI1 (st : CG) (v : CVal) : CG × CVal :=
  if v.lty = LTy.i 1 then (st, v)
  else
    let _p := st.fresh (.i 1)
    let st := _p.1
    let r := _p.2
    (st.emit (.instr "icmp_ne_zero" [v] (some r)), r)

/-- `type_to_llvm_basic`. -/
def typeToLlvmBasic : Ty → LTy
  | .Int => .i 64
  | .Float => .f64
  | .Bool => .i 1
  | .String => .ptr
  | .Unknown => .ptr
  | _ => .i 64

/-- `build_alloca_for_type` (also `build_alloca`): returns the slot
register number. -/
def CG.buildAlloca (st : CG) (name : Str) : CG × Nat :=
  let r := st.nextReg
  ({ (st.emit (.instr ("alloca " ++ name) [] (some (.reg r .ptr)))) with
      nextReg := r + 1 }, r)

/-- `build_store`. -/
def CG.buildStore (st : CG) (p : CVal) (v : CVal) : CG :=
  st.emit (.instr "store" [p, v] none)

/-- `build_load` of a given type. -/
def CG.buildLoad (st : CG) (t : LTy) (p : CVal) : CG × CVal :=
  let _p := st.fresh t
  let st := _p.1
  let r := _p.2
  (st.emit (.instr "load" [p] (some r)), r)

/-- `declare_runtime_functions`: the print family and `string_concat`. -/
def initialFns : List (Str × FnRet) :=
  [("runtime_print", .void), ("runtime_print_int", .void),
    ("runtime_print_float", .void), ("runtime_print_str_part", .void),
    ("runtime_print_int_part", .void), ("runtime_print_float_part", .void),
    ("runtime_print_newline", .void), ("runtime_string_concat", .ptr)]

/-- `named_color`. -/
def namedColor (name : Str) : Option (Nat × Nat × Nat) :=
  if name = "black" then some (0, 0, 0)
  else if name = "white" then some (255, 255, 255)
  else if name = "red" then some (255, 0, 0)
  else if name = "green" then some (0, 255, 0)
  else if name = "blue" then some (0, 0, 255)
  else if name = "yellow" then some (255, 255, 0)
  else if name = "orange" then some (255, 165, 0)
  else if name = "purple" then some (128, 0, 128)
  else if name = "pink" then some (255, 192, 203)
  else if name = "cyan" then some (0, 255, 255)
  else if name = "gray" ∨ name = "grey" then some (128, 128, 128)
  else if name = "brown" then some (139, 69, 19)
  else none

/-- `resolve_field_chain`: `paddle.position.x` → `("paddle",
"position.x")`. -/
def resolveFieldChain : Expression → Option (Str × Str)
  | .FieldAccess object field _ =>
    match object with
    | .Identifier id => some (id.name, field.name)
    | .FieldAccess innerObj innerField _ =>
      match innerObj with
      | .Identifier id =>
        some (id.name, innerField.name ++ "." ++ field.name)
      | _ => none
    | _ => none
  | _ => none

/-- `method_to_snake`. -/
def methodToSnake (method : Str) : Str :=
  if method = "setpixel" then "set_pixel"
  else if method = "drawrect" then "draw_rect"
  else if method = "drawline" then "draw_line"
  else if method = "drawcircle" then "draw_circle"
  else if method = "keypressed" then "key_pressed"
  else if method = "mousex" then "mouse_x"
  else if method = "mousey" then "mouse_y"
  else if method = "readfile" then "read_file"
  else if method = "writefile" then "write_file"
  else if method = "framebegin" then "frame_begin"
  else if method = "frameend" then "frame_end"
  else if method = "frametime" then "frame_time"
  else if method = "spriteload" then "sprite_load"
  else if method = "spriteat" then "sprite_at"
  else if method = "spritescale" then "sprite_scale"
  else if method = "spritedraw" then "sprite_draw"
  else if method = "effectload" then "effect_load"
  else if method = "effectplay" then "effect_play"
  else if method = "effectvolume" then "effect_volume"
  else method

/-- The signature table of `get_namespace_method` (its first match). -/
def namespaceMethodSig (ns : NamespaceRef) (m : Str) :
    Option (List LType × LType) :=
  match ns with
  | .Math =>
    if m = "sin" ∨ m = "cos" ∨ m = "sqrt" ∨ m = "abs" ∨ m = "floor" ∨
        m = "ceil" then some ([.F64], .F64)
    else if m = "pow" ∨ m = "max" ∨ m = "min" then some ([.F64, .F64], .F64)
    else if m = "random" ∨ m = "pi" then some ([], .F64)
    else none
  | .Screen =>
    if m = "init" then some ([.I64, .I64], .Void)
    else if m = "clear" then some ([.I64, .I64, .I64], .Void)
    else if m = "setpixel" then some ([.I64, .I64, .I64, .I64, .I64], .Void)
    else if m = "drawrect" then
      some ([.I64, .I64, .I64, .I64, .I64, .I64, .I64], .Void)
    else if m = "drawline" then
      some ([.I64, .I64, .I64, .I64, .I64, .I64, .I64], .Void)
    else if m = "present" then some ([], .Void)
    else if m = "width" ∨ m = "height" then some ([], .I64)
    else if m = "drawcircle" then
      some ([.I64, .I64, .I64, .I64, .I64, .I64], .Void)
    else if m = "spriteload" then some ([.Ptr], .I64)
    else if m = "spriteat" then some ([.I64, .F64, .F64], .I64)
    else if m = "spritescale" then some ([.I64, .F64], .I64)
    else if m = "spritedraw" then some ([.I64], .Void)
    else none
  | .Input =>
    if m = "keypressed" then some ([.Ptr], .Bool)
    else if m = "mousex" ∨ m = "mousey" then some ([], .I64)
    else if m = "poll" then some ([], .Void)
    else none
  | .System =>
    if m = "time" then some ([], .F64)
    else if m = "sleep" then some ([.I64], .Void)
    else if m = "exit" then some ([.I64], .Void)
    else if m = "framebegin" then some ([], .Void)
    else if m = "frameend" then some ([], .Void)
    else if m = "frametime" then some ([], .F64)
    else none
  | .Sound =>
    if m = "beep" then some ([.I64, .I64], .Void)
    else if m = "effectload" then some ([.Ptr], .I64)
    else if m = "effectplay" then some ([.Ptr], .Void)
    else if m = "effectvolume" then some ([.Ptr, .F64], .Void)
    else none
  | .Memory =>
    if m = "set" then some ([.Ptr, .I64], .Void)
    else if m = "get" then some ([.Ptr], .I64)
    else none
  | .Io =>
    if m = "print" then some ([.Ptr], .Void)
    else if m = "printinteger" then some ([.I64], .Void)
    else if m = "readfile" then some ([.Ptr], .Ptr)
    else if m = "writefile" then some ([.Ptr, .Ptr], .Void)
    else none
  | .Asset => none

/-- The namespace prefix of the conventional runtime name. The Rust match
has no `Asset` arm (it is unreachable: the signature table has no Asset
entries); the value chosen here for Asset is likewise never reached. -/
def nsRuntimePrefix : NamespaceRef → Str
  | .Screen => "screen"
  | .Sound => "sound"
  | .Input => "input"
  | .Math => "math"
  | .System => "system"
  | .Memory => "memory"
  | .Io => "io"
  | .Asset => "asset"

/-- `get_namespace_method`: signature and runtime function name. -/
def getNamespaceMethod (ns : NamespaceRef) (m : Str) :
    Option (List LType × LType × Str) :=
  match namespaceMethodSig ns m with
  | none => none
  | some (params, ret) =>
    let runtimeName :=
      if ns = NamespaceRef.Io ∧ m = "print" then "runtime_print"
      else if ns = NamespaceRef.Io ∧ m = "printinteger" then
        "runtime_print_int"
      else "runtime_" ++ nsRuntimePrefix ns ++ "_" ++ methodToSnake m
    some (params, ret, runtimeName)

/-- `codegen_literal` (pure: constants and global strings emit no
block instructions). -/
def codegenLiteral (lit : Literal) : CVal :=
  match lit.kind with
  | .Int v => .intC v 64
  | .Float slice => .floatC slice
  | .Bool b => .intC (if b then 1 else 0) 1
  | .String s => .strG s "str"

/-- `build_equality_check`: Int/Bool (and the string/unknown fallback)
compare as integers, Float with `OEQ`. -/
def CG.buildEqualityCheck (st : CG) (lv rv : CVal) (ty : Ty) : CG × CVal :=
  match ty with
  | .Float =>
    let _p := st.fresh (.i 1)
    let st := _p.1
    let r := _p.2
    (st.emit (.instr "fcmp_oeq" [lv, rv] (some r)), r)
  | _ =>
    let _p := st.fresh (.i 1)
    let st := _p.1
    let r := _p.2
    (st.emit (.instr "icmp_eq" [lv, rv] (some r)), r)

/-- `codegen_int_binop` (infallible in the source: every op is covered). -/
def CG.codegenIntBinop (st : CG) (lv : CVal) (op : BinaryOp) (rv : CVal) :
    CG × CVal :=
  match op with
  | .Add =>
    let _p := st.fresh lv.lty
    let st := _p.1
    let r := _p.2
    (st.emit (.instr "add" [lv, rv] (some r)), r)
  | .Sub =>
    let _p := st.fresh lv.lty
    let st := _p.1
    let r := _p.2
    (st.emit (.instr "sub" [lv, rv] (some r)), r)
  | .Mul =>
    let _p := st.fresh lv.lty
    let st := _p.1
    let r := _p.2
    (st.emit (.instr "mul" [lv, rv] (some r)), r)
  | .Div =>
    let _p := st.fresh lv.lty
    let st := _p.1
    let r := _p.2
    (st.emit (.instr "sdiv" [lv, rv] (some r)), r)
  | .Mod =>
    let _p := st.fresh lv.lty
    let st := _p.1
    let r := _p.2
    (st.emit (.instr "srem" [lv, rv] (some r)), r)
  | .Eq =>
    let _p := st.fresh (.i 1)
    let st := _p.1
    let r := _p.2
    (st.emit (.instr "icmp_eq" [lv, rv] (some r)), r)
  | .Neq =>
    let _p := st.fresh (.i 1)
    let st := _p.1
    let r := _p.2
    (st.emit (.instr "icmp_ne" [lv, rv] (some r)), r)
  | .Lt =>
    let _p := st.fresh (.i 1)
    let st := _p.1
    let r := _p.2
    (st.emit (.instr "icmp_slt" [lv, rv] (some r)), r)
  | .Gt =>
    let _p := st.fresh (.i 1)
    let st := _p.1
    let r := _p.2
    (st.emit (.instr "icmp_sgt" [lv, rv] (some r)), r)
  | .Le =>
    let _p := st.fresh (.i 1)
    let st := _p.1
    let r := _p.2
    (st.emit (.instr "icmp_sle" [lv, rv] (some r)), r)
  | .Ge =>
    let _p := st.fresh (.i 1)
    let st := _p.1
    let r := _p.2
    (st.emit (.instr "icmp_sge" [lv, rv] (some r)), r)
  | .And =>
    let _p := st.ensureI1 lv
    let st := _p.1
    let l1 := _p.2
    let _p := st.ensureI1 rv
    let st := _p.1
    let r1 := _p.2
    let _p := st.fresh (.i 1)
    let st := _p.1
    let r := _p.2
    (st.emit (.instr "and" [l1, r1] (some r)), r)
  | .Or =>
    let _p := st.ensureI1 lv
    let st := _p.1
    let l1 := _p.2
    let _p := st.ensureI1 rv
    let st := _p.1
    let r1 := _p.2
    let _p := st.fresh (.i 1)
    let st := _p.1
    let r := _p.2
    (st.emit (.instr "or" [l1, r1] (some r)), r)

/-- Result type of a generator step: the value, the mutated state, or the
out-of-fuel marker. `.err` covers both Rust `Err` returns and panics from
`.unwrap()` on a `None` value (the latter as an `InternalError`). -/
inductive CRes (α : Type) where
  | ok (a : α) (st : CG)
  | err (e : GBError) (st : CG)
  | fuel

def CRes.bind {α β : Type} : CRes α → (α → CG → CRes β) → CRes β
  | .ok a st, f => f a st
  | .err e st, _ => .err e st
  | .fuel, _ => .fuel

/-- Bind through `?.unwrap()`: a `None` value is a panic. -/
def CRes.bindU {β : Type} : CRes (Option CVal) → (CVal → CG → CRes β) →
    CRes β
  | .ok (some v) st, f => f v st
  | .ok none st, _ => .err (.InternalError "unwrap on None") st
  | .err e st, _ => .err e st
  | .fuel, _ => .fuel

/-- `.unwrap()` on an already-obtained optional call result. -/
def unwrapVal {β : Type} (st : CG) (v : Option CVal) (f : CVal → CG → CRes β) :
    CRes β :=
  match v with
  | some v => f v st
  | none => .err (.InternalError "unwrap on None") st

/-- `codegen_float_binop`: arithmetic and comparisons; `and`/`or` on
floats is a codegen error. -/
def CG.codegenFloatBinop (st : CG) (lv : CVal) (op : BinaryOp) (rv : CVal) :
    CRes CVal :=
  match op with
  | .Add =>
    let _p := st.fresh .f64
    let st := _p.1
    let r := _p.2
    .ok r (st.emit (.instr "fadd" [lv, rv] (some r)))
  | .Sub =>
    let _p := st.fresh .f64
    let st := _p.1
    let r := _p.2
    .ok r (st.emit (.instr "fsub" [lv, rv] (some r)))
  | .Mul =>
    let _p := st.fresh .f64
    let st := _p.1
    let r := _p.2
    .ok r (st.emit (.instr "fmul" [lv, rv] (some r)))
  | .Div =>
    let _p := st.fresh .f64
    let st := _p.1
    let r := _p.2
    .ok r (st.emit (.instr "fdiv" [lv, rv] (some r)))
  | .Mod =>
    let _p := st.fresh .f64
    let st := _p.1
    let r := _p.2
    .ok r (st.emit (.instr "frem" [lv, rv] (some r)))
  | .Eq =>
    let _p := st.fresh (.i 1)
    let st := _p.1
    let r := _p.2
    .ok r (st.emit (.instr "fcmp_oeq" [lv, rv] (some r)))
  | .Neq =>
    let _p := st.fresh (.i 1)
    let st := _p.1
    let r := _p.2
    .ok r (st.emit (.instr "fcmp_one" [lv, rv] (some r)))
  | .Lt =>
    let _p := st.fresh (.i 1)
    let st := _p.1
    let r := _p.2
    .ok r (st.emit (.instr "fcmp_olt" [lv, rv] (some r)))
  | .Gt =>
    let _p := st.fresh (.i 1)
    let st := _p.1
    let r := _p.2
    .ok r (st.emit (.instr "fcmp_ogt" [lv, rv] (some r)))
  | .Le =>
    let _p := st.fresh (.i 1)
    let st := _p.1
    let r := _p.2
    .ok r (st.emit (.instr "fcmp_ole" [lv, rv] (some r)))
  | .Ge =>
    let _p := st.fresh (.i 1)
    let st := _p.1
    let r := _p.2
    .ok r (st.emit (.instr "fcmp_oge" [lv, rv] (some r)))
  | op => .err (.CodegenError ("unsupported float op: " ++ op.display) none) st

/-- `coerce_to_ltype`: Int→F64 and Float→I64 emit casts, everything else
passes through (the source never errs here). -/
def CG.coerceToLtype (st : CG) (v : CVal) (fromTy : Ty) (toTy : LType) :
    CG × CVal :=
  match fromTy, toTy with
  | .Int, .F64 =>
    let _p := st.fresh .f64
    let st := _p.1
    let r := _p.2
    (st.emit (.instr "sitofp" [v] (some r)), r)
  | .Float, .I64 =>
    let _p := st.fresh (.i 64)
    let st := _p.1
    let r := _p.2
    (st.emit (.instr "fptosi" [v] (some r)), r)
  | _, _ => (st, v)

/-- The G-Basic type `infer_expr_type` assigns to a module function's
declared return type. -/
def FnRet.toGType : FnRet → Ty
  | .void => .Void
  | .i w => if w = 1 then .Bool else .Int
  | .f64 => .Float
  | .ptr => .Unknown

/-- `LType::to_gbasic_type`. -/
def LType.toGBasicType : LType → Ty
  | .I64 => .Int
  | .F64 => .Float
  | .Bool => .Bool
  | .Ptr => .String
  | .Void => .Void

/-- `infer_expr_type`. -/
def inferExprType (st : CG) : Expression → Ty
  | .Literal lit =>
    match lit.kind with
    | .Int _ => .Int
    | .Float _ => .Float
    | .String _ => .String
    | .Bool _ => .Bool
  | .Identifier id =>
    if (namedColor id.name).isSome then .Int
    else
      match st.lookupVar id.name with
      | some v => v.ty
      | none => .Unknown
  | .BinaryOp left op right _ =>
    match op with
    | .Eq | .Neq | .Lt | .Gt | .Le | .Ge | .And | .Or => .Bool
    | _ =>
      let lt := inferExprType st left
      let rt := inferExprType st right
      if lt = Ty.String then .String
      else if (lt = Ty.Int ∧ rt = Ty.Float) ∨ (lt = Ty.Float ∧ rt = Ty.Int)
        then .Float
      else lt
  | .UnaryOp op operand _ =>
    match op with
    | .Not => .Bool
    | .Neg => inferExprType st operand
  | .Call callee _ _ =>
    match callee with
    | .Identifier id =>
      if id.name = "print" ∨ id.name = "play" ∨ id.name = "clear" then .Void
      else if id.name = "rect" ∨ id.name = "circle" then .Int
      else if id.name = "key" then .Bool
      else if id.name = "random" then .Int
      else if id.name = "point" then .Float
      else
        match st.fns.find? (fun p => p.1 = id.name) with
        | some p => p.2.toGType
        | none => .Unknown
    | .FieldAccess _ field _ =>
      if field.name = "collides" ∨ field.name = "contains" then .Bool
      else if field.name = "move" ∨ field.name = "remove" ∨
          field.name = "add" ∨ field.name = "at" then .Void
      else .Unknown
    | _ => .Unknown
  | .StringInterp _ _ => .String
  | .Assignment _ value _ => inferExprType st value
  | .MethodChain base chain _ =>
    match chain.getLast? with
    | some last =>
      if base = NamespaceRef.Screen ∧ (last.method.name = "center" ∨
          last.method.name = "bottom_center" ∨
          last.method.name = "top_center") then .Float
      else
        match getNamespaceMethod base last.method.name with
        | some (_, ret, _) => ret.toGBasicType
        | none => .Unknown
    | none => .Unknown
  | .Array elements _ =>
    match elements with
    | [] => .Array .Unknown
    | e :: _ => .Array (inferExprType st e)
  | .Index object _ _ =>
    match inferExprType st object with
    | .Array inner => inner
    | _ => .Unknown
  | .Range _ _ _ => .Unknown
  | .FieldAccess o f sp =>
    match resolveFieldChain (.FieldAccess o f sp) with
    | some (varName, propPath) =>
      if varName = "screen" then
        if propPath = "width" ∨ propPath = "height" then .Int
        else if propPath = "center.x" ∨ propPath = "center.y" then .Float
        else .Unknown
      else if propPath = "position.x" ∨ propPath = "position.y" ∨
          propPath = "velocity.x" ∨ propPath = "velocity.y" ∨
          propPath = "size.width" ∨ propPath = "size.height" ∨
          propPath = "x" ∨ propPath = "y" then .Float
      else .Unknown
    | none => .Unknown

/-- `emit_typed_print_call`: the print family is declared up front, so the
`get_function` lookups cannot fail; `val.unwrap()` on `None` panics for
Int/Float/Bool. -/
def emitTypedPrintCall (st : CG) (val : Option CVal) (ty : Ty)
    (suffix : Str) : CRes Unit :=
  match ty with
  | .String | .Unknown =>
    let fname := if suffix = "" then "runtime_print" else "runtime_print_str_part"
    match val with
    | some v => .ok () (st.emit (.call fname [v] none))
    | none => .ok () st
  | .Int =>
    match val with
    | some v => .ok () (st.emit (.call ("runtime_print_int" ++ suffix) [v] none))
    | none => .err (.InternalError "unwrap on None") st
  | .Float =>
    match val with
    | some v => .ok () (st.emit (.call ("runtime_print_float" ++ suffix) [v] none))
    | none => .err (.InternalError "unwrap on None") st
  | .Bool =>
    match val with
    | some v =>
      let _p := st.fresh (.i 64)
      let st := _p.1
      let r := _p.2
      let st := st.emit (.instr "zext" [v] (some r))
      .ok () (st.emit (.call ("runtime_print_int" ++ suffix) [r] none))
    | none => .err (.InternalError "unwrap on None") st
  | _ =>
    let fname := if suffix = "" then "runtime_print" else "runtime_print_str_part"
    match val with
    | some v => .ok () (st.emit (.call fname [v] none))
    | none => .ok () st

/-- The Screen-position `.x`/`.y` component of `codegen_method_chain`
(the match on `(pos_name, method_name)`). -/
def screenPosComponent (st : CG) (posName m : Str) : CRes CVal :=
  if (posName = "center" ∨ posName = "top_center" ∨
      posName = "bottom_center") ∧ m = "x" then
    let _p := st.callRuntime "runtime_screen_center_x" .F64 []
    let st := _p.1
    let r := _p.2
    unwrapVal st r fun v st => .ok v st
  else if posName = "center" ∧ m = "y" then
    let _p := st.callRuntime "runtime_screen_center_y" .F64 []
    let st := _p.1
    let r := _p.2
    unwrapVal st r fun v st => .ok v st
  else if (posName = "bottom_center" ∨ posName = "bottom_left" ∨
      posName = "bottom_right") ∧ m = "y" then
    let _p := st.callRuntime "runtime_screen_height" .I64 []
    let st := _p.1
    let h := _p.2
    unwrapVal st h fun hv st =>
      let _p := st.fresh .f64
      let st := _p.1
      let r := _p.2
      .ok r (st.emit (.instr "sitofp" [hv] (some r)))
  else if (posName = "top_left" ∧ (m = "x" ∨ m = "y")) ∨
      (posName = "top_center" ∧ m = "y") ∨
      (posName = "bottom_left" ∧ m = "x") then
    .ok (.floatC "0.0") st
  else if (posName = "top_right" ∨ posName = "bottom_right") ∧ m = "x" then
    let _p := st.callRuntime "runtime_screen_width" .I64 []
    let st := _p.1
    let w := _p.2
    unwrapVal st w fun wv st =>
      let _p := st.fresh .f64
      let st := _p.1
      let r := _p.2
      .ok r (st.emit (.instr "sitofp" [wv] (some r)))
  else if posName = "top_right" ∧ m = "y" then
    .ok (.floatC "0.0") st
  else
    let _p := st.callRuntime "runtime_screen_center_x" .F64 []
    let st := _p.1
    let r := _p.2
    unwrapVal st r fun v st => .ok v st

/-- The `Screen.center`-style fallback of the `.position` property setter
(the `MethodChain` branch and the final error of that arm). -/
def positionScreenSet (st : CG) (h : CVal) (value : Expression)
    (span : Span) : CRes (Option CVal) :=
  match value with
  | .MethodChain base chain _ =>
    if base = NamespaceRef.Screen then
      match chain.getLast? with
      | some last =>
        (if last.method.name = "center" then
           let cx := st.callRuntime "runtime_screen_center_x" .F64 []
           unwrapVal cx.1 cx.2 fun cxv st =>
             let cy := st.callRuntime "runtime_screen_center_y" .F64 []
             unwrapVal cy.1 cy.2 fun cyv st => .ok (cxv, cyv) st
         else if last.method.name = "bottom_center" then
           let cx := st.callRuntime "runtime_screen_center_x" .F64 []
           unwrapVal cx.1 cx.2 fun cxv st =>
             let sh := st.callRuntime "runtime_screen_height" .I64 []
             unwrapVal sh.1 sh.2 fun shv st =>
               let shy := st.fresh .f64
               .ok (cxv, shy.2)
                 (shy.1.emit (.instr "sitofp" [shv] (some shy.2)))
         else if last.method.name = "top_center" then
           let cx := st.callRuntime "runtime_screen_center_x" .F64 []
           unwrapVal cx.1 cx.2 fun cxv st => .ok (cxv, CVal.floatC "0.0") st
         else if last.method.name = "top_left" then
           .ok (CVal.floatC "0.0", CVal.floatC "0.0") st
         else if last.method.name = "top_right" then
           let sw := st.callRuntime "runtime_screen_width" .I64 []
           unwrapVal sw.1 sw.2 fun swv st =>
             let swf := st.fresh .f64
             .ok (swf.2, CVal.floatC "0.0")
               (swf.1.emit (.instr "sitofp" [swv] (some swf.2)))
         else if last.method.name = "bottom_left" then
           let sh := st.callRuntime "runtime_screen_height" .I64 []
           unwrapVal sh.1 sh.2 fun shv st =>
             let shy := st.fresh .f64
             .ok (CVal.floatC "0.0", shy.2)
               (shy.1.emit (.instr "sitofp" [shv] (some shy.2)))
         else if last.method.name = "bottom_right" then
           let sw := st.callRuntime "runtime_screen_width" .I64 []
           unwrapVal sw.1 sw.2 fun swv st =>
             let sh := st.callRuntime "runtime_screen_height" .I64 []
             unwrapVal sh.1 sh.2 fun shv st =>
               let swf := st.fresh .f64
               let st := swf.1.emit (.instr "sitofp" [swv] (some swf.2))
               let shy := st.fresh .f64
               .ok (swf.2, shy.2)
                 (shy.1.emit (.instr "sitofp" [shv] (some shy.2)))
         else
           .err (.CodegenError
             ("unknown Screen property '" ++ last.method.name ++ "'")
             (some span)) st).bind fun pxy st =>
          let st := (st.callRuntime "runtime_set_position" .Void
            [h, pxy.1, pxy.2]).1
          .ok none st
      | none =>
        .err (.CodegenError
          "unsupported value for .position assignment; use Point(x, y) or Screen.center"
          (some span)) st
    else
      .err (.CodegenError
        "unsupported value for .position assignment; use Point(x, y) or Screen.center"
        (some span)) st
  | _ =>
    .err (.CodegenError
      "unsupported value for .position assignment; use Point(x, y) or Screen.center"
      (some span)) st

/-- The Screen-`MethodChain.field` prefix of `codegen_field_access_read`:
emits `ensure_screen_init` on entering the matching shape, then either
returns early (`some result`) or falls through with that call emitted. -/
def fieldAccessScreenStep (st : CG) (expr : Expression) :
    CG × Option (CRes (Option CVal)) :=
  match expr with
  | .FieldAccess (.MethodChain base chain _) field _ =>
    if base = NamespaceRef.Screen then
      match chain.getLast? with
      | some last =>
        let st := (st.callRuntime "ensure_screen_init" .Void []).1
        let pm := last.method.name
        let fm := field.name
        if pm = "center" ∧ fm = "x" then
          let _p := st.callRuntime "runtime_screen_center_x" .F64 []
          let st := _p.1
          let r := _p.2
          (st, some (.ok r st))
        else if pm = "center" ∧ fm = "y" then
          let _p := st.callRuntime "runtime_screen_center_y" .F64 []
          let st := _p.1
          let r := _p.2
          (st, some (.ok r st))
        else if (pm = "bottom_center" ∨ pm = "top_center") ∧ fm = "x" then
          let _p := st.callRuntime "runtime_screen_center_x" .F64 []
          let st := _p.1
          let r := _p.2
          (st, some (.ok r st))
        else if (pm = "bottom_center" ∨ pm = "bottom_left" ∨
            pm = "bottom_right") ∧ fm = "y" then
          let _p := st.callRuntime "runtime_screen_height" .I64 []
          let st := _p.1
          let hc := _p.2
          (st, some (unwrapVal st hc fun hv st =>
            let _p := st.fresh .f64
            let st := _p.1
            let r := _p.2
            .ok (some r) (st.emit (.instr "sitofp" [hv] (some r)))))
        else if (pm = "top_left" ∧ (fm = "x" ∨ fm = "y")) ∨
            (pm = "top_center" ∧ fm = "y") ∨
            (pm = "bottom_left" ∧ fm = "x") then
          (st, some (.ok (some (.floatC "0.0")) st))
        else if ((pm = "top_right" ∨ pm = "bottom_right") ∧ fm = "x") ∨
            (pm = "top_right" ∧ fm = "y") then
          if fm = "x" then
            let _p := st.callRuntime "runtime_screen_width" .I64 []
            let st := _p.1
            let wc := _p.2
            (st, some (unwrapVal st wc fun wv st =>
              let _p := st.fresh .f64
              let st := _p.1
              let r := _p.2
              .ok (some r) (st.emit (.instr "sitofp" [wv] (some r)))))
          else (st, some (.ok (some (.floatC "0.0")) st))
        else (st, none)
      | none => (st, none)
    else (st, none)
  | _ => (st, none)

/-- `codegen_field_access_read` (non-recursive: property getters only emit
runtime calls). -/
def codegenFieldAccessRead (st0 : CG) (expr : Expression) :
    CRes (Option CVal) :=
  match fieldAccessScreenStep st0 expr with
  | (_, some res) => res
  | (st, none) =>
    match resolveFieldChain expr with
     | some (varName, propPath) =>
       if varName = "screen" then
         if propPath = "width" then
           let st := (st.callRuntime "ensure_screen_init" .Void []).1
           let _p := st.callRuntime "runtime_screen_width" .I64 []
           let st := _p.1
           let w := _p.2
           .ok w st
         else if propPath = "height" then
           let st := (st.callRuntime "ensure_screen_init" .Void []).1
           let _p := st.callRuntime "runtime_screen_height" .I64 []
           let st := _p.1
           let h := _p.2
           .ok h st
         else if propPath = "center.x" then
           let st := (st.callRuntime "ensure_screen_init" .Void []).1
           let _p := st.callRuntime "runtime_screen_center_x" .F64 []
           let st := _p.1
           let r := _p.2
           .ok r st
         else if propPath = "center.y" then
           let st := (st.callRuntime "ensure_screen_init" .Void []).1
           let _p := st.callRuntime "runtime_screen_center_y" .F64 []
           let st := _p.1
           let r := _p.2
           .ok r st
         else .ok (some .nullPtr) st
       else
         match st.lookupVar varName with
         | some var =>
           let _p := st.buildLoad (typeToLlvmBasic var.ty) (.reg var.ptr .ptr)
           let st := _p.1
           let handle := _p.2
           if propPath = "position.x" ∨ propPath = "x" then
             let _p := st.callRuntime "runtime_get_position_x" .F64 [handle]
             let st := _p.1
             let r := _p.2
             .ok r st
           else if propPath = "position.y" ∨ propPath = "y" then
             let _p := st.callRuntime "runtime_get_position_y" .F64 [handle]
             let st := _p.1
             let r := _p.2
             .ok r st
           else if propPath = "velocity.x" then
             let _p := st.callRuntime "runtime_get_velocity_x" .F64 [handle]
             let st := _p.1
             let r := _p.2
             .ok r st
           else if propPath = "velocity.y" then
             let _p := st.callRuntime "runtime_get_velocity_y" .F64 [handle]
             let st := _p.1
             let r := _p.2
             .ok r st
           else if propPath = "size.width" then
             let _p := st.callRuntime "runtime_get_size_width" .F64 [handle]
             let st := _p.1
             let r := _p.2
             .ok r st
           else if propPath = "size.height" then
             let _p := st.callRuntime "runtime_get_size_height" .F64 [handle]
             let st := _p.1
             let r := _p.2
             .ok r st
           else if propPath = "length" then
             let _p := st.callRuntime "runtime_array_length" .I64 [handle]
             let st := _p.1
             let r := _p.2
             .ok r st
           else .ok (some .nullPtr) st
         | none => .ok (some .nullPtr) st
     | none => .ok (some .nullPtr) st

/-! ### Expression-level generators (fuel-indexed mutual recursion) -/

mutual

/-- `codegen_expression`. -/
def codegenExpression : Nat → CG → Expression → CRes (Option CVal)
  | 0, _, _ => .fuel
  | n+1, st, e =>
    match e with
    | .Literal lit => .ok (some (codegenLiteral lit)) st
    | .Identifier id =>
      match namedColor id.name with
      | some (r, g, b) =>
        .ok (some (.intC (Int.ofNat (r * 65536 + g * 256 + b)) 64)) st
      | none =>
        match st.lookupVar id.name with
        | none =>
          .err (.CodegenError ("undefined variable '" ++ id.name ++ "'")
            (some id.span)) st
        | some var =>
          let _p := st.buildLoad (typeToLlvmBasic var.ty) (.reg var.ptr .ptr)
          let st := _p.1
          let v := _p.2
          .ok (some v) st
    | .BinaryOp left op right span =>
      let leftTy := inferExprType st left
      if leftTy = Ty.String ∧ op = BinaryOp.Add then
        (codegenExpression n st left).bindU fun lv st =>
        (codegenExpression n st right).bindU fun rv st =>
          let _p := st.fresh .ptr
          let st := _p.1
          let r := _p.2
          .ok (some r)
            (st.emit (.call "runtime_string_concat" [lv, rv] (some r)))
      else
        let rightTy := inferExprType st right
        (codegenExpression n st left).bindU fun lv st =>
        (codegenExpression n st right).bindU fun rv st =>
          match leftTy, rightTy with
          | .Int, .Float =>
            let _p := st.fresh .f64
            let st := _p.1
            let lf := _p.2
            let st := st.emit (.instr "sitofp" [lv] (some lf))
            (st.codegenFloatBinop lf op rv).bind fun r st => .ok (some r) st
          | .Float, .Int =>
            let _p := st.fresh .f64
            let st := _p.1
            let rf := _p.2
            let st := st.emit (.instr "sitofp" [rv] (some rf))
            (st.codegenFloatBinop lv op rf).bind fun r st => .ok (some r) st
          | .Int, _ | .Bool, _ =>
            let _p := st.codegenIntBinop lv op rv
            let st := _p.1
            let r := _p.2
            .ok (some r) st
          | .Float, _ =>
            (st.codegenFloatBinop lv op rv).bind fun r st => .ok (some r) st
          | lt, _ =>
            .err (.CodegenError ("unsupported binary op on " ++ tyDisplay lt)
              (some span)) st
    | .UnaryOp op operand _ =>
      (codegenExpression n st operand).bindU fun v st =>
        let ty := inferExprType st operand
        match op with
        | .Neg =>
          match ty with
          | .Int =>
            let _p := st.fresh v.lty
            let st := _p.1
            let r := _p.2
            .ok (some r) (st.emit (.instr "neg" [v] (some r)))
          | .Float =>
            let _p := st.fresh .f64
            let st := _p.1
            let r := _p.2
            .ok (some r) (st.emit (.instr "fneg" [v] (some r)))
          | _ => .err (.CodegenError "cannot negate non-numeric" none) st
        | .Not =>
          let _p := st.fresh v.lty
          let st := _p.1
          let r := _p.2
          .ok (some r) (st.emit (.instr "not" [v] (some r)))
    | .Call callee args _ => codegenCall n st callee args
    | .Assignment target value span =>
      match resolveFieldChain target with
      | some (varName, propPath) =>
        match st.lookupVar varName with
        | none =>
          .err (.CodegenError ("undefined variable '" ++ varName ++ "'")
            (some span)) st
        | some var =>
          let _p := st.buildLoad (typeToLlvmBasic var.ty) (.reg var.ptr .ptr)
          let st := _p.1
          let handle := _p.2
          codegenPropertySet n st handle propPath value span
      | none =>
        (codegenExpression n st value).bindU fun v st =>
          match target with
          | .Identifier id =>
            match st.lookupVar id.name with
            | none =>
              .err (.CodegenError ("undefined variable '" ++ id.name ++ "'")
                (some id.span)) st
            | some var => .ok (some v) (st.buildStore (.reg var.ptr .ptr) v)
          | _ => .ok (some v) st
    | .StringInterp parts _ =>
      (emitStringInterpParts n st parts).bind fun _ st =>
        let st := st.emit (.call "runtime_print_newline" [] none)
        .ok (some (.strG "" "empty")) st
    | .MethodChain base chain _ =>
      codegenMethodChainLoop n st base chain none none
    | .Array elements _ => codegenArray n st elements
    | .Index object index _ => codegenIndex n st object index
    | .Range _ _ _ =>
      .err (.CodegenError
        "range expressions can only be used in for-loop iterables" none) st
    | .FieldAccess o f sp => codegenFieldAccessRead st (.FieldAccess o f sp)

/-- `codegen_call`. -/
def codegenCall : Nat → CG → Expression → List Expression →
    CRes (Option CVal)
  | 0, _, _, _ => .fuel
  | n+1, st, callee, args =>
    match callee with
    | .FieldAccess object field _ =>
      if field.name = "at" ∧ args.length = 2 then
        match object, args with
        | .Call (.Identifier id) printArgs _, [x, y] =>
          if id.name = "print" ∧ printArgs.length = 1 then
            match printArgs with
            | [t] => codegenPrintAt n st t x y
            | _ => codegenObjectMethod n st object field.name args
          else codegenObjectMethod n st object field.name args
        | _, _ => codegenObjectMethod n st object field.name args
      else codegenObjectMethod n st object field.name args
    | .Identifier id =>
      if id.name = "print" then
        match args with
        | [a] => codegenPrint n st a
        | _ => codegenUserCall n st id args
      else if id.name = "rect" then
        match args with
        | [w, h] =>
          (codegenExpression n st w).bindU fun wv st =>
          (codegenExpression n st h).bindU fun hv st =>
            let _p := st.coerceToLtype wv (inferExprType st w) .F64
            let st := _p.1
            let wf := _p.2
            let _p := st.coerceToLtype hv (inferExprType st h) .F64
            let st := _p.1
            let hf := _p.2
            let _p := st.callRuntime "runtime_create_rect" .I64 [wf, hf]
            let st := _p.1
            let r := _p.2
            .ok r st
        | _ => codegenUserCall n st id args
      else if id.name = "circle" then
        match args with
        | [rad] =>
          (codegenExpression n st rad).bindU fun rv st =>
            let _p := st.coerceToLtype rv (inferExprType st rad) .F64
            let st := _p.1
            let rf := _p.2
            let _p := st.callRuntime "runtime_create_circle" .I64 [rf]
            let st := _p.1
            let r := _p.2
            .ok r st
        | _ => codegenUserCall n st id args
      else if id.name = "key" then
        match args with
        | [k] =>
          let st := (st.callRuntime "ensure_screen_init" .Void []).1
          (codegenExpression n st k).bindU fun kv st =>
            let _p := st.callRuntime "runtime_input_key_pressed" .Bool [kv]
            let st := _p.1
            let r := _p.2
            .ok r st
        | _ => codegenUserCall n st id args
      else if id.name = "play" then
        match args with
        | [a] =>
          (codegenExpression n st a).bindU fun v st =>
            let st := (st.callRuntime "runtime_sound_effect_play" .Void [v]).1
            .ok none st
        | _ => codegenUserCall n st id args
      else if id.name = "clear" then
        let st := (st.callRuntime "ensure_screen_init" .Void []).1
        match args with
        | [a] =>
          (codegenExpression n st a).bindU fun v st =>
            let _p := st.fresh v.lty
            let st := _p.1
            let r1 := _p.2
            let st := st.emit (.instr "lshr" [v, .intC 16 64] (some r1))
            let _p := st.fresh v.lty
            let st := _p.1
            let g1 := _p.2
            let st := st.emit (.instr "lshr" [v, .intC 8 64] (some g1))
            let _p := st.fresh v.lty
            let st := _p.1
            let b1 := _p.2
            let st := st.emit (.instr "and" [v, .intC 255 64] (some b1))
            let _p := st.fresh v.lty
            let st := _p.1
            let r2 := _p.2
            let st := st.emit (.instr "and" [r1, .intC 255 64] (some r2))
            let _p := st.fresh v.lty
            let st := _p.1
            let g2 := _p.2
            let st := st.emit (.instr "and" [g1, .intC 255 64] (some g2))
            let st := (st.callRuntime "runtime_screen_clear" .Void [r2, g2, b1]).1
            .ok none st
        | [r, g, b] =>
          (codegenExpression n st r).bindU fun rv st =>
          (codegenExpression n st g).bindU fun gv st =>
          (codegenExpression n st b).bindU fun bv st =>
            let st := (st.callRuntime "runtime_screen_clear" .Void [rv, gv, bv]).1
            .ok none st
        | _ => .ok none st
      else if id.name = "random" then
        match args with
        | [mn, mx] =>
          (codegenExpression n st mn).bindU fun mnv st =>
          (codegenExpression n st mx).bindU fun mxv st =>
            let _p := st.callRuntime "runtime_math_random_range" .I64 [mnv, mxv]
            let st := _p.1
            let r := _p.2
            .ok r st
        | _ => codegenUserCall n st id args
      else if id.name = "point" then
        match args with
        | [x, y] =>
          (codegenExpression n st x).bindU fun xv st =>
          (codegenExpression n st y).bindU fun _ st =>
            .ok (some xv) st
        | _ => codegenUserCall n st id args
      else codegenUserCall n st id args
    | _ =>
      .err (.CodegenError "only direct function calls supported" none) st

/-- The regular-function-call tail of `codegen_call`. -/
def codegenUserCall : Nat → CG → Identifier → List Expression →
    CRes (Option CVal)
  | 0, _, _, _ => .fuel
  | n+1, st, id, args =>
    match st.fns.find? (fun p => p.1 = id.name) with
    | none =>
      .err (.CodegenError ("undefined function '" ++ id.name ++ "'") none) st
    | some p =>
      (codegenCallArgs n st args).bind fun vs st =>
        match p.2 with
        | .void => .ok none (st.emit (.call id.name vs none))
        | fr =>
          let _p := st.fresh fr.toLTy
          let st := _p.1
          let v := _p.2
          .ok (some v) (st.emit (.call id.name vs (some v)))

/-- The argument loop of a regular function call (each value unwrapped). -/
def codegenCallArgs : Nat → CG → List Expression → CRes (List CVal)
  | 0, _, _ => .fuel
  | _+1, st, [] => .ok [] st
  | n+1, st, a :: rest =>
    (codegenExpression n st a).bindU fun v st =>
      (codegenCallArgs n st rest).bind fun vs st => .ok (v :: vs) st

/-- `codegen_print`. -/
def codegenPrint : Nat → CG → Expression → CRes (Option CVal)
  | 0, _, _ => .fuel
  | n+1, st, arg =>
    match arg with
    | .StringInterp parts _ =>
      (emitStringInterpParts n st parts).bind fun _ st =>
        .ok none (st.emit (.call "runtime_print_newline" [] none))
    | _ =>
      let argTy := inferExprType st arg
      (codegenExpression n st arg).bind fun val st =>
        (emitTypedPrintCall st val argTy "").bind fun _ st => .ok none st

/-- `codegen_print_at`. -/
def codegenPrintAt : Nat → CG → Expression → Expression → Expression →
    CRes (Option CVal)
  | 0, _, _, _, _ => .fuel
  | n+1, st, textArg, xArg, yArg =>
    (show CRes CVal from match textArg with
     | .StringInterp parts _ => buildInterpStringLoop n st parts none
     | _ =>
       (codegenExpression n st textArg).bind fun val st =>
         match inferExprType st textArg with
         | .String | .Unknown => unwrapVal st val fun v st => .ok v st
         | _ => .ok (.strG "" "empty") st
    ).bind fun textPtr st =>
    (codegenExpression n st xArg).bindU fun x st =>
    (codegenExpression n st yArg).bindU fun y st =>
      let _p := st.coerceToLtype x (inferExprType st xArg) .I64
      let st := _p.1
      let xi := _p.2
      let _p := st.coerceToLtype y (inferExprType st yArg) .I64
      let st := _p.1
      let yi := _p.2
      let white := CVal.intC 255 64
      let st := (st.callRuntime "runtime_draw_text" .Void [textPtr, xi, yi, white, white, white]).1
      .ok none st

/-- The part loop of `build_interp_string`, with the running concatenation
accumulator. -/
def buildInterpStringLoop : Nat → CG → List StringPart → Option CVal →
    CRes CVal
  | 0, _, _, _ => .fuel
  | _+1, st, [], result =>
    match result with
    | some r => .ok r st
    | none => .ok (.strG "" "empty") st
  | n+1, st, part :: rest, result =>
    (show CRes CVal from match part with
     | .Lit s => .ok (CVal.strG s "str_part") st
     | .Expr e =>
       let ty := inferExprType st e
       (codegenExpression n st e).bind fun val st =>
         match ty with
         | .String | .Unknown => unwrapVal st val fun v st => .ok v st
         | .Int =>
           unwrapVal st val fun v st =>
             let _p := st.callRuntime "runtime_int_to_str" .Ptr [v]
             let st := _p.1
             let r := _p.2
             match r with
             | some rv => .ok rv st
             | none => .ok (.strG "?" "fallback") st
         | .Float =>
           unwrapVal st val fun v st =>
             let _p := st.callRuntime "runtime_float_to_str" .Ptr [v]
             let st := _p.1
             let r := _p.2
             match r with
             | some rv => .ok rv st
             | none => .ok (.strG "?" "fallback") st
         | _ => .ok (.strG "?" "fallback") st
    ).bind fun partStr st =>
      match result with
      | none => buildInterpStringLoop n st rest (some partStr)
      | some prev =>
        let _p := st.fresh .ptr
        let st := _p.1
        let r := _p.2
        let st := st.emit (.call "runtime_string_concat" [prev, partStr]
          (some r))
        buildInterpStringLoop n st rest (some r)

/-- `emit_string_interp_parts` (no trailing newline). -/
def emitStringInterpParts : Nat → CG → List StringPart → CRes Unit
  | 0, _, _ => .fuel
  | _+1, st, [] => .ok () st
  | n+1, st, part :: rest =>
    match part with
    | .Lit s =>
      let st := st.emit (.call "runtime_print_str_part"
        [.strG s "str_part"] none)
      emitStringInterpParts n st rest
    | .Expr e =>
      let ty := inferExprType st e
      (codegenExpression n st e).bind fun val st =>
        (emitTypedPrintCall st val ty "_part").bind fun _ st =>
          emitStringInterpParts n st rest

/-- The chain loop of `codegen_method_chain`, carrying `last_result` and
`last_screen_pos`. -/
def codegenMethodChainLoop : Nat → CG → NsRef → List MethodCall →
    Option CVal → Option Str → CRes (Option CVal)
  | 0, _, _, _, _, _ => .fuel
  | _+1, st, _, [], lastResult, _ => .ok lastResult st
  | n+1, st, ns, c :: rest, lastResult, lastScreenPos =>
    let m := c.method.name
    if ns = NamespaceRef.Screen ∧ (m = "center" ∨ m = "bottom_center" ∨
        m = "top_center" ∨ m = "top_left" ∨ m = "top_right" ∨
        m = "bottom_left" ∨ m = "bottom_right") then
      let st := (st.callRuntime "ensure_screen_init" .Void []).1
      let _p := st.callRuntime "runtime_screen_center_x" .F64 []
      let st := _p.1
      let r := _p.2
      codegenMethodChainLoop n st ns rest r (some m)
    else if ns = NamespaceRef.Screen ∧ (m = "x" ∨ m = "y") then
      match lastScreenPos with
      | some posName =>
        (screenPosComponent st posName m).bind fun v st =>
          codegenMethodChainLoop n st ns rest (some v) none
      | none => codegenChainCall n st ns c rest lastScreenPos
    else codegenChainCall n st ns c rest lastScreenPos

/-- The general (namespace-table) case of one chain step. -/
def codegenChainCall : Nat → CG → NsRef → MethodCall → List MethodCall →
    Option Str → CRes (Option CVal)
  | 0, _, _, _, _, _ => .fuel
  | n+1, st, ns, c, rest, lastScreenPos =>
    match getNamespaceMethod ns c.method.name with
    | none =>
      .err (.CodegenError ("unknown namespace method: " ++ ns.display ++
        "." ++ c.method.name) none) st
    | some (params, ret, fnName) =>
      (codegenNsArgs n st c.args params 0 ns c.method.name).bind fun vs st =>
        let _p := st.callRuntime fnName ret vs
        let st := _p.1
        let result := _p.2
        codegenMethodChainLoop n st ns rest result lastScreenPos

/-- The argument loop of a namespace-method call: each value is required
to be non-void and coerced to the expected parameter type. -/
def codegenNsArgs : Nat → CG → List Expression → List LType → Nat →
    NsRef → Str → CRes (List CVal)
  | 0, _, _, _, _, _, _ => .fuel
  | _+1, st, [], _, _, _, _ => .ok [] st
  | n+1, st, a :: rest, params, i, ns, m =>
    match codegenExpression n st a with
    | .fuel => .fuel
    | .err e st => .err e st
    | .ok none st =>
      .err (.CodegenError ("void expression as argument to " ++
        ns.display ++ "." ++ m) none) st
    | .ok (some v) st =>
      let expected := params.getD i LType.I64
      let _p := st.coerceToLtype v (inferExprType st a) expected
      let st := _p.1
      let cv := _p.2
      (codegenNsArgs n st rest params (i+1) ns m).bind fun vs st =>
        .ok (cv :: vs) st

/-- `codegen_array`. -/
def codegenArray : Nat → CG → List Expression → CRes (Option CVal)
  | 0, _, _ => .fuel
  | n+1, st, elements =>
    match elements with
    | [] =>
      let _p := st.callRuntime "runtime_array_new" .I64 []
      let st := _p.1
      let r := _p.2
      .ok r st
    | e0 :: _ =>
      let _elemTy := inferExprType st e0
      let _p := st.buildAlloca "arr"
      let st := _p.1
      let arr := _p.2
      (codegenArrayElems n st elements arr 0).bind fun _ st =>
        .ok (some (.reg arr .ptr)) st

/-- The element loop shared by `codegen_array` and the array case of
`codegen_for_loop`: value, GEP, store per element. -/
def codegenArrayElems : Nat → CG → List Expression → Nat → Nat → CRes Unit
  | 0, _, _, _, _ => .fuel
  | _+1, st, [], _, _ => .ok () st
  | n+1, st, e :: rest, arr, i =>
    (codegenExpression n st e).bindU fun v st =>
      let _p := st.fresh .ptr
      let st := _p.1
      let p := _p.2
      let st := st.emit (.instr "gep"
        [.reg arr .ptr, .intC 0 64, .intC (Int.ofNat i) 64] (some p))
      let st := st.buildStore p v
      codegenArrayElems n st rest arr (i+1)

/-- `codegen_index`. -/
def codegenIndex : Nat → CG → Expression → Expression → CRes (Option CVal)
  | 0, _, _, _ => .fuel
  | n+1, st, object, index =>
    (codegenExpression n st object).bindU fun objV st =>
    (codegenExpression n st index).bindU fun idxV st =>
      let elemTy :=
        match inferExprType st object with
        | .Array inner => inner
        | _ => Ty.Int
      let _p := st.fresh .ptr
      let st := _p.1
      let p := _p.2
      let st := st.emit (.instr "gep" [objV, idxV] (some p))
      let _p := st.buildLoad (typeToLlvmBasic elemTy) p
      let st := _p.1
      let v := _p.2
      .ok (some v) st

/-- `codegen_property_set`. -/
def codegenPropertySet : Nat → CG → CVal → Str → Expression → Span →
    CRes (Option CVal)
  | 0, _, _, _, _, _ => .fuel
  | n+1, st, h, propPath, value, span =>
    if propPath = "position" then
      match value with
      | .Call (.Identifier id) [ax, ay] _ =>
        if id.name = "point" then
          (codegenExpression n st ax).bindU fun x st =>
          (codegenExpression n st ay).bindU fun y st =>
            let _p := st.coerceToLtype x (inferExprType st ax) .F64
            let st := _p.1
            let xf := _p.2
            let _p := st.coerceToLtype y (inferExprType st ay) .F64
            let st := _p.1
            let yf := _p.2
            let st := (st.callRuntime "runtime_set_position" .Void [h, xf, yf]).1
            .ok none st
        else positionScreenSet st h value span
      | _ => positionScreenSet st h value span
    else if propPath = "position.x" then
      (codegenExpression n st value).bindU fun v st =>
        let _p := st.coerceToLtype v (inferExprType st value) .F64
        let st := _p.1
        let vf := _p.2
        let st := (st.callRuntime "runtime_set_position_x" .Void [h, vf]).1
        .ok none st
    else if propPath = "position.y" then
      (codegenExpression n st value).bindU fun v st =>
        let _p := st.coerceToLtype v (inferExprType st value) .F64
        let st := _p.1
        let vf := _p.2
        let st := (st.callRuntime "runtime_set_position_y" .Void [h, vf]).1
        .ok none st
    else if propPath = "color" then
      match value with
      | .Identifier id =>
        match namedColor id.name with
        | some (r, g, b) =>
          let st := (st.callRuntime "runtime_set_color" .Void [h, .intC (Int.ofNat r) 64, .intC (Int.ofNat g) 64, .intC (Int.ofNat b) 64]).1
          .ok none st
        | none => codegenColorPacked n st h (.Identifier id)
      | .Call (.Identifier id) [ar, ag, ab] sp =>
        if id.name = "color" then
          (codegenExpression n st ar).bindU fun rv st =>
          (codegenExpression n st ag).bindU fun gv st =>
          (codegenExpression n st ab).bindU fun bv st =>
            let st := (st.callRuntime "runtime_set_color" .Void [h, rv, gv, bv]).1
            .ok none st
        else codegenColorPacked n st h (.Call (.Identifier id) [ar, ag, ab] sp)
      | v => codegenColorPacked n st h v
    else if propPath = "velocity" then
      match value with
      | .Call (.Identifier id) [ax, ay] _ =>
        if id.name = "point" then
          (codegenExpression n st ax).bindU fun vx st =>
          (codegenExpression n st ay).bindU fun vy st =>
            let _p := st.coerceToLtype vx (inferExprType st ax) .F64
            let st := _p.1
            let vxf := _p.2
            let _p := st.coerceToLtype vy (inferExprType st ay) .F64
            let st := _p.1
            let vyf := _p.2
            let st := (st.callRuntime "runtime_set_velocity" .Void [h, vxf, vyf]).1
            .ok none st
        else
          .err (.CodegenError
            "unsupported value for .velocity assignment; use Point(vx, vy)"
            (some span)) st
      | _ =>
        .err (.CodegenError
          "unsupported value for .velocity assignment; use Point(vx, vy)"
          (some span)) st
    else if propPath = "velocity.x" then
      (codegenExpression n st value).bindU fun v st =>
        let _p := st.coerceToLtype v (inferExprType st value) .F64
        let st := _p.1
        let vf := _p.2
        let st := (st.callRuntime "runtime_set_velocity_x" .Void [h, vf]).1
        .ok none st
    else if propPath = "velocity.y" then
      (codegenExpression n st value).bindU fun v st =>
        let _p := st.coerceToLtype v (inferExprType st value) .F64
        let st := _p.1
        let vf := _p.2
        let st := (st.callRuntime "runtime_set_velocity_y" .Void [h, vf]).1
        .ok none st
    else if propPath = "gravity" then
      (codegenExpression n st value).bindU fun v st =>
        let _p := st.coerceToLtype v (inferExprType st value) .F64
        let st := _p.1
        let vf := _p.2
        let st := (st.callRuntime "runtime_set_gravity" .Void [h, vf]).1
        .ok none st
    else if propPath = "solid" then
      (codegenExpression n st value).bindU fun v st =>
        let _p := st.fresh (.i 64)
        let st := _p.1
        let r := _p.2
        let st := st.emit (.instr "zext" [v] (some r))
        let st := (st.callRuntime "runtime_set_solid" .Void [h, r]).1
        .ok none st
    else if propPath = "bounces" then
      (codegenExpression n st value).bindU fun v st =>
        let _p := st.fresh (.i 64)
        let st := _p.1
        let r := _p.2
        let st := st.emit (.instr "zext" [v] (some r))
        let st := (st.callRuntime "runtime_set_bounces" .Void [h, r]).1
        .ok none st
    else if propPath = "visible" then
      (codegenExpression n st value).bindU fun v st =>
        let _p := st.fresh (.i 64)
        let st := _p.1
        let r := _p.2
        let st := st.emit (.instr "zext" [v] (some r))
        let st := (st.callRuntime "runtime_set_visible" .Void [h, r]).1
        .ok none st
    else if propPath = "layer" then
      (codegenExpression n st value).bindU fun v st =>
        let st := (st.callRuntime "runtime_set_layer" .Void [h, v]).1
        .ok none st
    else
      .err (.CodegenError ("unknown property '" ++ propPath ++
        "' for assignment") (some span)) st

/-- The packed-color fallback of the `.color` property setter. -/
def codegenColorPacked : Nat → CG → CVal → Expression → CRes (Option CVal)
  | 0, _, _, _ => .fuel
  | n+1, st, h, value =>
    (codegenExpression n st value).bindU fun v st =>
      let _p := st.fresh v.lty
      let st := _p.1
      let r1 := _p.2
      let st := st.emit (.instr "lshr" [v, .intC 16 64] (some r1))
      let _p := st.fresh v.lty
      let st := _p.1
      let g1 := _p.2
      let st := st.emit (.instr "lshr" [v, .intC 8 64] (some g1))
      let _p := st.fresh v.lty
      let st := _p.1
      let b1 := _p.2
      let st := st.emit (.instr "and" [v, .intC 255 64] (some b1))
      let _p := st.fresh v.lty
      let st := _p.1
      let r2 := _p.2
      let st := st.emit (.instr "and" [r1, .intC 255 64] (some r2))
      let _p := st.fresh v.lty
      let st := _p.1
      let g2 := _p.2
      let st := st.emit (.instr "and" [g1, .intC 255 64] (some g2))
      let st := (st.callRuntime "runtime_set_color" .Void [h, r2, g2, b1]).1
      .ok none st

/-- `codegen_object_method`. -/
def codegenObjectMethod : Nat → CG → Expression → Str → List Expression →
    CRes (Option CVal)
  | 0, _, _, _, _ => .fuel
  | n+1, st, object, method, args =>
    (codegenExpression n st object).bindU fun h st =>
      if method = "move" then
        match args with
        | [dx, dy] =>
          (codegenExpression n st dx).bindU fun dxv st =>
          (codegenExpression n st dy).bindU fun dyv st =>
            let _p := st.coerceToLtype dxv (inferExprType st dx) .F64
            let st := _p.1
            let dxf := _p.2
            let _p := st.coerceToLtype dyv (inferExprType st dy) .F64
            let st := _p.1
            let dyf := _p.2
            let st := (st.callRuntime "runtime_object_move" .Void [h, dxf, dyf]).1
            .ok none st
        | _ =>
          .err (.CodegenError ("unknown object method '." ++ method ++ "()'")
            none) st
      else if method = "collides" then
        match args with
        | [other] =>
          (codegenExpression n st other).bindU fun ov st =>
            let _p := st.callRuntime "runtime_object_collides" .Bool [h, ov]
            let st := _p.1
            let r := _p.2
            .ok r st
        | _ =>
          .err (.CodegenError ("unknown object method '." ++ method ++ "()'")
            none) st
      else if method = "contains" then
        match args with
        | [x, y] =>
          (codegenExpression n st x).bindU fun xv st =>
          (codegenExpression n st y).bindU fun yv st =>
            let _p := st.coerceToLtype xv (inferExprType st x) .F64
            let st := _p.1
            let xf := _p.2
            let _p := st.coerceToLtype yv (inferExprType st y) .F64
            let st := _p.1
            let yf := _p.2
            let _p := st.callRuntime "runtime_object_contains" .Bool [h, xf, yf]
            let st := _p.1
            let r := _p.2
            .ok r st
        | _ =>
          .err (.CodegenError ("unknown object method '." ++ method ++ "()'")
            none) st
      else if method = "remove" then
        let st := (st.callRuntime "runtime_object_remove" .Void [h]).1
        .ok none st
      else if method = "add" then
        match args with
        | [a] =>
          (codegenExpression n st a).bindU fun v st =>
            let st := (st.callRuntime "runtime_array_add" .Void [h, v]).1
            .ok none st
        | _ =>
          .err (.CodegenError ("unknown object method '." ++ method ++ "()'")
            none) st
      else if method = "remove_from" then
        match args with
        | [a] =>
          (codegenExpression n st a).bindU fun v st =>
            let st := (st.callRuntime "runtime_array_remove_value" .Void [h, v]).1
            .ok none st
        | _ =>
          .err (.CodegenError ("unknown object method '." ++ method ++ "()'")
            none) st
      else if method = "at" then
        match args with
        | [x, y] =>
          (codegenExpression n st x).bindU fun _ st =>
          (codegenExpression n st y).bindU fun _ st =>
            .ok none st
        | _ =>
          .err (.CodegenError ("unknown object method '." ++ method ++ "()'")
            none) st
      else
        .err (.CodegenError ("unknown object method '." ++ method ++ "()'")
          none) st

end

/-! ### Statement-level generators -/

/-- Parameter allocas and stores at function entry
(`codegen_function_body`, the params loop). -/
def allocParams (st : CG) (fnName : Str) :
    List Parameter → Nat → CG
  | [], _ => st
  | p :: rest, i =>
    let ty := p.typeAnn.getD Ty.Unknown
    let _p := st.buildAlloca p.name.name
    let st := _p.1
    let a := _p.2
    let st := st.buildStore (.reg a .ptr)
      (.param fnName i (typeToLlvmBasic ty))
    let st := st.insertVar p.name.name ⟨a, ty⟩
    allocParams st fnName rest (i+1)

/-- `declare_function`: record the function with its LLVM return shape. -/
def declareFunction (st : CG) (func : FunctionDecl) : CG :=
  let ret := func.returnType.getD Ty.Void
  let fr : FnRet :=
    match ret with
    | .Void => .void
    | .Int => .i 64
    | .Float => .f64
    | .Bool => .i 1
    | _ => .i 64
  { st with fns := st.fns ++ [(func.name.name, fr)] }

/-- The `matches!(condition, Literal(Bool(true)))` test of the While
arm. -/
def isWhileTrueB : Expression → Bool
  | .Literal ⟨.Bool true, _⟩ => true
  | _ => false

mutual

/-- `codegen_statement`. -/
def codegenStatement : Nat → CG → Statement → CRes Unit
  | 0, _, _ => .fuel
  | n+1, st, s =>
    match s with
    | .Let name _ value _ =>
      (codegenExpression n st value).bind fun val st =>
        let ty := inferExprType st value
        match val with
        | some v =>
          let _p := st.buildAlloca name.name
          let st := _p.1
          let a := _p.2
          let st := st.buildStore (.reg a .ptr) v
          .ok () (st.insertVar name.name ⟨a, ty⟩)
        | none => .ok () st
    | .Expression expr _ =>
      (codegenExpression n st expr).bind fun _ st => .ok () st
    | .Return value _ =>
      match value with
      | some ve =>
        (codegenExpression n st ve).bind fun val st =>
          match val with
          | some v => .ok () (st.emit (.term (.ret (some v))))
          | none => .ok () (st.emit (.term (.ret none)))
      | none => .ok () (st.emit (.term (.ret none)))
    | .If condition thenBlock elseBlock _ =>
      (codegenExpression n st condition).bindU fun condRaw st =>
        let _p := st.ensureI1 condRaw
        let st := _p.1
        let cond := _p.2
        let _p := st.newBlock
        let st := _p.1
        let thenBb := _p.2
        let _p := st.newBlock
        let st := _p.1
        let elseBb := _p.2
        let _p := st.newBlock
        let st := _p.1
        let mergeBb := _p.2
        let st := st.emit (.term (.condbr cond thenBb elseBb))
        let st := (st.positionAtEnd thenBb).pushScope
        (codegenStmtList n st thenBlock.statements).bind fun _ st =>
          let st := st.popScope
          let st := if st.needsTerminator then st.emit (.term (.br mergeBb))
            else st
          let st := st.positionAtEnd elseBb
          (show CRes Unit from match elseBlock with
           | some eb =>
             (codegenStmtList n st.pushScope eb.statements).bind fun _ st =>
               .ok () st.popScope
           | none => .ok () st).bind fun _ st =>
            let st := if st.needsTerminator then st.emit (.term (.br mergeBb))
              else st
            .ok () (st.positionAtEnd mergeBb)
    | .While condition body _ =>
      let autoFrame := isWhileTrueB condition && !st.inAutoFrame
      let st :=
        if autoFrame then
          let st := (st.callRuntime "ensure_screen_init" .Void []).1
          { st with inAutoFrame := true }
        else st
      let _p := st.newBlock
      let st := _p.1
      let condBb := _p.2
      let _p := st.newBlock
      let st := _p.1
      let bodyBb := _p.2
      let _p := st.newBlock
      let st := _p.1
      let exitBb := _p.2
      let st := st.emit (.term (.br condBb))
      let st := st.positionAtEnd condBb
      (codegenExpression n st condition).bindU fun condRaw st =>
        let _p := st.ensureI1 condRaw
        let st := _p.1
        let cond := _p.2
        let st := st.emit (.term (.condbr cond bodyBb exitBb))
        let st := st.positionAtEnd bodyBb
        let st :=
          if autoFrame then (st.callRuntime "runtime_frame_auto" .Void []).1
          else st
        let st := st.pushScope
        let st := { st with loopStack := (condBb, exitBb) :: st.loopStack }
        (codegenStmtList n st body.statements).bind fun _ st =>
          let st := { st with loopStack := st.loopStack.tail }
          let st := st.popScope
          let st :=
            if autoFrame && st.needsTerminator then
              (st.callRuntime "runtime_frame_auto_end" .Void []).1
            else st
          let st := if st.needsTerminator then st.emit (.term (.br condBb))
            else st
          let st := st.positionAtEnd exitBb
          .ok () (if autoFrame then { st with inAutoFrame := false } else st)
    | .For var iterable body _ => codegenForLoop n st var iterable body
    | .Match subject arms _ => codegenMatch n st subject arms
    | .Break _ =>
      match st.loopStack.head? with
      | some (_, breakBb) =>
        .ok () (if st.needsTerminator then st.emit (.term (.br breakBb))
          else st)
      | none => .ok () st
    | .Continue _ =>
      match st.loopStack.head? with
      | some (contBb, _) =>
        .ok () (if st.needsTerminator then st.emit (.term (.br contBb))
          else st)
      | none => .ok () st
    | .Block b =>
      (codegenStmtList n st.pushScope b.statements).bind fun _ st =>
        .ok () st.popScope
    | .Function _ => .ok () st

/-- A statement sequence (`for s in ... { self.codegen_statement(s)? }`). -/
def codegenStmtList : Nat → CG → List Statement → CRes Unit
  | 0, _, _ => .fuel
  | _+1, st, [] => .ok () st
  | n+1, st, s :: rest =>
    (codegenStatement n st s).bind fun _ st => codegenStmtList n st rest

/-- `codegen_loop_body`: scope, loop variable, loop stack, body,
fallthrough branch to the increment block. -/
def codegenLoopBody : Nat → CG → Str → Nat → Ty → Block → Nat → Nat →
    CRes Unit
  | 0, _, _, _, _, _, _, _ => .fuel
  | n+1, st, varName, varAlloca, varTy, body, incBb, exitBb =>
    let st := st.pushScope
    let st := st.insertVar varName ⟨varAlloca, varTy⟩
    let st := { st with loopStack := (incBb, exitBb) :: st.loopStack }
    (codegenStmtList n st body.statements).bind fun _ st =>
      let st := { st with loopStack := st.loopStack.tail }
      let st := st.popScope
      .ok () (if st.needsTerminator then st.emit (.term (.br incBb)) else st)

/-- `codegen_for_loop`: the Range counter loop, the literal-array loop,
and the dynamic-array-handle loop. -/
def codegenForLoop : Nat → CG → Identifier → Expression → Block → CRes Unit
  | 0, _, _, _, _ => .fuel
  | n+1, st, var, iterable, body =>
    match iterable with
    | .Range startE stopE _ =>
      (codegenExpression n st startE).bindU fun sv st =>
      (codegenExpression n st stopE).bindU fun ev st =>
        let _p := st.buildAlloca var.name
        let st := _p.1
        let varAlloca := _p.2
        let st := st.buildStore (.reg varAlloca .ptr) sv
        let _p := st.newBlock
        let st := _p.1
        let condBb := _p.2
        let _p := st.newBlock
        let st := _p.1
        let bodyBb := _p.2
        let _p := st.newBlock
        let st := _p.1
        let incBb := _p.2
        let _p := st.newBlock
        let st := _p.1
        let exitBb := _p.2
        let st := st.emit (.term (.br condBb))
        let st := st.positionAtEnd condBb
        let _p := st.buildLoad (.i 64) (.reg varAlloca .ptr)
        let st := _p.1
        let cur := _p.2
        let _p := st.fresh (.i 1)
        let st := _p.1
        let cond := _p.2
        let st := st.emit (.instr "icmp_slt" [cur, ev] (some cond))
        let st := st.emit (.term (.condbr cond bodyBb exitBb))
        let st := st.positionAtEnd bodyBb
        (codegenLoopBody n st var.name varAlloca Ty.Int body incBb
            exitBb).bind fun _ st =>
          let st := st.positionAtEnd incBb
          let _p := st.buildLoad (.i 64) (.reg varAlloca .ptr)
          let st := _p.1
          let curv := _p.2
          let _p := st.fresh (.i 64)
          let st := _p.1
          let nxt := _p.2
          let st := st.emit (.instr "add" [curv, .intC 1 64] (some nxt))
          let st := st.buildStore (.reg varAlloca .ptr) nxt
          let st := st.emit (.term (.br condBb))
          .ok () (st.positionAtEnd exitBb)
    | .Array elements _ =>
      match elements with
      | [] => .ok () st
      | e0 :: _ =>
        let elemTy := inferExprType st e0
        let _p := st.buildAlloca "arr"
        let st := _p.1
        let arrAlloca := _p.2
        (codegenArrayElems n st elements arrAlloca 0).bind fun _ st =>
          let _p := st.buildAlloca "idx"
          let st := _p.1
          let idxAlloca := _p.2
          let st := st.buildStore (.reg idxAlloca .ptr) (.intC 0 64)
          let _p := st.buildAlloca var.name
          let st := _p.1
          let varAlloca := _p.2
          let _p := st.newBlock
          let st := _p.1
          let condBb := _p.2
          let _p := st.newBlock
          let st := _p.1
          let bodyBb := _p.2
          let _p := st.newBlock
          let st := _p.1
          let incBb := _p.2
          let _p := st.newBlock
          let st := _p.1
          let exitBb := _p.2
          let st := st.emit (.term (.br condBb))
          let st := st.positionAtEnd condBb
          let _p := st.buildLoad (.i 64) (.reg idxAlloca .ptr)
          let st := _p.1
          let idx := _p.2
          let _p := st.fresh (.i 1)
          let st := _p.1
          let cond := _p.2
          let st := st.emit (.instr "icmp_slt"
            [idx, .intC (Int.ofNat elements.length) 64] (some cond))
          let st := st.emit (.term (.condbr cond bodyBb exitBb))
          let st := st.positionAtEnd bodyBb
          let _p := st.buildLoad (.i 64) (.reg idxAlloca .ptr)
          let st := _p.1
          let idxVal := _p.2
          let _p := st.fresh .ptr
          let st := _p.1
          let p := _p.2
          let st := st.emit (.instr "gep"
            [.reg arrAlloca .ptr, .intC 0 64, idxVal] (some p))
          let _p := st.buildLoad (typeToLlvmBasic elemTy) p
          let st := _p.1
          let elemVal := _p.2
          let st := st.buildStore (.reg varAlloca .ptr) elemVal
          (codegenLoopBody n st var.name varAlloca elemTy body incBb
              exitBb).bind fun _ st =>
            let st := st.positionAtEnd incBb
            let _p := st.buildLoad (.i 64) (.reg idxAlloca .ptr)
            let st := _p.1
            let curv := _p.2
            let _p := st.fresh (.i 64)
            let st := _p.1
            let nxt := _p.2
            let st := st.emit (.instr "add" [curv, .intC 1 64] (some nxt))
            let st := st.buildStore (.reg idxAlloca .ptr) nxt
            let st := st.emit (.term (.br condBb))
            .ok () (st.positionAtEnd exitBb)
    | _ =>
      (codegenExpression n st iterable).bindU fun handle st =>
        let _p := st.callRuntime "runtime_array_length" .I64 [handle]
        let st := _p.1
        let lenO := _p.2
        unwrapVal st lenO fun _len st =>
          let _p := st.buildAlloca "idx"
          let st := _p.1
          let idxAlloca := _p.2
          let st := st.buildStore (.reg idxAlloca .ptr) (.intC 0 64)
          let _p := st.buildAlloca var.name
          let st := _p.1
          let varAlloca := _p.2
          let _p := st.newBlock
          let st := _p.1
          let condBb := _p.2
          let _p := st.newBlock
          let st := _p.1
          let bodyBb := _p.2
          let _p := st.newBlock
          let st := _p.1
          let incBb := _p.2
          let _p := st.newBlock
          let st := _p.1
          let exitBb := _p.2
          let st := st.emit (.term (.br condBb))
          let st := st.positionAtEnd condBb
          let _p := st.buildLoad (.i 64) (.reg idxAlloca .ptr)
          let st := _p.1
          let idx := _p.2
          let _p := st.callRuntime "runtime_array_length" .I64 [handle]
          let st := _p.1
          let lenO2 := _p.2
          unwrapVal st lenO2 fun curLen st =>
            let _p := st.fresh (.i 1)
            let st := _p.1
            let cond := _p.2
            let st := st.emit (.instr "icmp_slt" [idx, curLen] (some cond))
            let st := st.emit (.term (.condbr cond bodyBb exitBb))
            let st := st.positionAtEnd bodyBb
            let _p := st.buildLoad (.i 64) (.reg idxAlloca .ptr)
            let st := _p.1
            let idxVal := _p.2
            let _p := st.callRuntime "runtime_array_get" .I64 [handle, idxVal]
            let st := _p.1
            let elemO := _p.2
            unwrapVal st elemO fun elemVal st =>
              let st := st.buildStore (.reg varAlloca .ptr) elemVal
              (codegenLoopBody n st var.name varAlloca Ty.Int body incBb
                  exitBb).bind fun _ st =>
                let st := st.positionAtEnd incBb
                let _p := st.buildLoad (.i 64) (.reg idxAlloca .ptr)
                let st := _p.1
                let curv := _p.2
                let _p := st.fresh (.i 64)
                let st := _p.1
                let nxt := _p.2
                let st := st.emit (.instr "add" [curv, .intC 1 64] (some nxt))
                let st := st.buildStore (.reg idxAlloca .ptr) nxt
                let st := st.emit (.term (.br condBb))
                .ok () (st.positionAtEnd exitBb)

/-- `codegen_match`. -/
def codegenMatch : Nat → CG → Expression → List MatchArm → CRes Unit
  | 0, _, _, _ => .fuel
  | n+1, st, subject, arms =>
    (codegenExpression n st subject).bindU fun subjectVal st =>
      let subjectTy := inferExprType st subject
      let _p := st.newBlock
      let st := _p.1
      let mergeBb := _p.2
      codegenMatchArms n st arms subjectVal subjectTy mergeBb

/-- The arm loop of `codegen_match`, then the final fall-through branch
and the positioning at the merge block. -/
def codegenMatchArms : Nat → CG → List MatchArm → CVal → Ty → Nat →
    CRes Unit
  | 0, _, _, _, _, _ => .fuel
  | _+1, st, [], _, _, mergeBb =>
    let st := if st.needsTerminator then st.emit (.term (.br mergeBb))
      else st
    .ok () (st.positionAtEnd mergeBb)
  | n+1, st, arm :: rest, subjectVal, subjectTy, mergeBb =>
    match arm.pattern with
    | .Wildcard _ =>
      (codegenStmtList n st.pushScope arm.body.statements).bind fun _ st =>
        let st := st.popScope
        let st := if st.needsTerminator then st.emit (.term (.br mergeBb))
          else st
        codegenMatchArms n st rest subjectVal subjectTy mergeBb
    | .Literal lit =>
      let pv := codegenLiteral lit
      let _p := st.buildEqualityCheck subjectVal pv subjectTy
      let st := _p.1
      let cond := _p.2
      let _p := st.newBlock
      let st := _p.1
      let armBb := _p.2
      let _p := st.newBlock
      let st := _p.1
      let nextBb := _p.2
      let st := st.emit (.term (.condbr cond armBb nextBb))
      let st := (st.positionAtEnd armBb).pushScope
      (codegenStmtList n st arm.body.statements).bind fun _ st =>
        let st := st.popScope
        let st := if st.needsTerminator then st.emit (.term (.br mergeBb))
          else st
        let st := st.positionAtEnd nextBb
        codegenMatchArms n st rest subjectVal subjectTy mergeBb
    | .Identifier id =>
      let _p := st.newBlock
      let st := _p.1
      let armBb := _p.2
      let _p := st.newBlock
      let st := _p.1
      let nextBb := _p.2
      let st := st.emit (.term (.br armBb))
      let st := (st.positionAtEnd armBb).pushScope
      let _p := st.buildAlloca id.name
      let st := _p.1
      let a := _p.2
      let st := st.buildStore (.reg a .ptr) subjectVal
      let st := st.insertVar id.name ⟨a, subjectTy⟩
      (codegenStmtList n st arm.body.statements).bind fun _ st =>
        let st := st.popScope
        let st := if st.needsTerminator then st.emit (.term (.br mergeBb))
          else st
        let st := st.positionAtEnd nextBb
        codegenMatchArms n st rest subjectVal subjectTy mergeBb

/-- `codegen_function_body`. -/
def codegenFunctionBody : Nat → CG → FunctionDecl → CRes Unit
  | 0, _, _ => .fuel
  | n+1, st, func =>
    match st.fns.find? (fun p => p.1 = func.name.name) with
    | none =>
      .err (.CodegenError ("function '" ++ func.name.name ++
        "' not declared") none) st
    | some _ =>
      let prevBlock := st.cur
      let _p := st.newBlock
      let st := _p.1
      let entry := _p.2
      let st := st.positionAtEnd entry
      let st := st.pushScope
      let st := allocParams st func.name.name func.params 0
      let stmts := func.body.statements
      let retType := func.returnType.getD Ty.Void
      let lastIsExpr : Bool :=
        (match stmts.getLast? with
         | some (.Expression _ _) => true
         | _ => false) &&
        (match retType with
         | Ty.Void => false
         | _ => true)
      let count := if lastIsExpr then stmts.length - 1 else stmts.length
      (codegenStmtList n st (stmts.take count)).bind fun _ st =>
        (show CRes Unit from
          if lastIsExpr then
            match stmts.getLast? with
            | some (.Expression expr _) =>
              if st.needsTerminator then
                (codegenExpression n st expr).bind fun val st =>
                  match val with
                  | some v => .ok () (st.emit (.term (.ret (some v))))
                  | none => .ok () (st.emit (.term (.ret none)))
              else .ok () st
            | _ => .ok () st
          else .ok () st).bind fun _ st =>
          let st :=
            if st.needsTerminator then
              match retType with
              | Ty.Void => st.emit (.term (.ret none))
              | Ty.Int => st.emit (.term (.ret (some (.intC 0 64))))
              | Ty.Float => st.emit (.term (.ret (some (.floatC "0.0"))))
              | Ty.Bool => st.emit (.term (.ret (some (.intC 0 1))))
              | _ => st.emit (.term (.ret none))
            else st
          let st := st.popScope
          .ok () (st.positionAtEnd prevBlock)

end

/-- The top-level statement loop of `compile` (function bodies via
`codegen_function_body`, everything else as a `main` statement). -/
def codegenTopLevel : Nat → CG → List Statement → CRes Unit
  | 0, _, _ => .fuel
  | _+1, st, [] => .ok () st
  | n+1, st, s :: rest =>
    (show CRes Unit from match s with
     | .Function func => codegenFunctionBody n st func
     | _ => codegenStatement n st s).bind fun _ st =>
      codegenTopLevel n st rest

/-- `Codegen::new` followed by `declare_runtime_functions`. -/
def initCG : CG :=
  { blockMap := fun _ => []
    trace := []
    cur := 0
    nextBlock := 0
    nextReg := 0
    vars := [[]]
    loopStack := []
    inAutoFrame := false
    fns := initialFns }

/-- `compile` (up to LLVM verification and linking): declare user
functions, build `main`, generate all top-level statements, and add
`main`'s final `ret 0` when the entry block is unterminated. -/
def compileProgram (fuel : Nat) (prog : Program) : CRes Unit :=
  let st := prog.statements.foldl
    (fun st s =>
      match s with
      | .Function f => declareFunction st f
      | _ => st) initCG
  let st := { st with fns := st.fns ++ [("main", FnRet.i 32)] }
  let _p := st.newBlock
  let st := _p.1
  let entry := _p.2
  let st := st.positionAtEnd entry
  (codegenTopLevel fuel st prog.statements).bind fun _ st =>
    .ok () (if st.needsTerminator then
      st.emit (.term (.ret (some (.intC 0 32)))) else st)

/-! ### Frame-call accounting

`FrameLe st st'` says: `st'` extends `st`'s emission trace without adding
any call to `runtime_frame_auto`/`runtime_frame_auto_end`, preserves the
auto-frame flag, and only appends to blocks that already existed. -/

/-- Does this name belong to the auto-frame runtime pair? -/
def frameName (s : Str) : Bool :=
  s = "runtime_frame_auto" || s = "runtime_frame_auto_end"

/-- Is this item a call to one of the auto-frame runtime functions? -/
def Item.isFrameCall : Item → Bool
  | .call f _ _ => frameName f
  | _ => false

/-- Is this item a call to the named function? -/
def Item.isCallOf (nm : Str) : Item → Bool
  | .call f _ _ => f = nm
  | _ => false

/-- Number of calls to `nm` in the whole emission trace. -/
def CG.callCount (st : CG) (nm : Str) : Nat :=
  st.trace.countP (Item.isCallOf nm)

def FrameLe (st st' : CG) : Prop :=
  (∃ suf, st'.trace = st.trace ++ suf ∧
    suf.all (fun it => !it.isFrameCall) = true) ∧
  st'.inAutoFrame = st.inAutoFrame ∧
  st.nextBlock ≤ st'.nextBlock ∧
  ∀ b, b < st.nextBlock → ∃ s, st'.blockMap b = st.blockMap b ++ s

theorem FrameLe.refl (st : CG) : FrameLe st st :=
  ⟨⟨[], (List.append_nil _).symm, rfl⟩, rfl, Nat.le_refl _,
    fun _ _ => ⟨[], (List.append_nil _).symm⟩⟩

theorem FrameLe.trans {st st1 st2 : CG} (h1 : FrameLe st st1)
    (h2 : FrameLe st1 st2) : FrameLe st st2 := by
  obtain ⟨⟨s1, ht1, hf1⟩, hfl1, hnb1, hbm1⟩ := h1
  obtain ⟨⟨s2, ht2, hf2⟩, hfl2, hnb2, hbm2⟩ := h2
  refine ⟨⟨s1 ++ s2, by rw [ht2, ht1, List.append_assoc],
      by simp only [List.all_append, hf1, hf2, Bool.and_self]⟩,
    hfl2.trans hfl1, Nat.le_trans hnb1 hnb2, fun b hb => ?_⟩
  obtain ⟨x1, e1⟩ := hbm1 b hb
  obtain ⟨x2, e2⟩ := hbm2 b (Nat.lt_of_lt_of_le hb hnb1)
  exact ⟨x1 ++ x2, by rw [e2, e1, List.append_assoc]⟩

/-- A step that leaves trace, flag, block counter and block contents
unchanged. -/
theorem FrameLe.pure {st st' : CG} (h1 : st'.trace = st.trace)
    (h2 : st'.inAutoFrame = st.inAutoFrame)
    (h3 : st'.nextBlock = st.nextBlock)
    (h4 : st'.blockMap = st.blockMap) : FrameLe st st' :=
  ⟨⟨[], by rw [h1, List.append_nil], rfl⟩, h2, Nat.le_of_eq h3.symm,
    fun b _ => ⟨[], by rw [h4, List.append_nil]⟩⟩

theorem FrameLe.emit_post {st st1 : CG} {it : Item} (hle : FrameLe st st1)
    (h : it.isFrameCall = false) : FrameLe st (st1.emit it) := by
  refine FrameLe.trans hle
    ⟨⟨[it], rfl, by simp [h]⟩, rfl, Nat.le_refl _, fun b hb => ?_⟩
  by_cases hc : b = st1.cur
  · exact ⟨[it], by simp [CG.emit, hc]⟩
  · exact ⟨[], by simp [CG.emit, hc]⟩

theorem FrameLe.emit_step (st1 : CG) (it : Item)
    (h : it.isFrameCall = false) : FrameLe st1 (st1.emit it) :=
  FrameLe.emit_post (FrameLe.refl st1) h

theorem FrameLe.positionAtEnd_post {st st1 : CG} {b : Nat}
    (hle : FrameLe st st1) : FrameLe st (st1.positionAtEnd b) :=
  FrameLe.trans hle (FrameLe.pure rfl rfl rfl rfl)

theorem FrameLe.pushScope_post {st st1 : CG} (hle : FrameLe st st1) :
    FrameLe st st1.pushScope :=
  FrameLe.trans hle (FrameLe.pure rfl rfl rfl rfl)

theorem FrameLe.popScope_post {st st1 : CG} (hle : FrameLe st st1) :
    FrameLe st st1.popScope :=
  FrameLe.trans hle (FrameLe.pure rfl rfl rfl rfl)

theorem FrameLe.insertVar_post {st st1 : CG} {nm : Str} {info : CVarInfo}
    (hle : FrameLe st st1) : FrameLe st (st1.insertVar nm info) := by
  refine FrameLe.trans hle ?_
  unfold CG.insertVar
  split
  · exact FrameLe.refl _
  · exact FrameLe.pure rfl rfl rfl rfl

theorem FrameLe.loopStackSet_post {st st1 : CG} {ls : List (Nat × Nat)}
    (hle : FrameLe st st1) : FrameLe st { st1 with loopStack := ls } :=
  FrameLe.trans hle (FrameLe.pure rfl rfl rfl rfl)

theorem FrameLe.fresh_post {st st1 : CG} {t : LTy} (hle : FrameLe st st1) :
    FrameLe st (st1.fresh t).1 :=
  FrameLe.trans hle (FrameLe.pure rfl rfl rfl rfl)

theorem FrameLe.newBlock_post {st st1 : CG} (hle : FrameLe st st1) :
    FrameLe st (st1.newBlock).1 := by
  refine FrameLe.trans hle
    ⟨⟨[], (List.append_nil _).symm, rfl⟩, rfl, Nat.le_succ _, fun b hb => ?_⟩
  refine ⟨[], ?_⟩
  show (if b = st1.nextBlock then [] else st1.blockMap b) =
    st1.blockMap b ++ []
  rw [if_neg (Nat.ne_of_lt hb), List.append_nil]

theorem FrameLe.callRuntime_post {st st1 : CG} {nm : Str} {ret : LType}
    {args : List CVal} (hle : FrameLe st st1) (h : frameName nm = false) :
    FrameLe st (st1.callRuntime nm ret args).1 := by
  have hit : ∀ r, (Item.call nm args r).isFrameCall = false := fun r => h
  have hD : FrameLe st
      (if (st1.fns.find? (fun p => p.1 = nm)).isSome then st1
       else { st1 with fns := st1.fns ++ [(nm, ret.toFnRet)] }) := by
    split
    · exact hle
    · exact FrameLe.trans hle (FrameLe.pure rfl rfl rfl rfl)
  simp only [CG.callRuntime]
  split
  · exact FrameLe.emit_post hD (hit _)
  · exact FrameLe.emit_post hD (hit _)
  · exact FrameLe.emit_post (FrameLe.fresh_post hD) (hit _)

theorem FrameLe.buildAlloca_post {st st1 : CG} {nm : Str}
    (hle : FrameLe st st1) : FrameLe st (st1.buildAlloca nm).1 := by
  refine FrameLe.trans hle (FrameLe.trans (FrameLe.emit_step st1
    (.instr ("alloca " ++ nm) [] (some (.reg st1.nextReg .ptr))) rfl)
    (FrameLe.pure rfl rfl rfl rfl))

theorem FrameLe.buildStore_post {st st1 : CG} {p v : CVal}
    (hle : FrameLe st st1) : FrameLe st (st1.buildStore p v) :=
  FrameLe.emit_post hle rfl

theorem FrameLe.buildLoad_post {st st1 : CG} {t : LTy} {p : CVal}
    (hle : FrameLe st st1) : FrameLe st (st1.buildLoad t p).1 :=
  FrameLe.emit_post (FrameLe.fresh_post hle) rfl

theorem FrameLe.ensureI1_post {st st1 : CG} {v : CVal}
    (hle : FrameLe st st1) : FrameLe st (st1.ensureI1 v).1 := by
  simp only [CG.ensureI1]
  split
  · exact hle
  · exact FrameLe.emit_post (FrameLe.fresh_post hle) rfl

theorem FrameLe.coerceToLtype_post {st st1 : CG} {v : CVal} {fromTy : Ty}
    {toTy : LType} (hle : FrameLe st st1) :
    FrameLe st (st1.coerceToLtype v fromTy toTy).1 := by
  cases fromTy <;> cases toTy <;> simp only [CG.coerceToLtype] <;>
    first
    | exact FrameLe.emit_post (FrameLe.fresh_post hle) rfl
    | exact hle

theorem FrameLe.codegenIntBinop_post {st st1 : CG} {lv rv : CVal}
    {op : BinaryOp} (hle : FrameLe st st1) :
    FrameLe st (st1.codegenIntBinop lv op rv).1 := by
  cases op <;> simp only [CG.codegenIntBinop] <;>
    first
    | exact FrameLe.emit_post (FrameLe.fresh_post hle) rfl
    | exact FrameLe.emit_post (FrameLe.fresh_post
        (FrameLe.ensureI1_post (FrameLe.ensureI1_post hle))) rfl

theorem FrameLe.buildEqualityCheck_post {st st1 : CG} {lv rv : CVal}
    {ty : Ty} (hle : FrameLe st st1) :
    FrameLe st (st1.buildEqualityCheck lv rv ty).1 := by
  cases ty <;> simp only [CG.buildEqualityCheck] <;>
    exact FrameLe.emit_post (FrameLe.fresh_post hle) rfl

/-- Lift `FrameLe` over a generator result. -/
def CRes.frameLe {α : Type} (st : CG) : CRes α → Prop
  | .ok _ st' => FrameLe st st'
  | .err _ st' => FrameLe st st'
  | .fuel => True

theorem CRes.frameLe_mono {α : Type} {r : CRes α} {st st1 : CG}
    (h : r.frameLe st1) (hle : FrameLe st st1) : r.frameLe st := by
  cases r with
  | ok a st2 => exact FrameLe.trans hle h
  | err e st2 => exact FrameLe.trans hle h
  | fuel => trivial

theorem CRes.frameLe_ok {α : Type} {x : α} {st st1 : CG}
    (h : FrameLe st st1) : (CRes.ok x st1).frameLe st := h

theorem CRes.frameLe_err {α : Type} {e : GBError} {st st1 : CG}
    (h : FrameLe st st1) : (CRes.err e st1 : CRes α).frameLe st := h

theorem CRes.frameLe_bind {α β : Type} {r : CRes α} {f : α → CG → CRes β}
    {st : CG} (h1 : r.frameLe st) (h2 : ∀ a st1, (f a st1).frameLe st1) :
    (r.bind f).frameLe st := by
  cases r with
  | ok a st1 => exact CRes.frameLe_mono (h2 a st1) h1
  | err e st1 => exact h1
  | fuel => trivial

theorem CRes.frameLe_bindU {β : Type} {r : CRes (Option CVal)}
    {f : CVal → CG → CRes β} {st : CG} (h1 : r.frameLe st)
    (h2 : ∀ a st1, (f a st1).frameLe st1) : (r.bindU f).frameLe st := by
  cases r with
  | ok a st1 =>
    cases a with
    | some v => exact CRes.frameLe_mono (h2 v st1) h1
    | none => exact h1
  | err e st1 => exact h1
  | fuel => trivial

theorem frameLe_unwrapVal {β : Type} {v : Option CVal}
    {f : CVal → CG → CRes β} {st st1 : CG} (hle : FrameLe st st1)
    (hf : ∀ a, (f a st1).frameLe st1) : (unwrapVal st1 v f).frameLe st := by
  cases v with
  | some a => exact CRes.frameLe_mono (hf a) hle
  | none => exact hle

theorem codegenFloatBinop_frameLe {st1 : CG} {lv rv : CVal}
    {op : BinaryOp} : (st1.codegenFloatBinop lv op rv).frameLe st1 := by
  cases op <;> simp only [CG.codegenFloatBinop] <;>
    first
    | exact CRes.frameLe_ok (FrameLe.emit_post (FrameLe.fresh_post
        (FrameLe.refl _)) rfl)
    | exact CRes.frameLe_err (FrameLe.refl _)

theorem frameName_print_prefix {pre : Str} {s : Str}
    (h9 : pre.data.take 9 = "runtime_p".data)
    (hlen : 9 ≤ pre.data.length) : frameName (pre ++ s) = false := by
  have key : ∀ t : Str, t.data.take 9 = "runtime_f".data → pre ++ s ≠ t := by
    intro t ht heq
    have hd : pre.data ++ s.data = t.data := by
      have := congrArg String.data heq
      simpa [String.data_append] using this
    have h1 : (pre.data ++ s.data).take 9 = pre.data.take 9 :=
      List.take_append_of_le_length hlen
    rw [hd, ht, h9] at h1
    exact absurd h1 (by decide)
  have h1 := key "runtime_frame_auto" (by decide)
  have h2 := key "runtime_frame_auto_end" (by decide)
  simp [frameName, h1, h2]

theorem isFrameCall_print_int (s : Str) (args : List CVal)
    (r : Option CVal) :
    (Item.call ("runtime_print_int" ++ s) args r).isFrameCall = false := by
  show frameName ("runtime_print_int" ++ s) = false
  exact frameName_print_prefix (by decide) (by decide)

theorem isFrameCall_print_float (s : Str) (args : List CVal)
    (r : Option CVal) :
    (Item.call ("runtime_print_float" ++ s) args r).isFrameCall = false := by
  show frameName ("runtime_print_float" ++ s) = false
  exact frameName_print_prefix (by decide) (by decide)

theorem emitTypedPrintCall_frameLe {st1 : CG} {val : Option CVal} {ty : Ty}
    {suffix : Str} : (emitTypedPrintCall st1 val ty suffix).frameLe st1 := by
  cases ty <;> cases val <;>
    simp only [emitTypedPrintCall] <;>
    first
    | trivial
    | exact CRes.frameLe_ok (FrameLe.refl _)
    | exact CRes.frameLe_err (FrameLe.refl _)
    | exact CRes.frameLe_ok (FrameLe.emit_post (FrameLe.refl _)
        (isFrameCall_print_int _ _ _))
    | exact CRes.frameLe_ok (FrameLe.emit_post (FrameLe.refl _)
        (isFrameCall_print_float _ _ _))
    | exact CRes.frameLe_ok (FrameLe.emit_post (FrameLe.emit_post
        (FrameLe.fresh_post (FrameLe.refl _)) rfl)
        (isFrameCall_print_int _ _ _))
    | (split <;>
        exact CRes.frameLe_ok (FrameLe.emit_post (FrameLe.refl _)
          (by simp [Item.isFrameCall, frameName])))

theorem screenPosComponent_frameLe {st1 : CG} {p m : Str} :
    (screenPosComponent st1 p m).frameLe st1 := by
  unfold screenPosComponent
  split
  · exact frameLe_unwrapVal
      (FrameLe.callRuntime_post (FrameLe.refl _) (by decide))
      fun a => CRes.frameLe_ok (FrameLe.refl _)
  · split
    · exact frameLe_unwrapVal
        (FrameLe.callRuntime_post (FrameLe.refl _) (by decide))
        fun a => CRes.frameLe_ok (FrameLe.refl _)
    · split
      · exact frameLe_unwrapVal
          (FrameLe.callRuntime_post (FrameLe.refl _) (by decide))
          fun a => CRes.frameLe_ok
            (FrameLe.emit_post (FrameLe.fresh_post (FrameLe.refl _)) rfl)
      · split
        · exact CRes.frameLe_ok (FrameLe.refl _)
        · split
          · exact frameLe_unwrapVal
              (FrameLe.callRuntime_post (FrameLe.refl _) (by decide))
              fun a => CRes.frameLe_ok
                (FrameLe.emit_post (FrameLe.fresh_post (FrameLe.refl _)) rfl)
          · split
            · exact CRes.frameLe_ok (FrameLe.refl _)
            · exact frameLe_unwrapVal
                (FrameLe.callRuntime_post (FrameLe.refl _) (by decide))
                fun a => CRes.frameLe_ok (FrameLe.refl _)

theorem positionScreenSet_frameLe {st1 : CG} {h : CVal} {value : Expression}
    {span : Span} : (positionScreenSet st1 h value span).frameLe st1 := by
  unfold positionScreenSet
  split
  · split
    · split
      · refine CRes.frameLe_bind ?_
          (fun pxy st2 => CRes.frameLe_ok
            (FrameLe.callRuntime_post (FrameLe.refl _) (by decide)))
        split
        · exact frameLe_unwrapVal
            (FrameLe.callRuntime_post (FrameLe.refl _) (by decide))
            fun a => frameLe_unwrapVal
              (FrameLe.callRuntime_post (FrameLe.refl _) (by decide))
              fun b => CRes.frameLe_ok (FrameLe.refl _)
        · split
          · exact frameLe_unwrapVal
              (FrameLe.callRuntime_post (FrameLe.refl _) (by decide))
              fun a => frameLe_unwrapVal
                (FrameLe.callRuntime_post (FrameLe.refl _) (by decide))
                fun b => CRes.frameLe_ok
                  (FrameLe.emit_post (FrameLe.fresh_post (FrameLe.refl _))
                    rfl)
          · split
            · exact frameLe_unwrapVal
                (FrameLe.callRuntime_post (FrameLe.refl _) (by decide))
                fun a => CRes.frameLe_ok (FrameLe.refl _)
            · split
              · exact CRes.frameLe_ok (FrameLe.refl _)
              · split
                · exact frameLe_unwrapVal
                    (FrameLe.callRuntime_post (FrameLe.refl _) (by decide))
                    fun a => CRes.frameLe_ok
                      (FrameLe.emit_post
                        (FrameLe.fresh_post (FrameLe.refl _)) rfl)
                · split
                  · exact frameLe_unwrapVal
                      (FrameLe.callRuntime_post (FrameLe.refl _) (by decide))
                      fun a => CRes.frameLe_ok
                        (FrameLe.emit_post
                          (FrameLe.fresh_post (FrameLe.refl _)) rfl)
                  · split
                    · exact frameLe_unwrapVal
                        (FrameLe.callRuntime_post (FrameLe.refl _)
                          (by decide))
                        fun a => frameLe_unwrapVal
                          (FrameLe.callRuntime_post (FrameLe.refl _)
                            (by decide))
                          fun b => CRes.frameLe_ok
                            (FrameLe.emit_post (FrameLe.fresh_post
                              (FrameLe.emit_post (FrameLe.fresh_post
                                (FrameLe.refl _)) rfl)) rfl)
                    · exact CRes.frameLe_err (FrameLe.refl _)
      · exact CRes.frameLe_err (FrameLe.refl _)
    · exact CRes.frameLe_err (FrameLe.refl _)
  · exact CRes.frameLe_err (FrameLe.refl _)

/-- Packaging of the two frame facts about `fieldAccessScreenStep`:
the fall-through state only extends the trace harmlessly, and so does any
early result. -/
def FAStepOk (st1 : CG) (pr : CG × Option (CRes (Option CVal))) : Prop :=
  FrameLe st1 pr.1 ∧ ∀ r, pr.2 = some r → r.frameLe st1

theorem fieldAccessScreenStep_frame {st1 : CG} {e : Expression} :
    FAStepOk st1 (fieldAccessScreenStep st1 e) := by
  have hnone : ∀ st2 : CG, FrameLe st1 st2 →
      FAStepOk st1 (st2, (none : Option (CRes (Option CVal)))) :=
    fun st2 hst => ⟨hst, fun r hr => nomatch hr⟩
  show FAStepOk st1 _
  unfold fieldAccessScreenStep
  split
  · split
    · split
      · -- some last: the ensure call then the if-chain
        have hEn : FrameLe st1
            (st1.callRuntime "ensure_screen_init" .Void []).1 :=
          FrameLe.callRuntime_post (FrameLe.refl _) (by decide)
        dsimp only
        split
        · exact ⟨FrameLe.callRuntime_post hEn (by decide),
            fun r hr => by
              cases hr
              exact CRes.frameLe_ok
                (FrameLe.callRuntime_post hEn (by decide))⟩
        · split
          · exact ⟨FrameLe.callRuntime_post hEn (by decide),
              fun r hr => by
                cases hr
                exact CRes.frameLe_ok
                  (FrameLe.callRuntime_post hEn (by decide))⟩
          · split
            · exact ⟨FrameLe.callRuntime_post hEn (by decide),
                fun r hr => by
                  cases hr
                  exact CRes.frameLe_ok
                    (FrameLe.callRuntime_post hEn (by decide))⟩
            · split
              · refine ⟨FrameLe.callRuntime_post hEn (by decide),
                  fun r hr => ?_⟩
                cases hr
                exact frameLe_unwrapVal
                  (FrameLe.callRuntime_post hEn (by decide))
                  fun a => CRes.frameLe_ok
                    (FrameLe.emit_post (FrameLe.fresh_post (FrameLe.refl _))
                      rfl)
              · split
                · exact ⟨hEn, fun r hr => by
                    cases hr
                    exact CRes.frameLe_ok hEn⟩
                · split
                  · split
                    · refine ⟨FrameLe.callRuntime_post hEn (by decide),
                        fun r hr => ?_⟩
                      cases hr
                      exact frameLe_unwrapVal
                        (FrameLe.callRuntime_post hEn (by decide))
                        fun a => CRes.frameLe_ok
                          (FrameLe.emit_post
                            (FrameLe.fresh_post (FrameLe.refl _)) rfl)
                    · exact ⟨hEn, fun r hr => by
                        cases hr
                        exact CRes.frameLe_ok hEn⟩
                  · exact ⟨hEn, fun r hr => nomatch hr⟩
      · exact hnone _ (FrameLe.refl _)
    · exact hnone _ (FrameLe.refl _)
  · exact hnone _ (FrameLe.refl _)

theorem codegenFieldAccessRead_frameLe {st1 : CG} {e : Expression} :
    (codegenFieldAccessRead st1 e).frameLe st1 := by
  obtain ⟨h1, h2⟩ := @fieldAccessScreenStep_frame st1 e
  unfold codegenFieldAccessRead
  split
  · rename_i x res heq
    exact h2 res (by rw [heq])
  · rename_i stf heq
    have hst : FrameLe st1 stf := by
      have h1x := h1
      rw [heq] at h1x
      exact h1x
    split
    · split
      · split
        · exact CRes.frameLe_ok (FrameLe.callRuntime_post
            (FrameLe.callRuntime_post hst (by decide)) (by decide))
        · split
          · exact CRes.frameLe_ok (FrameLe.callRuntime_post
              (FrameLe.callRuntime_post hst (by decide)) (by decide))
          · split
            · exact CRes.frameLe_ok (FrameLe.callRuntime_post
                (FrameLe.callRuntime_post hst (by decide)) (by decide))
            · split
              · exact CRes.frameLe_ok (FrameLe.callRuntime_post
                  (FrameLe.callRuntime_post hst (by decide)) (by decide))
              · exact CRes.frameLe_ok hst
      · split
        · split
          · exact CRes.frameLe_ok (FrameLe.callRuntime_post
              (FrameLe.buildLoad_post hst) (by decide))
          · split
            · exact CRes.frameLe_ok (FrameLe.callRuntime_post
                (FrameLe.buildLoad_post hst) (by decide))
            · split
              · exact CRes.frameLe_ok (FrameLe.callRuntime_post
                  (FrameLe.buildLoad_post hst) (by decide))
              · split
                · exact CRes.frameLe_ok (FrameLe.callRuntime_post
                    (FrameLe.buildLoad_post hst) (by decide))
                · split
                  · exact CRes.frameLe_ok (FrameLe.callRuntime_post
                      (FrameLe.buildLoad_post hst) (by decide))
                  · split
                    · exact CRes.frameLe_ok (FrameLe.callRuntime_post
                        (FrameLe.buildLoad_post hst) (by decide))
                    · split
                      · exact CRes.frameLe_ok (FrameLe.callRuntime_post
                          (FrameLe.buildLoad_post hst) (by decide))
                      · exact CRes.frameLe_ok (FrameLe.buildLoad_post hst)
        · exact CRes.frameLe_ok hst
    · exact CRes.frameLe_ok hst

/-! ### Component equations for the generator primitives -/

@[simp] theorem CG.emit_trace (st : CG) (it : Item) :
    (st.emit it).trace = st.trace ++ [it] := rfl

@[simp] theorem CG.emit_cur (st : CG) (it : Item) :
    (st.emit it).cur = st.cur := rfl

@[simp] theorem CG.emit_nextBlock (st : CG) (it : Item) :
    (st.emit it).nextBlock = st.nextBlock := rfl

@[simp] theorem CG.emit_inAutoFrame (st : CG) (it : Item) :
    (st.emit it).inAutoFrame = st.inAutoFrame := rfl

@[simp] theorem CG.newBlock_fst_trace (st : CG) :
    (st.newBlock).1.trace = st.trace := rfl

@[simp] theorem CG.newBlock_fst_cur (st : CG) :
    (st.newBlock).1.cur = st.cur := rfl

@[simp] theorem CG.newBlock_fst_nextBlock (st : CG) :
    (st.newBlock).1.nextBlock = st.nextBlock + 1 := rfl

@[simp] theorem CG.newBlock_fst_inAutoFrame (st : CG) :
    (st.newBlock).1.inAutoFrame = st.inAutoFrame := rfl

@[simp] theorem CG.newBlock_snd (st : CG) :
    (st.newBlock).2 = st.nextBlock := rfl

@[simp] theorem CG.positionAtEnd_trace (st : CG) (b : Nat) :
    (st.positionAtEnd b).trace = st.trace := rfl

@[simp] theorem CG.positionAtEnd_cur (st : CG) (b : Nat) :
    (st.positionAtEnd b).cur = b := rfl

@[simp] theorem CG.positionAtEnd_nextBlock (st : CG) (b : Nat) :
    (st.positionAtEnd b).nextBlock = st.nextBlock := rfl

@[simp] theorem CG.positionAtEnd_inAutoFrame (st : CG) (b : Nat) :
    (st.positionAtEnd b).inAutoFrame = st.inAutoFrame := rfl

@[simp] theorem CG.pushScope_trace (st : CG) :
    st.pushScope.trace = st.trace := rfl

@[simp] theorem CG.pushScope_cur (st : CG) : st.pushScope.cur = st.cur := rfl

@[simp] theorem CG.pushScope_nextBlock (st : CG) :
    st.pushScope.nextBlock = st.nextBlock := rfl

@[simp] theorem CG.pushScope_inAutoFrame (st : CG) :
    st.pushScope.inAutoFrame = st.inAutoFrame := rfl

@[simp] theorem CG.popScope_trace (st : CG) :
    st.popScope.trace = st.trace := rfl

@[simp] theorem CG.popScope_cur (st : CG) : st.popScope.cur = st.cur := rfl

@[simp] theorem CG.declareFn_trace (st : CG) (nm : Str) (ret : LType) :
    (st.declareFn nm ret).trace = st.trace := by
  unfold CG.declareFn; split <;> rfl

@[simp] theorem CG.declareFn_cur (st : CG) (nm : Str) (ret : LType) :
    (st.declareFn nm ret).cur = st.cur := by
  unfold CG.declareFn; split <;> rfl

@[simp] theorem CG.declareFn_nextBlock (st : CG) (nm : Str) (ret : LType) :
    (st.declareFn nm ret).nextBlock = st.nextBlock := by
  unfold CG.declareFn; split <;> rfl

@[simp] theorem CG.declareFn_inAutoFrame (st : CG) (nm : Str) (ret : LType) :
    (st.declareFn nm ret).inAutoFrame = st.inAutoFrame := by
  unfold CG.declareFn; split <;> rfl

@[simp] theorem CG.declareFn_blockMap (st : CG) (nm : Str) (ret : LType) :
    (st.declareFn nm ret).blockMap = st.blockMap := by
  unfold CG.declareFn; split <;> rfl

theorem CG.callRuntime_void_fst (st : CG) (nm : Str) (args : List CVal) :
    (st.callRuntime nm .Void args).1 =
      (st.declareFn nm .Void).emit (.call nm args none) := by
  unfold CG.callRuntime
  dsimp only
  split
  · rfl
  · rfl
  · rename_i h1 h2
    exact absurd rfl h1

@[simp] theorem CG.callRuntime_void_trace (st : CG) (nm : Str)
    (args : List CVal) :
    (st.callRuntime nm .Void args).1.trace =
      st.trace ++ [.call nm args none] := by
  rw [CG.callRuntime_void_fst]; simp

@[simp] theorem CG.callRuntime_void_cur (st : CG) (nm : Str)
    (args : List CVal) :
    (st.callRuntime nm .Void args).1.cur = st.cur := by
  rw [CG.callRuntime_void_fst]; simp

@[simp] theorem CG.callRuntime_void_nextBlock (st : CG) (nm : Str)
    (args : List CVal) :
    (st.callRuntime nm .Void args).1.nextBlock = st.nextBlock := by
  rw [CG.callRuntime_void_fst]; simp

@[simp] theorem CG.callRuntime_void_inAutoFrame (st : CG) (nm : Str)
    (args : List CVal) :
    (st.callRuntime nm .Void args).1.inAutoFrame = st.inAutoFrame := by
  rw [CG.callRuntime_void_fst]; simp

theorem CG.needsTerminator_emit_call (st : CG) (nm : Str) (args : List CVal)
    (r : Option CVal) :
    ((st.emit (.call nm args r)).needsTerminator) = true := by
  simp [CG.needsTerminator, CG.blockItems, CG.emit]

theorem CG.needsTerminator_popScope (st : CG) :
    st.popScope.needsTerminator = st.needsTerminator := rfl

theorem countP_noFrame_zero {l : List Item} {nm : Str}
    (hnm : frameName nm = true)
    (h : l.all (fun it => !it.isFrameCall) = true) :
    l.countP (Item.isCallOf nm) = 0 := by
  rw [List.countP_eq_zero]
  intro it hit
  have hfree := List.all_eq_true.mp h it hit
  cases it with
  | instr tag args r => simp [Item.isCallOf]
  | term t => simp [Item.isCallOf]
  | call f args r =>
    simp only [Item.isFrameCall, Bool.not_eq_true'] at hfree
    simp only [Item.isCallOf, decide_eq_true_eq]
    intro hfe
    rw [hfe, hnm] at hfree
    exact Bool.noConfusion hfree

/-! ### The `While` arm, decomposed -/

def whileAutoPreBody (st : CG) : CG :=
  let st := (st.callRuntime "ensure_screen_init" .Void []).1
  let st := { st with inAutoFrame := true }
  let _p := st.newBlock
  let st := _p.1
  let condBb := _p.2
  let _p := st.newBlock
  let st := _p.1
  let bodyBb := _p.2
  let _p := st.newBlock
  let st := _p.1
  let exitBb := _p.2
  let st := st.emit (.term (.br condBb))
  let st := st.positionAtEnd condBb
  let st := st.emit (.term (.condbr (.intC 1 1) bodyBb exitBb))
  let st := st.positionAtEnd bodyBb
  let st := (st.callRuntime "runtime_frame_auto" .Void []).1
  let st := st.pushScope
  { st with loopStack := (condBb, exitBb) :: st.loopStack }

def whileAutoFinish (blk0 : Nat) (stA : CG) : CG :=
  let st := { stA with loopStack := stA.loopStack.tail }
  let st := st.popScope
  let st :=
    if st.needsTerminator then
      (st.callRuntime "runtime_frame_auto_end" .Void []).1
    else st
  let st := if st.needsTerminator then st.emit (.term (.br blk0)) else st
  let st := st.positionAtEnd (blk0 + 2)
  { st with inAutoFrame := false }

def whileCondState (st : CG) : CG :=
  let _p := st.newBlock
  let st := _p.1
  let condBb := _p.2
  let _p := st.newBlock
  let st := _p.1
  let _p := st.newBlock
  let st := _p.1
  let st := st.emit (.term (.br condBb))
  st.positionAtEnd condBb

def whileNQPreBody (st0 stC : CG) (cv : CVal) : CG :=
  let condBb := st0.nextBlock
  let bodyBb := st0.nextBlock + 1
  let exitBb := st0.nextBlock + 2
  let _p := stC.ensureI1 cv
  let st := _p.1
  let c := _p.2
  let st := st.emit (.term (.condbr c bodyBb exitBb))
  let st := st.positionAtEnd bodyBb
  let st := st.pushScope
  { st with loopStack := (condBb, exitBb) :: st.loopStack }

def whileNQFinish (blk0 : Nat) (stB : CG) : CG :=
  let st := { stB with loopStack := stB.loopStack.tail }
  let st := st.popScope
  let st := if st.needsTerminator then st.emit (.term (.br blk0)) else st
  st.positionAtEnd (blk0 + 2)

set_option maxHeartbeats 2000000 in
theorem codegenStatement_while_true_auto (m : Nat) (st : CG) (s : Span)
    (body : Block) (sp : Span) (h2 : st.inAutoFrame = false) :
    codegenStatement (m + 2) st (.While (.Literal ⟨.Bool true, s⟩) body sp) =
      (codegenStmtList (m + 1) (whileAutoPreBody st) body.statements).bind
        fun _ st2 => .ok () (whileAutoFinish st.nextBlock st2) := by
  obtain ⟨bm, tr, cur, nb, nr, vars, ls, iaf, fns⟩ := st
  have h2' : iaf = false := h2
  subst h2'
  by_cases hf :
      (fns.find? (fun p => p.1 = "ensure_screen_init")).isSome = true
  · simp only [codegenStatement, whileAutoPreBody, whileAutoFinish,
      CG.callRuntime, CG.declareFn, hf, if_true, isWhileTrueB]
    rfl
  · simp only [codegenStatement, whileAutoPreBody, whileAutoFinish,
      CG.callRuntime, CG.declareFn, hf, if_false, isWhileTrueB]
    rfl

set_option maxHeartbeats 2000000 in
theorem codegenStatement_while_nq (m : Nat) (st : CG) (cond : Expression)
    (body : Block) (sp : Span)
    (hAF : (isWhileTrueB cond && !st.inAutoFrame) = false) :
    codegenStatement (m + 2) st (.While cond body sp) =
      (codegenExpression (m + 1) (whileCondState st) cond).bindU
        fun cv stC =>
          (codegenStmtList (m + 1) (whileNQPreBody st stC cv)
              body.statements).bind
            fun _ st2 => .ok () (whileNQFinish st.nextBlock st2) := by
  simp only [codegenStatement, hAF, Bool.false_and, if_false,
    Bool.false_eq_true]
  rfl

/-! ### Trace shapes -/

def ensureItems (st : CG) (v : CVal) : List Item :=
  if v.lty = LTy.i 1 then []
  else [.instr "icmp_ne_zero" [v] (some (.reg st.nextReg (.i 1)))]

@[simp] theorem CG.ensureI1_fst_trace (st : CG) (v : CVal) :
    (st.ensureI1 v).1.trace = st.trace ++ ensureItems st v := by
  unfold CG.ensureI1 ensureItems
  split
  · simp
  · simp [CG.fresh]

@[simp] theorem CG.ensureI1_fst_cur (st : CG) (v : CVal) :
    (st.ensureI1 v).1.cur = st.cur := by
  unfold CG.ensureI1; split
  · rfl
  · simp [CG.fresh]

theorem ensureItems_noFrame (st : CG) (v : CVal) :
    (ensureItems st v).all (fun it => !it.isFrameCall) = true := by
  unfold ensureItems; split <;> simp [Item.isFrameCall]

theorem whileAutoPreBody_trace (st : CG) :
    (whileAutoPreBody st).trace =
      st.trace ++
        [.call "ensure_screen_init" [] none,
          .term (.br st.nextBlock),
          .term (.condbr (.intC 1 1) (st.nextBlock + 1) (st.nextBlock + 2)),
          .call "runtime_frame_auto" [] none] := by
  simp [whileAutoPreBody]

theorem whileCondState_trace (st : CG) :
    (whileCondState st).trace = st.trace ++ [.term (.br st.nextBlock)] := by
  simp [whileCondState]

theorem whileNQPreBody_trace (st0 stC : CG) (cv : CVal) :
    (whileNQPreBody st0 stC cv).trace =
      stC.trace ++ ensureItems stC cv ++
        [.term (.condbr (stC.ensureI1 cv).2
          (st0.nextBlock + 1) (st0.nextBlock + 2))] := by
  simp [whileNQPreBody]

theorem CG.needsTerminator_callRuntime_void (st : CG) (nm : Str)
    (args : List CVal) :
    ((st.callRuntime nm .Void args).1).needsTerminator = true := by
  rw [CG.callRuntime_void_fst]
  exact CG.needsTerminator_emit_call _ _ _ _

theorem whileAutoFinish_trace (blk0 : Nat) (stA : CG) :
    (whileAutoFinish blk0 stA).trace =
      stA.trace ++
        (if stA.needsTerminator then
          [.call "runtime_frame_auto_end" [] none, .term (.br blk0)]
         else []) := by
  have e1 : ({ stA with loopStack := stA.loopStack.tail } : CG).popScope.needsTerminator
      = stA.needsTerminator := rfl
  cases hT : stA.needsTerminator with
  | true =>
    simp [whileAutoFinish, e1, hT, CG.needsTerminator_callRuntime_void]
  | false =>
    simp [whileAutoFinish, e1, hT]

theorem whileAutoFinish_inAutoFrame (blk0 : Nat) (stA : CG) :
    (whileAutoFinish blk0 stA).inAutoFrame = false := rfl

theorem whileNQFinish_trace (blk0 : Nat) (stB : CG) :
    (whileNQFinish blk0 stB).trace =
      stB.trace ++
        (if stB.needsTerminator then [.term (.br blk0)] else []) := by
  have e1 : ({ stB with loopStack := stB.loopStack.tail } : CG).popScope.needsTerminator
      = stB.needsTerminator := rfl
  cases hT : stB.needsTerminator with
  | true => simp [whileNQFinish, e1, hT]
  | false => simp [whileNQFinish, e1, hT]

/-! ## Claim C4 — the auto-framed `while true` loop -/

/-- Number of calls to `nm` in a whole successful compilation. -/
def compileCallCount (fuel : Nat) (prog : Program) (nm : Str) : Option Nat :=
  match compileProgram fuel prog with
  | .ok _ st => some (st.callCount nm)
  | _ => none

/-- `while true { break }` as a program (the parser's AST for it). -/
def c4BreakProg : Program :=
  ⟨[.While (.Literal ⟨.Bool true, ⟨6, 10⟩⟩)
      (.mk [.Break ⟨13, 18⟩] ⟨11, 20⟩) ⟨0, 20⟩], ⟨0, 20⟩⟩

/-- C4 counterexample: the qualifying loop `while true { break }`
compiles with one call to `runtime_frame_auto` but NO call to
`runtime_frame_auto_end`: the break terminates the body block, so the
`auto_frame && needs_terminator` guard skips both the end call and the
back-edge. The claimed "exactly one call to runtime_frame_auto_end" is
false for this loop. -/
theorem c4_no_frame_end_on_break :
    compileCallCount 8 c4BreakProg "runtime_frame_auto" = some 1 ∧
    compileCallCount 8 c4BreakProg "runtime_frame_auto_end" = some 0 := by
  constructor <;> rfl

set_option maxHeartbeats 2000000 in
/-- C4 (amended): the `While` arm's own emissions. Part one (qualifying
loop: condition is the literal `true`, auto-frame flag clear): given the
state `stA` that generating the body from `whileAutoPreBody st` produced,
the arm returns `whileAutoFinish st.nextBlock stA`, whose trace is the
original trace, the `ensure_screen_init` call, the branch to the
condition block, the constant-true conditional branch, the
`runtime_frame_auto` call at the head of the body block, the body's own
emissions, and — only when the body left its block unterminated — the
`runtime_frame_auto_end` call immediately before the back-edge; when the
body's emissions contain no frame calls, the loop adds exactly one
`runtime_frame_auto` call, and one `runtime_frame_auto_end` call exactly
when the back-edge exists. Part two: a non-qualifying `while` adds no
frame calls beyond those of its condition and body. -/
theorem c4_while_auto_frame (m : Nat) (st stA stC stB : CG) (s : Span)
    (cond : Expression) (body : Block) (sp : Span) (cv : CVal)
    (bodySuf condSuf bodySuf2 : List Item) :
    (st.inAutoFrame = false →
     codegenStmtList (m + 1) (whileAutoPreBody st) body.statements =
        .ok () stA →
     stA.trace = (whileAutoPreBody st).trace ++ bodySuf →
     codegenStatement (m + 2) st
         (.While (.Literal ⟨.Bool true, s⟩) body sp) =
       .ok () (whileAutoFinish st.nextBlock stA) ∧
     (whileAutoFinish st.nextBlock stA).trace =
       st.trace ++
         [.call "ensure_screen_init" [] none,
           .term (.br st.nextBlock),
           .term (.condbr (.intC 1 1) (st.nextBlock + 1) (st.nextBlock + 2)),
           .call "runtime_frame_auto" [] none] ++
         bodySuf ++
         (if stA.needsTerminator then
           [.call "runtime_frame_auto_end" [] none, .term (.br st.nextBlock)]
          else []) ∧
     (whileAutoFinish st.nextBlock stA).inAutoFrame = false ∧
     (bodySuf.all (fun it => !it.isFrameCall) = true →
       (whileAutoFinish st.nextBlock stA).callCount "runtime_frame_auto" =
         st.callCount "runtime_frame_auto" + 1 ∧
       (whileAutoFinish st.nextBlock stA).callCount "runtime_frame_auto_end" =
         st.callCount "runtime_frame_auto_end" +
           (if stA.needsTerminator then 1 else 0))) ∧
    ((isWhileTrueB cond && !st.inAutoFrame) = false →
     codegenExpression (m + 1) (whileCondState st) cond = .ok (some cv) stC →
     stC.trace = (whileCondState st).trace ++ condSuf →
     codegenStmtList (m + 1) (whileNQPreBody st stC cv) body.statements =
        .ok () stB →
     stB.trace = (whileNQPreBody st stC cv).trace ++ bodySuf2 →
     ∃ tail,
       codegenStatement (m + 2) st (.While cond body sp) =
         .ok () (whileNQFinish st.nextBlock stB) ∧
       (whileNQFinish st.nextBlock stB).trace = st.trace ++ tail ∧
       (condSuf.all (fun it => !it.isFrameCall) = true →
        bodySuf2.all (fun it => !it.isFrameCall) = true →
        tail.all (fun it => !it.isFrameCall) = true)) := by
  constructor
  · intro h2 hbody htr
    have hEq : codegenStatement (m + 2) st
        (.While (.Literal ⟨.Bool true, s⟩) body sp) =
        .ok () (whileAutoFinish st.nextBlock stA) := by
      rw [codegenStatement_while_true_auto m st s body sp h2, hbody]
      rfl
    have hTr : (whileAutoFinish st.nextBlock stA).trace =
        st.trace ++
          [.call "ensure_screen_init" [] none,
            .term (.br st.nextBlock),
            .term (.condbr (.intC 1 1) (st.nextBlock + 1) (st.nextBlock + 2)),
            .call "runtime_frame_auto" [] none] ++
          bodySuf ++
          (if stA.needsTerminator then
            [.call "runtime_frame_auto_end" [] none,
              .term (.br st.nextBlock)]
           else []) := by
      rw [whileAutoFinish_trace, htr, whileAutoPreBody_trace]
    refine ⟨hEq, hTr, rfl, ?_⟩
    intro hfree
    have hz1 : bodySuf.countP (Item.isCallOf "runtime_frame_auto") = 0 :=
      countP_noFrame_zero (by decide) hfree
    have hz2 : bodySuf.countP (Item.isCallOf "runtime_frame_auto_end") = 0 :=
      countP_noFrame_zero (by decide) hfree
    constructor
    · rw [CG.callCount, CG.callCount, hTr]
      cases hT : stA.needsTerminator <;>
        simp [List.countP_append, List.countP_cons, hz1, Item.isCallOf]
    · rw [CG.callCount, CG.callCount, hTr]
      cases hT : stA.needsTerminator <;>
        simp [List.countP_append, List.countP_cons, hz2, Item.isCallOf]
  · intro hAF hcond hctr hbody2 htr2
    refine ⟨[.term (.br st.nextBlock)] ++ condSuf ++ ensureItems stC cv ++
        [.term (.condbr (stC.ensureI1 cv).2 (st.nextBlock + 1)
          (st.nextBlock + 2))] ++ bodySuf2 ++
        (if stB.needsTerminator then [.term (.br st.nextBlock)] else []),
      ?_, ?_, ?_⟩
    · rw [codegenStatement_while_nq m st cond body sp hAF, hcond]
      simp only [CRes.bindU, hbody2, CRes.bind]
    · rw [whileNQFinish_trace, htr2, whileNQPreBody_trace, hctr,
        whileCondState_trace]
      simp [List.append_assoc]
    · intro hc hb2
      have htail : ((if stB.needsTerminator then
          [Item.term (Term.br st.nextBlock)] else []).all
            (fun it => !it.isFrameCall)) = true := by
        cases stB.needsTerminator <;> rfl
      have h1 : (List.all [Item.term (Term.br st.nextBlock)]
          (fun it => !it.isFrameCall)) = true := rfl
      have h4 : (List.all [Item.term (Term.condbr (stC.ensureI1 cv).2
          (st.nextBlock + 1) (st.nextBlock + 2))]
          (fun it => !it.isFrameCall)) = true := rfl
      simp only [List.all_append, h1, h4, hc, hb2, ensureItems_noFrame,
        htail, Bool.and_self, Bool.and_true, Bool.true_and]

/-! ### `codegen_function_body`, decomposed -/

/-! ## Claim C7 — function terminators -/

def funcEntry (st : CG) (func : FunctionDecl) : CG :=
  let _p := st.newBlock
  let st1 := _p.1
  let entry := _p.2
  let st1 := st1.positionAtEnd entry
  let st1 := st1.pushScope
  allocParams st1 func.name.name func.params 0

def zeroRet : Ty → Option CVal
  | .Void => none
  | .Int => some (.intC 0 64)
  | .Float => some (.floatC "0.0")
  | .Bool => some (.intC 0 1)
  | _ => none

def lastIsExprB (func : FunctionDecl) : Bool :=
  (match func.body.statements.getLast? with
   | some (.Expression _ _) => true
   | _ => false) &&
  (match func.returnType.getD Ty.Void with
   | Ty.Void => false
   | _ => true)

def funcFinish (prevBlock : Nat) (retType : Ty) (stB : CG) : CG :=
  let st :=
    if stB.needsTerminator then stB.emit (.term (.ret (zeroRet retType)))
    else stB
  let st := st.popScope
  st.positionAtEnd prevBlock

set_option maxHeartbeats 2000000 in
theorem codegenFunctionBody_no_trailing_expr (m : Nat) (st : CG)
    (func : FunctionDecl)
    (hfind : (st.fns.find? (fun p => p.1 = func.name.name)).isSome = true)
    (hle : lastIsExprB func = false) :
    codegenFunctionBody (m + 1) st func =
      (codegenStmtList m (funcEntry st func) func.body.statements).bind
        fun _ stB =>
          .ok () (funcFinish st.cur (func.returnType.getD Ty.Void) stB) := by
  obtain ⟨pr, hpr⟩ := Option.isSome_iff_exists.mp hfind
  unfold lastIsExprB at hle
  cases hgl : func.body.statements.getLast? with
  | none =>
    cases hrt : func.returnType.getD Ty.Void <;>
      simp only [codegenFunctionBody, hpr, hgl, hrt, Bool.and_false,
        Bool.false_and, Bool.and_true, Bool.true_and, Bool.false_eq_true,
        if_false, List.take_length, CRes.bind] <;> rfl
  | some s0 =>
    cases s0
    case Expression expr esp =>
      rw [hgl] at hle
      have hv : func.returnType.getD Ty.Void = Ty.Void := by
        cases hrt : func.returnType.getD Ty.Void <;> rw [hrt] at hle <;>
          first
          | rfl
          | simp at hle
      simp only [codegenFunctionBody, hpr, hgl, hv, Bool.and_false,
        Bool.false_and, Bool.and_true, Bool.true_and, Bool.false_eq_true,
        if_false, List.take_length, CRes.bind]
      rfl
    all_goals
      cases hrt : func.returnType.getD Ty.Void <;>
        simp only [codegenFunctionBody, hpr, hgl, hrt, Bool.and_false,
          Bool.false_and, Bool.and_true, Bool.true_and, Bool.false_eq_true,
          if_false, List.take_length, CRes.bind] <;> rfl

/-- C7 (amended): for a function whose body does not end in an
implicit-return trailing expression (`lastIsExprB func = false`),
`codegen_function_body` produces `funcFinish`: when the block that is
current after the body is unterminated it receives a `ret` of the typed
zero (`zeroRet`: 0 for Int, 0.0 for Float, the 1-bit 0 for Bool, an
empty return for Void and for every other return type), and in every
case that block ends in a terminator. A trailing expression statement in
a non-Void function instead returns the expression's value — see
`c7_trailing_expr_returns_value`. -/
theorem c7_function_terminators (m : Nat) (st stB : CG)
    (func : FunctionDecl)
    (hfind : (st.fns.find? (fun p => p.1 = func.name.name)).isSome = true)
    (hle : lastIsExprB func = false)
    (hbody : codegenStmtList m (funcEntry st func) func.body.statements =
      .ok () stB) :
    codegenFunctionBody (m + 1) st func =
      .ok () (funcFinish st.cur (func.returnType.getD Ty.Void) stB) ∧
    (stB.needsTerminator = true →
      (funcFinish st.cur (func.returnType.getD Ty.Void) stB).blockItems
          stB.cur =
        stB.blockItems stB.cur ++
          [.term (.ret (zeroRet (func.returnType.getD Ty.Void)))]) ∧
    ∃ t, ((funcFinish st.cur (func.returnType.getD Ty.Void) stB).blockItems
        stB.cur).getLast? = some (.term t) := by
  refine ⟨?_, ?_, ?_⟩
  · rw [codegenFunctionBody_no_trailing_expr m st func hfind hle, hbody]
    rfl
  · intro hT
    simp [funcFinish, hT, CG.blockItems, CG.emit, CG.popScope,
      CG.positionAtEnd]
  · cases hT : stB.needsTerminator with
    | true =>
      refine ⟨.ret (zeroRet (func.returnType.getD Ty.Void)), ?_⟩
      simp [funcFinish, hT, CG.blockItems, CG.emit, List.getLast?_concat,
        CG.popScope, CG.positionAtEnd]
    | false =>
      have hn : stB.needsTerminator = false := hT
      unfold CG.needsTerminator at hn
      cases hl : (stB.blockItems stB.cur).getLast? with
      | none => rw [hl] at hn; simp at hn
      | some it =>
        cases it with
        | term t =>
          refine ⟨t, ?_⟩
          have hbi : (funcFinish st.cur (func.returnType.getD Ty.Void)
              stB).blockItems stB.cur = stB.blockItems stB.cur := by
            simp [funcFinish, hT, CG.blockItems, CG.popScope,
              CG.positionAtEnd]
          rw [hbi, hl]
        | instr tag args r => rw [hl] at hn; simp at hn
        | call f args r => rw [hl] at hn; simp at hn

/-- `fn f() -> Int { 5 }`. -/
def c7Func : FunctionDecl :=
  .mk ⟨"f", ⟨3, 4⟩⟩ [] (some Ty.Int)
    (.mk [.Expression (.Literal ⟨.Int 5, ⟨14, 15⟩⟩) ⟨14, 15⟩] ⟨12, 17⟩)
    ⟨0, 17⟩

/-- The emission trace of one function body. -/
def runFuncBody (fuel : Nat) (st : CG) (f : FunctionDecl) :
    Option (List Item) :=
  match codegenFunctionBody fuel st f with
  | .ok _ st => some st.trace
  | _ => none

/-- C7 counterexample: `fn f() -> Int { 5 }` falls through without
an explicit return, yet its emitted body is `ret 5` — the trailing
expression's value — not the claimed typed zero `ret 0`. -/
theorem c7_trailing_expr_returns_value :
    runFuncBody 3 (declareFunction initCG c7Func) c7Func =
      some [.term (.ret (some (.intC 5 64)))] ∧
    lastIsExprB c7Func = true := by
  constructor <;> rfl

/-- `fn f() { }`. -/
def c7VoidFunc : FunctionDecl :=
  .mk ⟨"f", ⟨3, 4⟩⟩ [] none (.mk [] ⟨8, 10⟩) ⟨0, 10⟩

/-- Witness for `c7_function_terminators` at the empty Void function. -/
theorem c7_function_terminators_witness :
    codegenFunctionBody 2 (declareFunction initCG c7VoidFunc) c7VoidFunc =
      .ok () (funcFinish (declareFunction initCG c7VoidFunc).cur Ty.Void
        (funcEntry (declareFunction initCG c7VoidFunc) c7VoidFunc)) ∧
    ∃ t, ((funcFinish (declareFunction initCG c7VoidFunc).cur Ty.Void
        (funcEntry (declareFunction initCG c7VoidFunc)
          c7VoidFunc)).blockItems
        (funcEntry (declareFunction initCG c7VoidFunc) c7VoidFunc).cur).getLast?
      = some (.term t) := by
  have h := c7_function_terminators 1
    (declareFunction initCG c7VoidFunc)
    (funcEntry (declareFunction initCG c7VoidFunc) c7VoidFunc)
    c7VoidFunc rfl rfl rfl
  exact ⟨h.1, h.2.2⟩

/-! ### String interpolation as an expression -/

/-! ## Claim C10 — string interpolation side effects -/

def letInterpResult (st1 : CG) (nm : Str) : CG :=
  let st := st1.emit (.call "runtime_print_newline" [] none)
  let _p := st.buildAlloca nm
  let st := _p.1
  let a := _p.2
  let st := st.buildStore (.reg a .ptr) (.strG "" "empty")
  st.insertVar nm ⟨a, .String⟩

/-- C10: a string-interpolation expression evaluated as an ordinary
expression emits its parts' print calls followed by
`runtime_print_newline`, and its value is the global pointer to the
empty string — which is exactly what a surrounding `let` allocates and
stores (typed String); literal parts go through
`runtime_print_str_part`. -/
theorem c10_string_interp_effects (n : Nat) (st st1 : CG)
    (parts : List StringPart) (sp sp2 : Span) (nm : Identifier)
    (ta : Option Ty)
    (hparts : emitStringInterpParts n st parts = .ok () st1) :
    codegenExpression (n + 1) st (.StringInterp parts sp) =
      .ok (some (.strG "" "empty"))
        (st1.emit (.call "runtime_print_newline" [] none)) ∧
    codegenStatement (n + 2) st (.Let nm ta (.StringInterp parts sp) sp2) =
      .ok () (letInterpResult st1 nm.name) ∧
    ∀ (litS : Str) (rest : List StringPart),
      emitStringInterpParts (n + 1) st (.Lit litS :: rest) =
        emitStringInterpParts n
          (st.emit (.call "runtime_print_str_part" [.strG litS "str_part"]
            none)) rest := by
  refine ⟨?_, ?_, ?_⟩
  · simp only [codegenExpression, hparts, CRes.bind]
  · simp only [codegenStatement, codegenExpression, hparts, CRes.bind]
    rfl
  · intro litS rest
    simp only [emitStringInterpParts]

/-- Witness for `c10_string_interp_effects` at the one-literal
interpolation. -/
theorem c10_string_interp_effects_witness :
    codegenExpression 3 initCG (.StringInterp [.Lit "hi"] ⟨0, 0⟩) =
      .ok (some (.strG "" "empty"))
        ((initCG.emit (.call "runtime_print_str_part"
            [.strG "hi" "str_part"] none)).emit
          (.call "runtime_print_newline" [] none)) :=
  (c10_string_interp_effects 2 initCG
    (initCG.emit (.call "runtime_print_str_part" [.strG "hi" "str_part"]
      none))
    [.Lit "hi"] ⟨0, 0⟩ ⟨0, 0⟩ ⟨"x", ⟨0, 0⟩⟩ none rfl).1

/-! ### Interpolation spans -/

/-! ## Claim C3 — span containment -/

/-- Containment of one span in another, as the claim states it. -/
def spanWithin (inner outer : Span) : Bool :=
  decide (outer.start ≤ inner.start) && decide (inner.stop ≤ outer.stop)

/-- Every successful interpolation parse yields a `StringInterp` with
exactly the span that was passed in (the string token's span) and leaves
the enclosing parser state untouched. -/
theorem parseInterpGo_span :
    ∀ (n : Nat) (chars cur : List Char) (parts : List StringPart)
      (span : Span) (st : PState) (e : Expression) (st' : PState),
      parseInterpGo n chars cur parts span st = .ok e st' →
      (∃ parts2, e = .StringInterp parts2 span) ∧ st' = st := by
  intro n
  induction n with
  | zero =>
    intro chars cur parts span st e st' h
    exact nomatch h
  | succ n ih =>
    intro chars cur parts span st e st' h
    cases chars with
    | nil =>
      simp only [parseInterpGo] at h
      cases h
      exact ⟨⟨_, rfl⟩, rfl⟩
    | cons ch rest =>
      simp only [parseInterpGo] at h
      by_cases hbr : ch = braceL
      · rw [if_pos hbr] at h
        cases hte : interpTakeExpr rest 1 with
        | none => rw [hte] at h; exact nomatch h
        | some pr =>
          obtain ⟨exprText, rest2⟩ := pr
          rw [hte] at h
          dsimp only at h
          cases hpe : parseExpression n
              ⟨tokenize (String.mk exprText), 0, []⟩ with
          | ok e2 st2 =>
            rw [hpe] at h
            exact ih _ _ _ _ _ _ _ h
          | err er st2 => rw [hpe] at h; exact nomatch h
          | fuel => rw [hpe] at h; exact nomatch h
      · rw [if_neg hbr] at h
        exact ih _ _ _ _ _ _ _ h

/-- C3 (amended): a successful run of the string-interpolation parser
(`parseInterpGo`, and `parseStringInterp` which wraps it) returns a
`StringInterp` node carrying exactly the string token's span and does
not consume tokens of the enclosing stream; the interpolated expressions
are parsed from a fresh tokenization of the brace contents, so their
spans start at the content's offset 0 and are not contained in the
parent's span — see `c3_interp_span_escape`. -/
theorem c3_interp_spans (n : Nat) (chars cur : List Char)
    (parts : List StringPart) (span : Span) (st : PState) (e : Expression)
    (st' : PState) :
    (parseInterpGo n chars cur parts span st = .ok e st' →
      (∃ parts2, e = .StringInterp parts2 span) ∧ st' = st) ∧
    (parseStringInterp n chars span st = .ok e st' →
      (∃ parts2, e = .StringInterp parts2 span) ∧ st' = st) := by
  constructor
  · exact parseInterpGo_span n chars cur parts span st e st'
  · intro h
    cases n with
    | zero => exact nomatch h
    | succ n =>
      simp only [parseStringInterp] at h
      exact parseInterpGo_span n chars [] [] span st e st' h

/-- C3 counterexample: the accepted program `let s = "{x}"` holds a
StringInterp spanning 8..13 whose inner identifier `x` has span 0..1 —
a child span lying entirely outside its parent's span. -/
theorem c3_interp_span_escape :
    parse 60 "let s = \x22\x7bx\x7d\x22" =
      .ok ⟨[.Let ⟨"s", ⟨4, 5⟩⟩ none
          (.StringInterp [.Expr (.Identifier ⟨"x", ⟨0, 1⟩⟩)] ⟨8, 13⟩)
          ⟨0, 13⟩],
        ⟨0, 13⟩⟩ ∧
    spanWithin ⟨0, 1⟩ ⟨8, 13⟩ = false := by
  constructor
  · rfl
  · rfl

/-- Witness for `c4_while_auto_frame`: both parts applied at `initCG`
with an empty body (and the literal-`false` condition for part two). -/
theorem c4_while_auto_frame_witness :
    codegenStatement 2 initCG
        (.While (.Literal ⟨.Bool true, ⟨0, 0⟩⟩) (.mk [] ⟨0, 0⟩) ⟨0, 0⟩) =
      .ok () (whileAutoFinish 0 (whileAutoPreBody initCG)) ∧
    (whileAutoFinish 0 (whileAutoPreBody initCG)).callCount
        "runtime_frame_auto" = 1 ∧
    (whileAutoFinish 0 (whileAutoPreBody initCG)).callCount
        "runtime_frame_auto_end" = 1 ∧
    ∃ tail : List Item,
      codegenStatement 2 initCG
          (.While (.Literal ⟨.Bool false, ⟨0, 0⟩⟩) (.mk [] ⟨0, 0⟩) ⟨0, 0⟩) =
        .ok () (whileNQFinish 0 (whileNQPreBody initCG
          (whileCondState initCG) (.intC 0 1))) ∧
      tail.all (fun it => !it.isFrameCall) = true := by
  have h := c4_while_auto_frame 0 initCG (whileAutoPreBody initCG)
    (whileCondState initCG)
    (whileNQPreBody initCG (whileCondState initCG) (.intC 0 1))
    ⟨0, 0⟩ (.Literal ⟨.Bool false, ⟨0, 0⟩⟩) (.mk [] ⟨0, 0⟩) ⟨0, 0⟩
    (.intC 0 1) [] [] []
  obtain ⟨hEq, hTr, hFl, hCnt⟩ := h.1 rfl rfl (by simp)
  obtain ⟨hc1, hc2⟩ := hCnt rfl
  obtain ⟨tail, hEq2, hTr2, hFree⟩ := h.2 rfl rfl (by simp) rfl (by simp)
  refine ⟨hEq, ?_, ?_, ⟨tail, hEq2, hFree rfl rfl⟩⟩
  · exact hc1.trans (by decide)
  · exact hc2.trans (by decide)

/-! ## Claim C8 — Span merge algebra -/

/-- C8 counterexample: the dummy span `0..0` is not an identity for
`merge` — merging it with `1..2` zeroes the start. The claimed monoid
identity laws fail. -/
theorem c8_dummy_not_identity :
    Span.merge Span.dummy ⟨1, 2⟩ ≠ ⟨1, 2⟩ ∧
    Span.merge ⟨1, 2⟩ Span.dummy ≠ ⟨1, 2⟩ := by decide

/-- C8 (amended): `Span.merge` is associative and commutative (min of
starts, max of ends), but `dummy = 0..0` is not an identity element:
`merge dummy s = 0..s.end` on both sides, and dummy acts as an identity
on `s` precisely when `s.start = 0`. -/
theorem c8_span_merge_amended :
    (∀ a b c : Span, (a.merge b).merge c = a.merge (b.merge c)) ∧
    (∀ a b : Span, a.merge b = b.merge a) ∧
    (∀ s : Span, Span.dummy.merge s = ⟨0, s.stop⟩ ∧
      s.merge Span.dummy = ⟨0, s.stop⟩) ∧
    (∀ s : Span,
      (Span.dummy.merge s = s ∧ s.merge Span.dummy = s) ↔ s.start = 0) := by
  refine ⟨?_, ?_, ?_, ?_⟩
  · intro a b c
    simp [Span.merge, Span.mk.injEq, min_assoc, max_assoc]
  · intro a b
    simp [Span.merge, Span.mk.injEq, min_comm, max_comm]
  · intro s
    constructor <;> simp [Span.merge, Span.dummy, Span.mk.injEq]
  · intro s
    obtain ⟨a, b⟩ := s
    simp only [Span.merge, Span.dummy, Span.mk.injEq]
    constructor <;> intro h <;> omega

/-! ## Claim C1 — `for` over a range -/

/-- C1: the parser rejects both range forms that the repository's own
tests require to succeed. The expression grammar has no production for
`..` (or `to`), so after parsing the iterable `0` of
`for i in 0..3 { print(i) }` the parser demands a block and fails on
`..`; `for i in 1 to 3 { … }` likewise fails on `to`. No For statement
with a Range iterable is ever produced. -/
theorem c1_for_range_rejected :
    parse 100 "for i in 0..3 \x7b print(i) \x7d" =
      .errs [.SyntaxError "expected '\x7b', found '..'" ⟨10, 12⟩] ∧
    parse 100 "for i in 1 to 3 \x7b print(i) \x7d" =
      .errs [.SyntaxError "expected '\x7b', found 'to'" ⟨11, 13⟩] := by
  constructor <;> rfl

/-! ## Claim C2 — parenthesized tuples -/

/-- C2 counterexample: `(a, b)` does not parse into the synthetic call
`point(a, b)` — the parser rejects the comma with a syntax error, so the
claimed tuple desugaring does not exist. `(r, g, b)` fails identically. -/
theorem c2_tuple_counterexample :
    parse 100 "let p = (1, 2)" =
      .errs [.SyntaxError "expected ')', found ','" ⟨10, 11⟩] ∧
    parse 100 "let c = (1, 2, 3)" =
      .errs [.SyntaxError "expected ')', found ','" ⟨10, 11⟩] := by
  constructor <;> rfl

/-- C2 (amended): a parenthesized primary is plain grouping only — after
the inner expression is parsed, a following `)` returns that expression
unchanged, and a following `,` is rejected with exactly the syntax error
`expected ')', found ','`; no point/color desugaring exists for any
arity. -/
theorem c2_paren_grouping (n : Nat) (st st₁ : PState) (e : Expression)
    (hcur : st.current = Token.LParen)
    (hinner : parseExpression n st.advance = .ok e st₁) :
    (st₁.current = Token.RParen →
      parsePrimary (n + 1) st = .ok e st₁.advance) ∧
    (st₁.current = Token.Comma →
      parsePrimary (n + 1) st =
        .err (.SyntaxError "expected ')', found ','" st₁.currentSpan) st₁) := by
  constructor <;> intro h <;>
    simp [parsePrimary, hcur, hinner, PRes.bind, PState.expect, h,
      Token.display]

/-- Witness for `c2_paren_grouping` at the token stream of `(1)` /
`(1,`. -/
theorem c2_paren_grouping_witness :
    (parsePrimary 21
      ⟨[⟨.LParen, ⟨0, 1⟩⟩, ⟨.Int 1, ⟨1, 2⟩⟩, ⟨.RParen, ⟨2, 3⟩⟩,
        ⟨.Eof, ⟨3, 3⟩⟩], 0, []⟩ =
      .ok (.Literal ⟨.Int 1, ⟨1, 2⟩⟩)
        ⟨[⟨.LParen, ⟨0, 1⟩⟩, ⟨.Int 1, ⟨1, 2⟩⟩, ⟨.RParen, ⟨2, 3⟩⟩,
          ⟨.Eof, ⟨3, 3⟩⟩], 3, []⟩) ∧
    (parsePrimary 21
      ⟨[⟨.LParen, ⟨0, 1⟩⟩, ⟨.Int 1, ⟨1, 2⟩⟩, ⟨.Comma, ⟨2, 3⟩⟩,
        ⟨.Eof, ⟨3, 3⟩⟩], 0, []⟩ =
      .err (.SyntaxError "expected ')', found ','" ⟨2, 3⟩)
        ⟨[⟨.LParen, ⟨0, 1⟩⟩, ⟨.Int 1, ⟨1, 2⟩⟩, ⟨.Comma, ⟨2, 3⟩⟩,
          ⟨.Eof, ⟨3, 3⟩⟩], 2, []⟩) := by
  constructor
  · exact (c2_paren_grouping 20
      ⟨[⟨.LParen, ⟨0, 1⟩⟩, ⟨.Int 1, ⟨1, 2⟩⟩, ⟨.RParen, ⟨2, 3⟩⟩,
        ⟨.Eof, ⟨3, 3⟩⟩], 0, []⟩
      ⟨[⟨.LParen, ⟨0, 1⟩⟩, ⟨.Int 1, ⟨1, 2⟩⟩, ⟨.RParen, ⟨2, 3⟩⟩,
        ⟨.Eof, ⟨3, 3⟩⟩], 2, []⟩
      (.Literal ⟨.Int 1, ⟨1, 2⟩⟩) (by rfl) (by rfl)).1 (by rfl)
  · exact (c2_paren_grouping 20
      ⟨[⟨.LParen, ⟨0, 1⟩⟩, ⟨.Int 1, ⟨1, 2⟩⟩, ⟨.Comma, ⟨2, 3⟩⟩,
        ⟨.Eof, ⟨3, 3⟩⟩], 0, []⟩
      ⟨[⟨.LParen, ⟨0, 1⟩⟩, ⟨.Int 1, ⟨1, 2⟩⟩, ⟨.Comma, ⟨2, 3⟩⟩,
        ⟨.Eof, ⟨3, 3⟩⟩], 2, []⟩
      (.Literal ⟨.Int 1, ⟨1, 2⟩⟩) (by rfl) (by rfl)).2 (by rfl)

/-! ## Claim C6 — namespace method chains -/

/-- The token carrying each namespace keyword. -/
def namespaceToken : NamespaceRef → Token
  | .Screen => .Screen
  | .Sound => .Sound
  | .Input => .Input
  | .Math => .Math
  | .System => .System
  | .Memory => .Memory
  | .Io => .Io
  | .Asset => .Asset

/-- C6 counterexample: `Asset` is one of the eight namespace keywords, but
an `Asset` token at primary position is rejected outright (`parse_primary`
and `parse_method_chain` both omit it), so `Asset.load("x")` is a syntax
error rather than a MethodChain. -/
theorem c6_asset_counterexample :
    parse 100 "Asset.load(\"x\")" =
      .errs [.SyntaxError "unexpected token 'Asset'" ⟨0, 5⟩] := by rfl

set_option maxHeartbeats 4000000 in
/-- C6 (amended): for the seven namespace keywords other than `Asset` —
Screen, Sound, Input, Math, System, Memory, IO — a namespace token
followed by `.method(args)` (or a bare `.method`, treated as a
zero-argument call) parses into a single MethodChain expression with that
namespace as base and the chain of method calls; an `Asset` token at
primary position is a syntax error instead. -/
theorem c6_namespace_method_chain (ns : NamespaceRef) (hns : ns ≠ .Asset)
    (n : Nat) (m : String) (es : List GBError)
    (sp0 sp1 sp2 sp3 sp4 : Span) :
    (parsePrimary (n + 4)
        ⟨[⟨namespaceToken ns, sp0⟩, ⟨.Dot, sp1⟩, ⟨.Ident m, sp2⟩,
          ⟨.Eof, sp3⟩], 0, es⟩ =
      .ok (.MethodChain ns [⟨⟨m, sp2⟩, [], sp2.merge sp2⟩]
          (sp0.merge (sp2.merge sp2)))
        ⟨[⟨namespaceToken ns, sp0⟩, ⟨.Dot, sp1⟩, ⟨.Ident m, sp2⟩,
          ⟨.Eof, sp3⟩], 3, es⟩) ∧
    (parsePrimary (n + 4)
        ⟨[⟨namespaceToken ns, sp0⟩, ⟨.Dot, sp1⟩, ⟨.Ident m, sp2⟩,
          ⟨.LParen, sp3⟩, ⟨.RParen, sp4⟩, ⟨.Eof, sp4⟩], 0, es⟩ =
      .ok (.MethodChain ns [⟨⟨m, sp2⟩, [], sp2.merge sp4⟩]
          (sp0.merge (sp2.merge sp4)))
        ⟨[⟨namespaceToken ns, sp0⟩, ⟨.Dot, sp1⟩, ⟨.Ident m, sp2⟩,
          ⟨.LParen, sp3⟩, ⟨.RParen, sp4⟩, ⟨.Eof, sp4⟩], 5, es⟩) ∧
    (parsePrimary (n + 4)
        ⟨[⟨Token.Asset, sp0⟩, ⟨.Dot, sp1⟩, ⟨.Ident m, sp2⟩,
          ⟨.Eof, sp3⟩], 0, es⟩ =
      .err (.SyntaxError "unexpected token 'Asset'" sp0)
        ⟨[⟨Token.Asset, sp0⟩, ⟨.Dot, sp1⟩, ⟨.Ident m, sp2⟩,
          ⟨.Eof, sp3⟩], 0, es⟩) := by
  refine ⟨?_, ?_, ?_⟩ <;>
    cases ns <;> first
    | exact absurd rfl hns
    | rfl

/-- Witness for `c6_namespace_method_chain` at `Screen.init` /
`Screen.init()` and `Asset.load`. -/
theorem c6_namespace_method_chain_witness :
    (parsePrimary 4
        ⟨[⟨Token.Screen, ⟨0, 6⟩⟩, ⟨.Dot, ⟨6, 7⟩⟩, ⟨.Ident "init", ⟨7, 11⟩⟩,
          ⟨.Eof, ⟨11, 11⟩⟩], 0, []⟩ =
      .ok (.MethodChain .Screen
          [⟨⟨"init", ⟨7, 11⟩⟩, [], Span.merge ⟨7, 11⟩ ⟨7, 11⟩⟩]
          (Span.merge ⟨0, 6⟩ (Span.merge ⟨7, 11⟩ ⟨7, 11⟩)))
        ⟨[⟨Token.Screen, ⟨0, 6⟩⟩, ⟨.Dot, ⟨6, 7⟩⟩, ⟨.Ident "init", ⟨7, 11⟩⟩,
          ⟨.Eof, ⟨11, 11⟩⟩], 3, []⟩) ∧
    (parsePrimary 4
        ⟨[⟨Token.Asset, ⟨0, 5⟩⟩, ⟨.Dot, ⟨5, 6⟩⟩, ⟨.Ident "load", ⟨6, 10⟩⟩,
          ⟨.Eof, ⟨10, 10⟩⟩], 0, []⟩ =
      .err (.SyntaxError "unexpected token 'Asset'" ⟨0, 5⟩)
        ⟨[⟨Token.Asset, ⟨0, 5⟩⟩, ⟨.Dot, ⟨5, 6⟩⟩, ⟨.Ident "load", ⟨6, 10⟩⟩,
          ⟨.Eof, ⟨10, 10⟩⟩], 0, []⟩) :=
  ⟨(c6_namespace_method_chain .Screen (by decide) 0 "init" []
      ⟨0, 6⟩ ⟨6, 7⟩ ⟨7, 11⟩ ⟨11, 11⟩ ⟨0, 0⟩).1,
    (c6_namespace_method_chain .Screen (by decide) 0 "load" []
      ⟨0, 5⟩ ⟨5, 6⟩ ⟨6, 10⟩ ⟨10, 10⟩ ⟨0, 0⟩).2.2⟩

/-! ## Claim C9 — case-insensitive tokenization -/

/-- C9: tokenization is case-insensitive on identifier and keyword texts.
For any text `K` of identifier shape (`[A-Za-z_][A-Za-z0-9_]*`, which
includes every keyword), `tokenize K`, `tokenize (lowercase K)` and
`tokenize (uppercase K)` are the same token stream: one token classified
from the lowercased text, spanning `0..|K|`, followed by EOF. -/
theorem c9_tokenize_case_insensitive (s : String)
    (h : identShapedB s.toList = true) :
    tokenize (String.mk (asciiLower s.toList)) = tokenize s ∧
    tokenize (String.mk (asciiUpper s.toList)) = tokenize s ∧
    tokenize s =
      [⟨classifyIdent (String.mk (asciiLower s.toList)), ⟨0, s.length⟩⟩,
        ⟨.Eof, ⟨s.length, s.length⟩⟩] := by
  cases hl : s.toList with
  | nil => rw [hl] at h; simp [identShapedB] at h
  | cons c cs =>
    rw [hl] at h
    simp only [identShapedB, Bool.and_eq_true, List.all_eq_true] at h
    obtain ⟨h1, h2⟩ := h
    have hslen : s.length = cs.length + 1 := by
      have hh : s.length = s.toList.length := rfl
      rw [hh, hl]; rfl
    have t3 : tokenize s =
        [⟨classifyIdent (String.mk (asciiLower (c :: cs))),
          ⟨0, cs.length + 1⟩⟩, ⟨.Eof, ⟨s.length, s.length⟩⟩] := by
      rw [tokenize, hl, hslen, lexGo_ident _ _ _ _ h1 h2]
      simp [Nat.add_comm]
    have hlow : (String.mk (asciiLower (c :: cs))).toList =
        Char.toLower c :: asciiLower cs := rfl
    have hup : (String.mk (asciiUpper (c :: cs))).toList =
        Char.toUpper c :: asciiUpper cs := rfl
    have hlowlen : (String.mk (asciiLower (c :: cs))).length =
        cs.length + 1 := by
      show (asciiLower (c :: cs)).length = cs.length + 1
      simp [asciiLower]
    have huplen : (String.mk (asciiUpper (c :: cs))).length =
        cs.length + 1 := by
      show (asciiUpper (c :: cs)).length = cs.length + 1
      simp [asciiUpper]
    have t1 : tokenize (String.mk (asciiLower (c :: cs))) =
        [⟨classifyIdent (String.mk (asciiLower (c :: cs))),
          ⟨0, cs.length + 1⟩⟩, ⟨.Eof, ⟨s.length, s.length⟩⟩] := by
      rw [tokenize, hlow, hlowlen,
        lexGo_ident _ _ _ _ (isIdentStart_toLower h1)
          (fun x hx => by
            simp only [asciiLower, List.mem_map] at hx
            obtain ⟨a, ha, rfl⟩ := hx
            exact isIdentChar_toLower (h2 a ha))]
      have : asciiLower (Char.toLower c :: asciiLower cs) =
          asciiLower (c :: cs) := by
        have := asciiLower_asciiLower (c :: cs)
        simpa [asciiLower] using this
      rw [this]
      simp [asciiLower, Nat.add_comm, hslen, hlowlen]
    have t2 : tokenize (String.mk (asciiUpper (c :: cs))) =
        [⟨classifyIdent (String.mk (asciiLower (c :: cs))),
          ⟨0, cs.length + 1⟩⟩, ⟨.Eof, ⟨s.length, s.length⟩⟩] := by
      rw [tokenize, hup, huplen,
        lexGo_ident _ _ _ _ (isIdentStart_toUpper h1)
          (fun x hx => by
            simp only [asciiUpper, List.mem_map] at hx
            obtain ⟨a, ha, rfl⟩ := hx
            exact isIdentChar_toUpper (h2 a ha))]
      have : asciiLower (Char.toUpper c :: asciiUpper cs) =
          asciiLower (c :: cs) := by
        have := asciiLower_asciiUpper (c :: cs)
        simpa [asciiLower, asciiUpper] using this
      rw [this]
      simp [asciiUpper, Nat.add_comm, hslen, huplen]
    refine ⟨?_, ?_, ?_⟩
    · rw [t1, t3]
    · rw [t2, t3]
    · rw [t3, hslen]

/-- Witness for `c9_tokenize_case_insensitive` at the keyword text
`While`. -/
theorem c9_tokenize_case_insensitive_witness :
    identShapedB "While".toList = true ∧
    tokenize (String.mk (asciiUpper "While".toList)) = tokenize "While" :=
  ⟨by decide, (c9_tokenize_case_insensitive "While" (by decide)).2.1⟩

/-! ## Claim C5 — the binary-operator typing rule -/

/-- C5: the type checker's binary-op rule. With no Unknown operand:
arithmetic on identical Int or identical Float yields that type, an
Int/Float mix yields Float, `+` on two Strings yields String, and every
other arithmetic combination is a TypeError; comparisons yield Bool on
equal types or an Int/Float mix and a TypeError otherwise; `and`/`or`
yield Bool exactly when both operands are Bool. With an Unknown operand
the expression passes: Bool for comparisons and `and`/`or`, the other
side's type for arithmetic. -/
theorem c5_binary_op_rule (lt rt : Ty) (op : BinaryOp) (sp : Span) :
    (lt ≠ Ty.Unknown → rt ≠ Ty.Unknown →
      (isArithOp op = true →
        (lt = Ty.Int → rt = Ty.Int →
          checkBinaryOp lt op rt sp = .ok Ty.Int) ∧
        (lt = Ty.Float → rt = Ty.Float →
          checkBinaryOp lt op rt sp = .ok Ty.Float) ∧
        (isIntFloatMix lt rt = true →
          checkBinaryOp lt op rt sp = .ok Ty.Float) ∧
        (op = BinaryOp.Add → lt = Ty.String → rt = Ty.String →
          checkBinaryOp lt op rt sp = .ok Ty.String) ∧
        (¬(lt = rt ∧ (lt = Ty.Int ∨ lt = Ty.Float)) →
          isIntFloatMix lt rt = false →
          ¬(op = BinaryOp.Add ∧ lt = Ty.String ∧ rt = Ty.String) →
          isTypeErrorRes (checkBinaryOp lt op rt sp) = true)) ∧
      (isCmpOp op = true →
        (lt = rt → checkBinaryOp lt op rt sp = .ok Ty.Bool) ∧
        (isIntFloatMix lt rt = true →
          checkBinaryOp lt op rt sp = .ok Ty.Bool) ∧
        (lt ≠ rt → isIntFloatMix lt rt = false →
          isTypeErrorRes (checkBinaryOp lt op rt sp) = true)) ∧
      ((op = BinaryOp.And ∨ op = BinaryOp.Or) →
        (lt = Ty.Bool → rt = Ty.Bool →
          checkBinaryOp lt op rt sp = .ok Ty.Bool) ∧
        (¬(lt = Ty.Bool ∧ rt = Ty.Bool) →
          isTypeErrorRes (checkBinaryOp lt op rt sp) = true))) ∧
    ((lt = Ty.Unknown ∨ rt = Ty.Unknown) →
      ((isCmpOp op = true ∨ op = BinaryOp.And ∨ op = BinaryOp.Or) →
        checkBinaryOp lt op rt sp = .ok Ty.Bool) ∧
      (isArithOp op = true →
        (lt = Ty.Unknown → checkBinaryOp lt op rt sp = .ok rt) ∧
        (rt = Ty.Unknown → lt ≠ Ty.Unknown →
          checkBinaryOp lt op rt sp = .ok lt))) := by
  constructor
  · intro hl hr
    have ho : ¬(lt = Ty.Unknown ∨ rt = Ty.Unknown) := by tauto
    refine ⟨?_, ?_, ?_⟩
    · intro hop
      refine ⟨?_, ?_, ?_, ?_, ?_⟩
      · rintro rfl rfl
        rw [checkBinaryOp, if_neg ho]
        cases op <;> simp only [isArithOp, Bool.false_eq_true] at hop <;> rfl
      · rintro rfl rfl
        rw [checkBinaryOp, if_neg ho]
        cases op <;> simp only [isArithOp, Bool.false_eq_true] at hop <;> rfl
      · intro hmix
        rw [checkBinaryOp, if_neg ho]
        have hm := hmix
        simp only [isIntFloatMix, decide_eq_true_eq] at hm
        rcases hm with ⟨rfl, rfl⟩ | ⟨rfl, rfl⟩ <;>
          cases op <;> simp only [isArithOp, Bool.false_eq_true] at hop <;> rfl
      · rintro rfl rfl rfl
        rw [checkBinaryOp, if_neg ho]
        rfl
      · intro hne hmix hstr
        rw [checkBinaryOp, if_neg ho]
        cases op <;> simp only [isArithOp, Bool.false_eq_true] at hop <;>
          (simp only [checkBinaryOpKnown]
           split_ifs with h1 h2 h3 <;>
             first
             | rfl
             | exact absurd h1 hne
             | (rw [hmix] at h2; exact Bool.noConfusion h2)
             | (rw [hmix] at h1; exact Bool.noConfusion h1)
             | (exfalso; exact hstr ⟨rfl, h2.2⟩)
             | (exfalso; exact hstr ⟨rfl, h3.2⟩)
             | simp at h2
             | simp at h3)
    · intro hop
      refine ⟨?_, ?_, ?_⟩
      · rintro rfl
        rw [checkBinaryOp, if_neg ho]
        cases op <;> simp only [isCmpOp, Bool.false_eq_true] at hop <;>
          simp [checkBinaryOpKnown]
      · intro hmix
        rw [checkBinaryOp, if_neg ho]
        cases op <;> simp only [isCmpOp, Bool.false_eq_true] at hop <;>
          simp [checkBinaryOpKnown, hmix]
      · intro hne hmix
        rw [checkBinaryOp, if_neg ho]
        cases op <;> simp only [isCmpOp, Bool.false_eq_true] at hop <;>
          simp [checkBinaryOpKnown, hmix, hne, isTypeErrorRes]
    · intro hop
      refine ⟨?_, ?_⟩
      · rintro rfl rfl
        rw [checkBinaryOp, if_neg ho]
        rcases hop with rfl | rfl <;> rfl
      · intro hne
        rw [checkBinaryOp, if_neg ho]
        rcases hop with rfl | rfl <;>
          (simp only [checkBinaryOpKnown]
           rw [if_neg hne]
           rfl)
  · intro hu
    refine ⟨?_, ?_⟩
    · intro hop
      rw [checkBinaryOp, if_pos hu]
      rcases hop with hc | rfl | rfl
      · cases op <;> simp only [isCmpOp, Bool.false_eq_true] at hc <;> rfl
      · rfl
      · rfl
    · intro hop
      constructor
      · rintro rfl
        rw [checkBinaryOp, if_pos hu]
        cases op <;> simp only [isArithOp, Bool.false_eq_true] at hop <;>
          (simp only [checkBinaryOpUnknown]
           by_cases hrt : rt = Ty.Unknown
           · subst hrt; simp
           · simp [hrt])
      · rintro rfl hlne
        rw [checkBinaryOp, if_pos hu]
        cases op <;> simp only [isArithOp, Bool.false_eq_true] at hop <;>
          simp [checkBinaryOpUnknown, hlne]

/-- Witness for `c5_binary_op_rule` at concrete operand types. -/
theorem c5_binary_op_rule_witness :
    checkBinaryOp .Int .Add .Int ⟨0, 0⟩ = .ok Ty.Int ∧
    checkBinaryOp .Int .Mul .Float ⟨0, 0⟩ = .ok Ty.Float ∧
    isTypeErrorRes (checkBinaryOp .String .Sub .String ⟨0, 0⟩) = true ∧
    checkBinaryOp .Unknown .Add .Int ⟨0, 0⟩ = .ok Ty.Int ∧
    checkBinaryOp .Unknown .Lt .String ⟨0, 0⟩ = .ok Ty.Bool :=
  ⟨((c5_binary_op_rule .Int .Int .Add ⟨0, 0⟩).1 (by decide) (by decide)).1
      (by decide) |>.1 rfl rfl,
    ((c5_binary_op_rule .Int .Float .Mul ⟨0, 0⟩).1 (by decide)
      (by decide)).1 (by decide) |>.2.2.1 (by decide),
    ((c5_binary_op_rule .String .String .Sub ⟨0, 0⟩).1 (by decide)
      (by decide)).1 (by decide) |>.2.2.2.2 (by decide) (by decide)
      (by decide),
    ((c5_binary_op_rule .Unknown .Int .Add ⟨0, 0⟩).2 (Or.inl rfl)).2
      (by decide) |>.1 rfl,
    ((c5_binary_op_rule .Unknown .String .Lt ⟨0, 0⟩).2 (Or.inl rfl)).1
      (Or.inl (by decide))⟩

end GBasic
